import Mathlib

/-!
# Request handlers of the 9P server (`srv/fcall.go`)

A shallow embedding of the pre- and post-handlers of `srv/fcall.go`.

* Go pointers (`*Fid`, `*Req`) are addresses into two heaps held by the
  `World`: `fids` and `reqs`.  A `nil` pointer is `none`; dereferencing `nil`
  (a Go panic) makes a handler return `none`.
* The connection's tables (`fidpool`, `Reqs`) are association lists from the
  wire number (fid handle, tag) to an address.
* Calls that leave the file (a response, a backend operation, an auth
  operation) are appended to `World.trace`, in program order.
* Machine integers are `Nat` with an explicit `% 2 ^ w` where the code does
  arithmetic on them.
-/

namespace Ninep

/-! ## Constants of package `ninep` and of `srv/srv.go` -/

/-- Modelled from the spec: `ninep.IOHDRSZ`, the fixed I/O header overhead; the
constant is declared outside `srv/fcall.go`, the value is the one of 9P2000. -/
def IOHDRSZ : Nat := 24
/-- Modelled from the spec: `ninep.NOFID`, the reserved "no-fid" handle. -/
def NOFID : Nat := 0xFFFFFFFF
/-- Modelled from the spec: `ninep.NOTAG`, the reserved "no-tag" value. -/
def NOTAG : Nat := 0xFFFF
/-- Modelled from the spec: `ninep.NOUID`, the "no numeric id" value. -/
def NOUID : Nat := 0xFFFFFFFF

/-- Modelled from the spec: `ninep.QTDIR`, the directory bit of a qid type. -/
def QTDIR : Nat := 0x80
/-- Modelled from the spec: `ninep.QTAUTH`, the auth bit of a qid type. -/
def QTAUTH : Nat := 0x08

/-- Modelled from the spec: `ninep.OREAD`, the read-only open mode. -/
def OREAD : Nat := 0
/-- Modelled from the spec: `ninep.OWRITE`, the write-only open mode. -/
def OWRITE : Nat := 1

/-- Modelled from the spec: `ninep.DMDIR`, directory permission bit. -/
def DMDIR : Nat := 0x80000000
/-- Modelled from the spec: `ninep.DMSYMLINK` (9P2000.u). -/
def DMSYMLINK : Nat := 0x02000000
/-- Modelled from the spec: `ninep.DMLINK` (9P2000.u). -/
def DMLINK : Nat := 0x01000000
/-- Modelled from the spec: `ninep.DMDEVICE` (9P2000.u). -/
def DMDEVICE : Nat := 0x00800000
/-- Modelled from the spec: `ninep.DMNAMEDPIPE` (9P2000.u). -/
def DMNAMEDPIPE : Nat := 0x00200000
/-- Modelled from the spec: `ninep.DMSOCKET` (9P2000.u). -/
def DMSOCKET : Nat := 0x00100000

/-- Modelled from the spec: `ninep.EINVAL`, the invalid-argument error number. -/
def EINVAL : Nat := 22

/-- Modelled from the spec: message type `ninep.Rversion`. -/
def Rversion : Nat := 101
/-- Modelled from the spec: message type `ninep.Rauth`. -/
def Rauth : Nat := 103
/-- Modelled from the spec: message type `ninep.Rattach`. -/
def Rattach : Nat := 105
/-- Modelled from the spec: message type `ninep.Rerror`. -/
def Rerror : Nat := 107
/-- Modelled from the spec: message type `ninep.Rflush`. -/
def Rflush : Nat := 109
/-- Modelled from the spec: message type `ninep.Rwalk`. -/
def Rwalk : Nat := 111
/-- Modelled from the spec: message type `ninep.Ropen`. -/
def Ropen : Nat := 113
/-- Modelled from the spec: message type `ninep.Rcreate`. -/
def Rcreate : Nat := 115
/-- Modelled from the spec: message type `ninep.Rread`. -/
def Rread : Nat := 117
/-- Modelled from the spec: message type `ninep.Rwrite`. -/
def Rwrite : Nat := 119
/-- Modelled from the spec: message type `ninep.Rclunk`. -/
def Rclunk : Nat := 121
/-- Modelled from the spec: message type `ninep.Rremove`. -/
def Rremove : Nat := 123

/-- Modelled from the spec: status bit "flush-requested" (`reqFlush`). -/
def reqFlush : Nat := 1
/-- Modelled from the spec: status bit "work-in-progress" (`reqWork`). -/
def reqWork : Nat := 2
/-- Modelled from the spec: status bit "response produced" (`reqResponded`). -/
def reqResponded : Nat := 4
/-- Modelled from the spec: status bit "saved-for-async-completion" (`reqSaved`). -/
def reqSaved : Nat := 8

/-! ## Data model -/

/-- The error values handed to `RespondError`.  The named constructors are the
package-level error variables of `srv` (distinct pointers in Go); `lit` is an
error literal built in place (`&ninep.Error{msg, errno}`); `backend` is an error
returned by the backend or by an auth operation. -/
inductive Error where
  | Eunknownfid
  | Einuse
  | Enouser
  | Enoauth
  | Enotimpl
  | Enotdir
  | Ebaduse
  | Eopen
  | Eperm
  | Etoolarge
  | lit (msg : String) (errno : Nat)
  | backend (code : Nat)
  deriving DecidableEq, Repr

/-- The type of `ninep.Qid`. -/
structure Qid where
  Type_ : Nat := 0
  Version : Nat := 0
  Path : Nat := 0
  deriving DecidableEq, Repr

/-- The type of `ninep.Fcall`: one decoded message, request or response.  `Err` is the
error carried by an `Rerror`. -/
structure Fcall where
  Type_ : Nat := 0
  Tag : Nat := 0
  Fid : Nat := 0
  Afid : Nat := 0
  Newfid : Nat := 0
  Oldtag : Nat := 0
  Msize : Nat := 0
  Version : String := ""
  Uname : String := ""
  Aname : String := ""
  Unamenum : Nat := 0
  Wname : List String := []
  Wqid : List Qid := []
  Qid : Qid := {}
  Mode : Nat := 0
  Perm : Nat := 0
  Offset : Nat := 0
  Count : Nat := 0
  Data : List Nat := []
  Err : Option Error := none
  deriving DecidableEq, Repr

/-- The type of `srv.Fid`: the server-side state of one handle. -/
structure Fid where
  fid : Nat
  refcount : Int := 0
  opened : Bool := false
  Omode : Nat := 0
  Type_ : Nat := 0
  Diroffset : Nat := 0
  User : Option Nat := none
  deriving DecidableEq, Repr

/-- The type of `srv.Req`: one in-flight request.  `Fid`, `Afid`, `Newfid` are pointers into
the fid heap; `next` and `flushreq` are pointers into the request heap. -/
structure Req where
  Tc : Fcall
  Rc : Option Fcall := none
  Fid : Option Nat := none
  Afid : Option Nat := none
  Newfid : Option Nat := none
  status : Nat := 0
  flushreq : Option Nat := none
  next : Option Nat := none
  deriving DecidableEq, Repr

/-- Calls that leave `fcall.go`, recorded in program order. -/
inductive Event where
  /-- `req.Respond()` (also through `RespondError`, `RespondRversion`, ...), with
  the response held by `req.Rc` at that moment. -/
  | Respond (req : Nat) (rc : Option Fcall)
  | OpAttach (req : Nat)
  | OpWalk (req : Nat)
  | OpOpen (req : Nat)
  | OpCreate (req : Nat)
  | OpRead (req : Nat)
  | OpWrite (req : Nat)
  | OpClunk (req : Nat)
  | OpRemove (req : Nat)
  | OpStat (req : Nat)
  | OpWstat (req : Nat)
  | AuthInit (afid : Nat) (aname : String)
  | AuthCheck (fid : Nat) (afid : Option Nat) (aname : String)
  | AuthRead (fid : Nat) (offset : Nat) (len : Nat)
  | AuthWrite (fid : Nat) (offset : Nat) (data : List Nat)
  | AuthDestroy (fid : Nat)
  | OpFlush (target : Nat)
  deriving DecidableEq, Repr

/-- The server `Srv`: its configuration, the capabilities of its backend
(`srv.ops`) and the answers of the external collaborators, which the handlers
consume as plain functions of the arguments they pass. -/
structure Srv where
  /-- The field `srv.Dotu`. -/
  Dotu : Bool
  /-- Whether `srv.ops` implements `AuthOps`. -/
  hasAuthOps : Bool
  /-- Whether `srv.ops` implements `FlushOp`. -/
  hasFlushOp : Bool
  /-- The lookup `srv.Upool.Uid2User`. -/
  Uid2User : Nat → Option Nat
  /-- The lookup `srv.Upool.Uname2User`. -/
  Uname2User : String → Option Nat
  /-- The operation `AuthOps.AuthInit(afid, aname)`. -/
  AuthInit : Fid → String → Except Error Qid
  /-- The operation `AuthOps.AuthCheck(fid, afid, aname)`; `none` is a `nil` error. -/
  AuthCheck : Fid → Option Fid → String → Option Error
  /-- The operation `AuthOps.AuthRead(fid, offset, data)`, given the buffer length. -/
  AuthRead : Fid → Nat → Nat → Except Error Int
  /-- The operation `AuthOps.AuthWrite(fid, offset, data)`. -/
  AuthWrite : Fid → Nat → List Nat → Except Error Int
  /-- The call `ninep.InitRread(rc, count)`; `none` is a `nil` error. -/
  InitRread : Nat → Option Error

/-- The mutable state the handlers act on: the connection (`Msize`, `Dotu`,
`fidpool`, `Reqs`), the two heaps, the server counter `Versioned`, and the
trace of outgoing calls. -/
structure World where
  Msize : Nat
  Dotu : Bool := false
  fidpool : List (Nat × Nat) := []
  Reqs : List (Nat × Nat) := []
  fids : List Fid := []
  reqs : List Req := []
  Versioned : Nat := 0
  trace : List Event := []
  deriving DecidableEq, Repr

/-! ## Heap and response helpers -/

/-- Dereference a `*Fid`. -/
def World.fidAt (w : World) (p : Nat) : Option Fid := w.fids[p]?

/-- Dereference a `*Req`. -/
def World.reqAt (w : World) (r : Nat) : Option Req := w.reqs[r]?

/-- Store through a `*Fid`. -/
def World.setFid (w : World) (p : Nat) (f : Fid) : World :=
  { w with fids := w.fids.set p f }

/-- Store through a `*Req`. -/
def World.setReq (w : World) (r : Nat) (q : Req) : World :=
  { w with reqs := w.reqs.set r q }

/-- Record an outgoing call. -/
def World.emit (w : World) (e : Event) : World :=
  { w with trace := w.trace ++ [e] }

/-- Lookup in `conn.fidpool`. -/
def World.lookupFid (w : World) (fidno : Nat) : Option Nat :=
  (w.fidpool.find? (fun kv => kv.1 == fidno)).map Prod.snd

/-- Lookup in `conn.Reqs`. -/
def World.lookupReq (w : World) (tag : Nat) : Option Nat :=
  (w.Reqs.find? (fun kv => kv.1 == tag)).map Prod.snd

/-- Modelled from the spec: `Req.Respond` is not in `srv/fcall.go`; the response
held by `req.Rc` is handed on ("response is sent"), which the trace records. -/
def World.Respond (w : World) (r : Nat) : Option World :=
  match w.reqAt r with
  | none => none
  | some q => some (w.emit (Event.Respond r q.Rc))

/-- Store a packed response in `req.Rc` and respond. -/
def World.respondWith (w : World) (r : Nat) (rc : Fcall) : Option World :=
  match w.reqAt r with
  | none => none
  | some q => (w.setReq r { q with Rc := some rc }).Respond r

/-- The `Rerror` message packed for an error `e` on the request with tag `tag`. -/
def errorFcall (tag : Nat) (e : Error) : Fcall :=
  { Type_ := Rerror, Tag := tag, Err := some e }

/-- Modelled from the spec: `Req.RespondError` is not in `srv/fcall.go`; it answers
the request "as a protocol error response" carrying the named error. -/
def World.RespondError (w : World) (r : Nat) (e : Error) : Option World :=
  match w.reqAt r with
  | none => none
  | some q => w.respondWith r (errorFcall q.Tc.Tag e)

/-- Modelled from the spec: `Conn.FidNew` is not in `srv/fcall.go`; it "allocates
a new Fid keyed by the client's chosen handle" and yields `nil` when "that handle is
already live".  The result is the new world and the address of the new fid. -/
def World.FidNew (w : World) (fidno : Nat) : Option (World × Nat) :=
  match w.lookupFid fidno with
  | some _ => none
  | none =>
    some ({ w with fids := w.fids ++ [{ fid := fidno }],
                   fidpool := (fidno, w.fids.length) :: w.fidpool }, w.fids.length)

/-- Modelled from the spec: `Conn.FidGet` is not in `srv/fcall.go`; it "resolves
\[the handle\] from the table", `nil` if absent. -/
def World.FidGet (w : World) (fidno : Nat) : Option Nat := w.lookupFid fidno

/-- Modelled from the spec: `Fid.IncRef` is not in `srv/fcall.go`; the fid's
"reference count increase\[s\]" by one. -/
def World.IncRef (w : World) (p : Nat) : Option World :=
  match w.fidAt p with
  | none => none
  | some f => some (w.setFid p { f with refcount := f.refcount + 1 })

/-- Modelled from the spec: `Fid.DecRef` is not in `srv/fcall.go`; it "decrements
the fid's reference count". -/
def World.DecRef (w : World) (p : Nat) : Option World :=
  match w.fidAt p with
  | none => none
  | some f => some (w.setFid p { f with refcount := f.refcount - 1 })

/-! ## `version` -/

/-- The inner loop of `version`: `for rr := r; rr != nil; rr = rr.next` sets
`reqFlush` on every request of the chain.  `fuel` bounds the number of
requests visited; a chain longer than the heap has a cycle, on which the Go
loop does not terminate, and the result is `none`. -/
def flagChain : Nat → List Req → Option Nat → Option (List Req)
  | _, reqs, none => some reqs
  | 0, _, some _ => none
  | fuel + 1, reqs, some p =>
    match reqs[p]? with
    | none => none
    | some rr => flagChain fuel (reqs.set p { rr with status := rr.status ||| reqFlush }) rr.next

/-- The outer loop of `version`: `for tag, r := range conn.Reqs`, skipping `NOTAG`. -/
def flagAll : List (Nat × Nat) → List Req → Option (List Req)
  | [], reqs => some reqs
  | (tag, r) :: rest, reqs =>
    if tag = NOTAG then flagAll rest reqs
    else
      match flagChain reqs.length reqs (some r) with
      | none => none
      | some reqs' => flagAll rest reqs'

/-- The handler `Srv.version`. -/
def Srv.version (srv : Srv) (w : World) (r : Nat) : Option World :=
  match w.reqAt r with
  | none => none
  | some req =>
    let tc := req.Tc
    if tc.Msize < IOHDRSZ then
      w.RespondError r (Error.lit "msize too small" EINVAL)
    else
      let w1 := if tc.Msize < w.Msize then { w with Msize := tc.Msize } else w
      let w2 := { w1 with Dotu := (tc.Version == "9P2000.u") && srv.Dotu }
      let ver := if w2.Dotu then "9P2000.u" else "9P2000"
      match flagAll w2.Reqs w2.reqs with
      | none => none
      | some reqs' =>
        let w3 := { w2 with reqs := reqs' }
        let w4 := { w3 with Versioned := (w3.Versioned + 1) % 2 ^ 32 }
        w4.respondWith r { Type_ := Rversion, Tag := tc.Tag, Msize := w4.Msize, Version := ver }

/-! ## `auth`, `attach` -/

/-- The user resolution shared by `auth` and `attach`. -/
def Srv.resolveUser (srv : Srv) (w : World) (tc : Fcall) : Option Nat :=
  if tc.Unamenum ≠ NOUID ∨ w.Dotu = true then srv.Uid2User tc.Unamenum
  else if tc.Uname ≠ "" then srv.Uname2User tc.Uname
  else none

/-- The handler `Srv.auth`. -/
def Srv.auth (srv : Srv) (w : World) (r : Nat) : Option World :=
  match w.reqAt r with
  | none => none
  | some req =>
    let tc := req.Tc
    if tc.Afid = NOFID then w.RespondError r Error.Eunknownfid
    else
      match w.FidNew tc.Afid with
      | none => (w.setReq r { req with Afid := none }).RespondError r Error.Einuse
      | some (w1, a) =>
        let w2 := w1.setReq r { req with Afid := some a }
        match srv.resolveUser w2 tc with
        | none => w2.RespondError r Error.Enouser
        | some user =>
          match w2.fidAt a with
          | none => none
          | some af =>
            let af1 : Fid := { af with User := some user, Type_ := QTAUTH }
            let w3 := w2.setFid a af1
            if srv.hasAuthOps then
              let w4 := w3.emit (Event.AuthInit a tc.Aname)
              match srv.AuthInit af1 tc.Aname with
              | Except.error err => w4.RespondError r err
              | Except.ok aqid =>
                w4.respondWith r
                  { Type_ := Rauth, Tag := tc.Tag,
                    Qid := { aqid with Type_ := aqid.Type_ ||| QTAUTH } }
            else w3.RespondError r Error.Enoauth

/-- The post-handler `Srv.authPost`. -/
def Srv.authPost (_srv : Srv) (w : World) (r : Nat) : Option World :=
  match w.reqAt r with
  | none => none
  | some req =>
    match req.Rc with
    | none => some w
    | some rc =>
      if rc.Type_ = Rauth then
        match req.Afid with
        | none => none
        | some a => w.IncRef a
      else some w

/-- The rest of `Srv.attach` from the user resolution on (lines 123-144). -/
def Srv.attachRest (srv : Srv) (w : World) (r : Nat) (f : Nat) : Option World :=
  match w.reqAt r with
  | none => none
  | some req =>
    let tc := req.Tc
    match srv.resolveUser w tc with
    | none => w.RespondError r Error.Enouser
    | some user =>
      match w.fidAt f with
      | none => none
      | some fd =>
        let fd1 : Fid := { fd with User := some user }
        let w1 := w.setFid f fd1
        if srv.hasAuthOps then
          let w2 := w1.emit (Event.AuthCheck f req.Afid tc.Aname)
          match srv.AuthCheck fd1 (req.Afid.bind w1.fidAt) tc.Aname with
          | some err => w2.RespondError r err
          | none => some (w2.emit (Event.OpAttach r))
        else some (w1.emit (Event.OpAttach r))

/-- The handler `Srv.attach`. -/
def Srv.attach (srv : Srv) (w : World) (r : Nat) : Option World :=
  match w.reqAt r with
  | none => none
  | some req =>
    let tc := req.Tc
    if tc.Fid = NOFID then w.RespondError r Error.Eunknownfid
    else
      match w.FidNew tc.Fid with
      | none => (w.setReq r { req with Fid := none }).RespondError r Error.Einuse
      | some (w1, f) =>
        let w2 := w1.setReq r { req with Fid := some f }
        if tc.Afid ≠ NOFID then
          match w2.FidGet tc.Afid with
          | none =>
            -- `req.Afid == nil`: the error is sent and control falls through
            match (w2.setReq r { req with Fid := some f, Afid := none }).RespondError r
                Error.Eunknownfid with
            | none => none
            | some w3 => srv.attachRest w3 r f
          | some a => srv.attachRest (w2.setReq r { req with Fid := some f, Afid := some a }) r f
        else srv.attachRest w2 r f

/-- The post-handler `Srv.attachPost`. -/
def Srv.attachPost (_srv : Srv) (w : World) (r : Nat) : Option World :=
  match w.reqAt r with
  | none => none
  | some req =>
    match req.Rc with
    | none => some w
    | some rc =>
      if rc.Type_ = Rattach then
        match req.Fid with
        | none => none
        | some f =>
          match w.fidAt f with
          | none => none
          | some fd => (w.setFid f { fd with Type_ := rc.Qid.Type_ }).IncRef f
      else some w

/-! ## `walk` -/

/-- The handler `Srv.walk`. -/
def Srv.walk (_srv : Srv) (w : World) (r : Nat) : Option World :=
  match w.reqAt r with
  | none => none
  | some req =>
    let tc := req.Tc
    match req.Fid with
    | none => none
    | some fp =>
      match w.fidAt fp with
      | none => none
      | some fid =>
        if tc.Wname.length > 0 ∧ fid.Type_ &&& QTDIR = 0 then w.RespondError r Error.Enotdir
        else if fid.opened = true then w.RespondError r Error.Ebaduse
        else if tc.Fid ≠ tc.Newfid then
          match w.FidNew tc.Newfid with
          | none => (w.setReq r { req with Newfid := none }).RespondError r Error.Einuse
          | some (w1, n) =>
            let w2 := w1.setReq r { req with Newfid := some n }
            match w2.fidAt n with
            | none => none
            | some nf =>
              some ((w2.setFid n { nf with User := fid.User, Type_ := fid.Type_ }).emit
                (Event.OpWalk r))
        else
          match (w.setReq r { req with Newfid := some fp }).IncRef fp with
          | none => none
          | some w1 => some (w1.emit (Event.OpWalk r))

/-- The post-handler `Srv.walkPost`. -/
def Srv.walkPost (_srv : Srv) (w : World) (r : Nat) : Option World :=
  match w.reqAt r with
  | none => none
  | some req =>
    match req.Rc, req.Newfid with
    | none, _ => some w
    | some _, none => some w
    | some rc, some nfp =>
      if rc.Type_ ≠ Rwalk then some w
      else
        let n := rc.Wqid.length
        match w.fidAt nfp with
        | none => none
        | some nf =>
          let ty : Option Nat :=
            match rc.Wqid.getLast? with
            | some q => some q.Type_
            | none => (req.Fid.bind w.fidAt).map (fun fid => fid.Type_)
          match ty with
          | none => none
          | some t =>
            let w1 := w.setFid nfp { nf with Type_ := t }
            -- Don't retain the fid if only a partial walk succeeded
            if n ≠ req.Tc.Wname.length then some w1
            else
              match w1.fidAt nfp, req.Fid.bind w1.fidAt with
              | some nf1, some fid => if nf1.fid ≠ fid.fid then w1.IncRef nfp else some w1
              | _, _ => none

/-! ## `open`, `create` -/

/-- The handler `Srv.open`. -/
def Srv.open (_srv : Srv) (w : World) (r : Nat) : Option World :=
  match w.reqAt r with
  | none => none
  | some req =>
    let tc := req.Tc
    match req.Fid with
    | none => none
    | some fp =>
      match w.fidAt fp with
      | none => none
      | some fid =>
        if fid.opened = true then w.RespondError r Error.Eopen
        else if fid.Type_ &&& QTDIR ≠ 0 ∧ tc.Mode ≠ OREAD then w.RespondError r Error.Eperm
        else some ((w.setFid fp { fid with Omode := tc.Mode }).emit (Event.OpOpen r))

/-- The post-handler `Srv.openPost`. -/
def Srv.openPost (_srv : Srv) (w : World) (r : Nat) : Option World :=
  match w.reqAt r with
  | none => none
  | some req =>
    match req.Fid with
    | none => some w
    | some fp =>
      match w.fidAt fp with
      | none => none
      | some fid =>
        let ok : Bool :=
          match req.Rc with
          | none => false
          | some rc => decide (rc.Type_ = Ropen)
        some (w.setFid fp { fid with opened := ok })

/-- The handler `Srv.create`. -/
def Srv.create (_srv : Srv) (w : World) (r : Nat) : Option World :=
  match w.reqAt r with
  | none => none
  | some req =>
    let tc := req.Tc
    match req.Fid with
    | none => none
    | some fp =>
      match w.fidAt fp with
      | none => none
      | some fid =>
        if fid.opened = true then w.RespondError r Error.Eopen
        else if fid.Type_ &&& QTDIR = 0 then w.RespondError r Error.Enotdir
        else if tc.Perm &&& DMDIR ≠ 0 ∧ tc.Mode ≠ OREAD then w.RespondError r Error.Eperm
        else if tc.Perm &&& (DMNAMEDPIPE ||| DMSYMLINK ||| DMLINK ||| DMDEVICE ||| DMSOCKET) ≠ 0
            ∧ w.Dotu = false then
          w.RespondError r Error.Eperm
        else some ((w.setFid fp { fid with Omode := tc.Mode }).emit (Event.OpCreate r))

/-- The post-handler `Srv.createPost`. -/
def Srv.createPost (_srv : Srv) (w : World) (r : Nat) : Option World :=
  match w.reqAt r with
  | none => none
  | some req =>
    match req.Rc, req.Fid with
    | some rc, some fp =>
      if rc.Type_ = Rcreate then
        match w.fidAt fp with
        | none => none
        | some fid => some (w.setFid fp { fid with Type_ := rc.Qid.Type_, opened := true })
      else some w
    | _, _ => some w

/-! ## `read`, `write` -/

/-- The handler `Srv.read`. -/
def Srv.read (srv : Srv) (w : World) (r : Nat) : Option World :=
  match w.reqAt r with
  | none => none
  | some req =>
    let tc := req.Tc
    if (tc.Count + IOHDRSZ) % 2 ^ 32 > w.Msize then w.RespondError r Error.Etoolarge
    else
      match req.Fid with
      | none => none
      | some fp =>
        match w.fidAt fp with
        | none => none
        | some fid =>
          if fid.Type_ &&& QTAUTH ≠ 0 then
            match srv.InitRread tc.Count with
            | some err => w.RespondError r err
            | none =>
              let w1 := w.setReq r
                { req with Rc := some { Type_ := Rread, Tag := tc.Tag, Count := tc.Count } }
              if srv.hasAuthOps then
                let w2 := w1.emit (Event.AuthRead fp tc.Offset tc.Count)
                match srv.AuthRead fid tc.Offset tc.Count with
                | Except.error err => w2.RespondError r err
                | Except.ok n =>
                  w2.respondWith r
                    { Type_ := Rread, Tag := tc.Tag, Count := (n % 2 ^ 32).toNat }
              else w1.RespondError r Error.Enotimpl
          else if fid.opened = false ∨ fid.Omode &&& 3 = OWRITE then
            w.RespondError r Error.Ebaduse
          else if fid.Type_ &&& QTDIR ≠ 0 then
            let off := if tc.Offset = 0 then 0
              else if tc.Offset ≠ fid.Diroffset then tc.Offset else fid.Diroffset
            some ((w.setFid fp { fid with Diroffset := off }).emit (Event.OpRead r))
          else some (w.emit (Event.OpRead r))

/-- The post-handler `Srv.readPost`. -/
def Srv.readPost (_srv : Srv) (w : World) (r : Nat) : Option World :=
  match w.reqAt r with
  | none => none
  | some req =>
    match req.Rc with
    | none => some w
    | some rc =>
      if rc.Type_ = Rread then
        match req.Fid.bind w.fidAt, req.Fid with
        | some fid, some fp =>
          if fid.Type_ &&& QTDIR ≠ 0 then
            some (w.setFid fp { fid with Diroffset := (fid.Diroffset + rc.Count) % 2 ^ 64 })
          else some w
        | _, _ => none
      else some w

/-- The handler `Srv.write`. -/
def Srv.write (srv : Srv) (w : World) (r : Nat) : Option World :=
  match w.reqAt r with
  | none => none
  | some req =>
    let tc := req.Tc
    match req.Fid with
    | none => none
    | some fp =>
      match w.fidAt fp with
      | none => none
      | some fid =>
        if fid.Type_ &&& QTAUTH ≠ 0 then
          if srv.hasAuthOps then
            let w1 := w.emit (Event.AuthWrite fp tc.Offset tc.Data)
            match srv.AuthWrite fid tc.Offset tc.Data with
            | Except.error err => w1.RespondError r err
            | Except.ok n =>
              w1.respondWith r { Type_ := Rwrite, Tag := tc.Tag, Count := (n % 2 ^ 32).toNat }
          else w.RespondError r Error.Enotimpl
        else if fid.opened = false ∨ fid.Type_ &&& QTDIR ≠ 0 ∨ fid.Omode &&& 3 = OREAD then
          w.RespondError r Error.Ebaduse
        else if (tc.Count + IOHDRSZ) % 2 ^ 32 > w.Msize then w.RespondError r Error.Etoolarge
        else some (w.emit (Event.OpWrite r))

/-! ## `clunk`, `remove` -/

/-- The handler `Srv.clunk`. -/
def Srv.clunk (srv : Srv) (w : World) (r : Nat) : Option World :=
  match w.reqAt r with
  | none => none
  | some req =>
    match req.Fid with
    | none => none
    | some fp =>
      match w.fidAt fp with
      | none => none
      | some fid =>
        if fid.Type_ &&& QTAUTH ≠ 0 then
          if srv.hasAuthOps then
            (w.emit (Event.AuthDestroy fp)).respondWith r { Type_ := Rclunk, Tag := req.Tc.Tag }
          else w.RespondError r Error.Enotimpl
        else some (w.emit (Event.OpClunk r))

/-- The post-handler `Srv.clunkPost`. -/
def Srv.clunkPost (_srv : Srv) (w : World) (r : Nat) : Option World :=
  match w.reqAt r with
  | none => none
  | some req =>
    match req.Rc, req.Fid with
    | some rc, some fp => if rc.Type_ = Rclunk then w.DecRef fp else some w
    | _, _ => some w

/-- The handler `Srv.remove`. -/
def Srv.remove (_srv : Srv) (w : World) (r : Nat) : Option World :=
  match w.reqAt r with
  | none => none
  | some _ => some (w.emit (Event.OpRemove r))

/-- The post-handler `Srv.removePost`. -/
def Srv.removePost (_srv : Srv) (w : World) (r : Nat) : Option World :=
  match w.reqAt r with
  | none => none
  | some req =>
    match req.Rc, req.Fid with
    | some _, some fp => w.DecRef fp
    | _, _ => some w

/-! ## `stat`, `wstat` -/

/-- The handler `Srv.stat`. -/
def Srv.stat (_srv : Srv) (w : World) (r : Nat) : Option World :=
  match w.reqAt r with
  | none => none
  | some _ => some (w.emit (Event.OpStat r))

/-- The handler `Srv.wstat` (its field checks are commented out in the source). -/
def Srv.wstat (_srv : Srv) (w : World) (r : Nat) : Option World :=
  match w.reqAt r with
  | none => none
  | some _ => some (w.emit (Event.OpWstat r))

/-! ## `flush` -/

/-- The handler `Srv.flush`. -/
def Srv.flush (srv : Srv) (w : World) (r : Nat) : Option World :=
  match w.reqAt r with
  | none => none
  | some req =>
    let tag := req.Tc.Oldtag
    let req1 : Req := { req with Rc := some { Type_ := Rflush, Tag := req.Tc.Tag } }
    let w1 := w.setReq r req1
    match w1.lookupReq tag with
    | none => w1.Respond r
    | some t =>
      match w1.reqAt t with
      | none => none
      | some tr =>
        -- `req.flushreq = r.flushreq; r.flushreq = req`
        let w2 := w1.setReq r { req1 with flushreq := tr.flushreq }
        match w2.reqAt t with
        | none => none
        | some tr1 =>
          let w3 := w2.setReq t { tr1 with flushreq := some r }
          match w3.reqAt t with
          | none => none
          | some tr2 =>
            let status := tr2.status
            if status &&& (reqWork ||| reqSaved) = 0 then
              (w3.setReq t { tr2 with status := tr2.status ||| reqFlush }).Respond t
            else if srv.hasFlushOp then some (w3.emit (Event.OpFlush t))
            else some w3

/-! ## A request from receipt to post-handler -/

/-- Whether the steps a handler added to the trace (those after the first `n`)
hold a response to request `r`. -/
def World.answered (w : World) (n : Nat) (r : Nat) : Bool :=
  (w.trace.drop n).any (fun e => match e with
    | Event.Respond r1 _ => r1 == r
    | _ => false)

/-- A request from pre-handler to post-handler: the pre-handler `pre` runs; when
it has not answered the request itself, the backend supplies the response `brc`
(stores it in `req.Rc` and responds); then the post-handler `post` runs on the
response that exists. -/
def serve (pre post : World → Nat → Option World) (w : World) (r : Nat) (brc : Fcall) :
    Option World :=
  match pre w r with
  | none => none
  | some w1 =>
    if w1.answered w.trace.length r then post w1 r
    else
      match w1.respondWith r brc with
      | none => none
      | some w2 => post w2 r

/-! ## Derived notions used in the statements -/

/-- A run of `version` handlers, one per request address, in order. -/
def versionSeq (srv : Srv) : World → List Nat → Option World
  | w, [] => some w
  | w, r :: rs =>
    match srv.version w r with
    | none => none
    | some w1 => versionSeq srv w1 rs

/-- A run of `flush` handlers, one per request address, in order. -/
def flushSeq (srv : Srv) : World → List Nat → Option World
  | w, [] => some w
  | w, r :: rs =>
    match srv.flush w r with
    | none => none
    | some w1 => flushSeq srv w1 rs

/-- Whether the `next` chain from `p` reaches `nil` within `fuel` requests. -/
def chainEnds : Nat → List Req → Option Nat → Bool
  | _, _, none => true
  | 0, _, some _ => false
  | fuel + 1, reqs, some p =>
    match reqs[p]? with
    | none => false
    | some rr => chainEnds fuel reqs rr.next

/-- Every chain of the tag table (`NOTAG` apart) is a proper linked list: it
reaches `nil` without leaving the heap and without a cycle. -/
def World.ChainsOk (w : World) : Prop :=
  ∀ kv ∈ w.Reqs, kv.1 ≠ NOTAG → chainEnds w.reqs.length w.reqs (some kv.2) = true

/-- The addresses of the requests on the `next` chain from `p`, visiting at most
`fuel` requests. -/
def chainAddrs : Nat → List Req → Option Nat → List Nat
  | _, _, none => []
  | 0, _, some _ => []
  | fuel + 1, reqs, some p =>
    match reqs[p]? with
    | none => []
    | some rr => p :: chainAddrs fuel reqs rr.next

/-- The addresses of the requests reachable from the tag table under a tag other
than `NOTAG`: each such table entry and every request on its `next` chain. -/
def flaggedAddrs : List (Nat × Nat) → List Req → List Nat
  | [], _ => []
  | (tag, r) :: rest, reqs =>
    (if tag = NOTAG then [] else chainAddrs reqs.length reqs (some r)) ++ flaggedAddrs rest reqs

/-- The addresses of the requests on the flush chain from `p` (following
`flushreq`), in order; `none` when the chain does not end within `fuel` requests
(it is cyclic or longer) or leaves the heap. -/
def flushChain : Nat → List Req → Option Nat → Option (List Nat)
  | _, _, none => some []
  | 0, _, some _ => none
  | fuel + 1, reqs, some p =>
    match reqs[p]? with
    | none => none
    | some q => (flushChain fuel reqs q.flushreq).map (fun l => p :: l)

/-- A request with its status bits cleared. -/
def Req.eraseStatus (q : Req) : Req := { q with status := 0 }

/-- Two request heaps that differ at most in the status of their requests. -/
def SameButStatus (a b : List Req) : Prop := a.map Req.eraseStatus = b.map Req.eraseStatus

/-- Two request heaps with the same `next` pointers, address by address. -/
def SameNext (a b : List Req) : Prop := a.map Req.next = b.map Req.next

/-- The heap `b` is the heap `a` with `reqFlush` set on the requests at the
addresses in `L` and nothing else changed. -/
def FlagUpd (L : List Nat) (a b : List Req) : Prop :=
  SameButStatus b a ∧ ∀ p q, a[p]? = some q →
    ∃ q1, b[p]? = some q1 ∧ q1.status = if p ∈ L then q.status ||| reqFlush else q.status

/-- The world right after `FidNew fidno` on a free handle. -/
def World.alloc (w : World) (fidno : Nat) : World :=
  { w with fids := w.fids ++ [{ fid := fidno }],
           fidpool := (fidno, w.fids.length) :: w.fidpool }

/-! ## Example inputs -/

/-- A backend with the auth capability that accepts everything; users resolve
to the handle `7`. -/
def exSrv : Srv where
  Dotu := false
  hasAuthOps := true
  hasFlushOp := false
  Uid2User := fun _ => some 7
  Uname2User := fun _ => some 7
  AuthInit := fun _ _ => Except.ok {}
  AuthCheck := fun _ _ _ => none
  AuthRead := fun _ _ n => Except.ok n
  AuthWrite := fun _ _ d => Except.ok d.length
  InitRread := fun _ => none

/-- The backend of `exSrv` with a user pool that knows nobody. -/
def exSrvNoUser : Srv := { exSrv with Uid2User := fun _ => none, Uname2User := fun _ => none }

/-- A connection with one request (tag 5) offering `msize` 10 to `version`. -/
def exVersionSmall : World :=
  { Msize := 8192, Reqs := [(5, 0)],
    reqs := [{ Tc := { Tag := 5, Msize := 10, Version := "9P2000.u" } }] }

/-- A connection with a `version` request (under `NOTAG`, offering 4096) and an
outstanding request under tag 5. -/
def exVersion : World :=
  { Msize := 8192, Reqs := [(5, 1), (NOTAG, 0)],
    reqs := [{ Tc := { Tag := NOTAG, Msize := 4096, Version := "9P2000" } },
             { Tc := { Tag := 5 } }] }

/-- A connection on which fid 1 (address 0) is an unopened directory, with two
`open` requests for it in read-only mode (tags 5 and 6). -/
def exOpen : World :=
  { Msize := 8192, fidpool := [(1, 0)],
    fids := [{ fid := 1, refcount := 1, Type_ := QTDIR, User := some 7 }],
    Reqs := [(5, 0), (6, 1)],
    reqs := [{ Tc := { Tag := 5, Fid := 1, Mode := OREAD }, Fid := some 0 },
             { Tc := { Tag := 6, Fid := 1, Mode := OREAD }, Fid := some 0 }] }

/-- A connection without fids and an `attach` request for handle 1 that names the
auth handle 2, which is not in the fid table; the user is given by name. -/
def exAttach : World :=
  { Msize := 8192, Reqs := [(5, 0)],
    reqs := [{ Tc := { Tag := 5, Fid := 1, Afid := 2, Uname := "bob", Unamenum := NOUID } }] }

/-- A `clunk` request on fid 1 (reference count 1) that the backend answered with
an error. -/
def exClunkErr : World :=
  { Msize := 8192, fidpool := [(1, 0)],
    fids := [{ fid := 1, refcount := 1, User := some 7 }],
    Reqs := [(5, 0)],
    reqs := [{ Tc := { Tag := 5, Fid := 1 }, Fid := some 0,
               Rc := some (errorFcall 5 (Error.backend 13)) }] }

/-- A `clunk` request on fid 1 (reference count 1) that the backend answered with
`Rclunk`. -/
def exClunkOk : World :=
  { Msize := 8192, fidpool := [(1, 0)],
    fids := [{ fid := 1, refcount := 1, User := some 7 }],
    Reqs := [(5, 0)],
    reqs := [{ Tc := { Tag := 5, Fid := 1 }, Fid := some 0,
               Rc := some { Type_ := Rclunk, Tag := 5 } }] }

/-- A `read` request of `Count = 2^32 - 1` on an opened regular file, on a
connection with `Msize = 8192`. -/
def exReadWrap : World :=
  { Msize := 8192, fidpool := [(1, 0)],
    fids := [{ fid := 1, refcount := 1, opened := true, Omode := OREAD, User := some 7 }],
    Reqs := [(5, 0)],
    reqs := [{ Tc := { Tag := 5, Fid := 1, Count := 4294967295 }, Fid := some 0 }] }

/-- Two `write` requests of 16 bytes on a connection that negotiated
`Msize = 32`: tag 5 on fid 1, an unopened regular file, and tag 6 on fid 2, an
auth fid. -/
def exWrite : World :=
  { Msize := 32, fidpool := [(1, 0), (2, 1)],
    fids := [{ fid := 1, refcount := 1, User := some 7 },
             { fid := 2, refcount := 1, Type_ := QTAUTH, User := some 7 }],
    Reqs := [(5, 0), (6, 1)],
    reqs := [{ Tc := { Tag := 5, Fid := 1, Count := 16,
                       Data := [1, 2, 3, 4, 5, 6, 7, 8, 9, 10, 11, 12, 13, 14, 15, 16] },
               Fid := some 0 },
             { Tc := { Tag := 6, Fid := 2, Count := 16,
                       Data := [1, 2, 3, 4, 5, 6, 7, 8, 9, 10, 11, 12, 13, 14, 15, 16] },
               Fid := some 1 }] }

/-- The request of `exWriteOpen`. -/
def exWriteOpenReq : Req :=
  { Tc := { Tag := 5, Fid := 1, Count := 16,
            Data := [1, 2, 3, 4, 5, 6, 7, 8, 9, 10, 11, 12, 13, 14, 15, 16] },
    Fid := some 0 }

/-- A `write` request of 16 bytes on a file opened for writing, on a connection
that negotiated `Msize = 32`. -/
def exWriteOpen : World :=
  { Msize := 32, fidpool := [(1, 0)],
    fids := [{ fid := 1, refcount := 1, opened := true, Omode := OWRITE, User := some 7 }],
    Reqs := [(5, 0)],
    reqs := [exWriteOpenReq] }

/-- A connection on which fid 1 (address 0) is an unopened directory with one
reference, and a `walk` request (tag 5) from fid 1 to the new handle 2 over the
two names `a`, `b`. -/
def exWalk : World :=
  { Msize := 8192, fidpool := [(1, 0)],
    fids := [{ fid := 1, refcount := 1, Type_ := QTDIR, User := some 7 }],
    Reqs := [(5, 0)],
    reqs := [{ Tc := { Tag := 5, Fid := 1, Newfid := 2, Wname := ["a", "b"] }, Fid := some 0 }] }

/-- An `Rwalk` with one qid: a partial answer to `exWalk`. -/
def exRwalkPartial : Fcall :=
  { Type_ := Rwalk, Tag := 5, Wqid := [{ Type_ := QTDIR, Path := 10 }] }

/-- An `Rwalk` with two qids: a full answer to `exWalk`. -/
def exRwalkFull : Fcall :=
  { Type_ := Rwalk, Tag := 5, Wqid := [{ Type_ := QTDIR, Path := 10 }, { Type_ := 0, Path := 11 }] }

/-- The request of `exWalk`. -/
def exWalkReq : Req :=
  { Tc := { Tag := 5, Fid := 1, Newfid := 2, Wname := ["a", "b"] }, Fid := some 0 }

/-- The source fid of `exWalk`. -/
def exWalkFid : Fid := { fid := 1, refcount := 1, Type_ := QTDIR, User := some 7 }

/-- A connection on which fid 1 (address 0) is an unopened directory with one
reference, and a `walk` request (tag 5) from fid 1 to the same handle 1 over the
name `a`. -/
def exWalkSame : World :=
  { Msize := 8192, fidpool := [(1, 0)],
    fids := [{ fid := 1, refcount := 1, Type_ := QTDIR, User := some 7 }],
    Reqs := [(5, 0)],
    reqs := [{ Tc := { Tag := 5, Fid := 1, Newfid := 1, Wname := ["a"] }, Fid := some 0 }] }

/-- The request of `exWalkSame`. -/
def exWalkSameReq : Req :=
  { Tc := { Tag := 5, Fid := 1, Newfid := 1, Wname := ["a"] }, Fid := some 0 }

/-- A connection on which fid 1 (address 0) is an unopened directory and fid 2
(address 1) an opened file, with two requests that name the live handle 2 as the
handle to allocate: tag 5 (request address 0) as `Afid` of an `auth` and as
`Newfid` of a `walk` from fid 1, tag 6 (request address 1) as `Fid` of an
`attach`. -/
def exInUse : World :=
  { Msize := 8192, fidpool := [(2, 1), (1, 0)],
    fids := [{ fid := 1, refcount := 1, Type_ := QTDIR, User := some 7 },
             { fid := 2, refcount := 2, opened := true, Omode := 1, Diroffset := 0,
               User := some 7 }],
    Reqs := [(5, 0), (6, 1)],
    reqs := [{ Tc := { Tag := 5, Fid := 1, Afid := 2, Newfid := 2, Uname := "bob" },
               Fid := some 0 },
             { Tc := { Tag := 6, Fid := 2, Afid := 2, Uname := "bob" } }] }

/-- The walk and auth request of `exInUse`. -/
def exInUseReq : Req :=
  { Tc := { Tag := 5, Fid := 1, Afid := 2, Newfid := 2, Uname := "bob" }, Fid := some 0 }

/-- The attach request of `exInUse`. -/
def exInUseAttachReq : Req := { Tc := { Tag := 6, Fid := 2, Afid := 2, Uname := "bob" } }

/-- The request of `exWalkFile`. -/
def exWalkFileReq : Req :=
  { Tc := { Tag := 5, Fid := 1, Newfid := 2, Wname := ["a"] }, Fid := some 0 }

/-- The source fid of `exWalkFile`. -/
def exWalkFileFid : Fid := { fid := 1, refcount := 1, Type_ := 0, User := some 7 }

/-- A connection on which fid 1 (address 0) is an unopened regular file, and a
`walk` request (tag 5) from fid 1 to the new handle 2 over the name `a`. -/
def exWalkFile : World :=
  { Msize := 8192, fidpool := [(1, 0)], fids := [exWalkFileFid],
    Reqs := [(5, 0)], reqs := [exWalkFileReq] }

/-- The request of `exCreate`: create a socket, mode read-only. -/
def exCreateReq : Req :=
  { Tc := { Tag := 5, Fid := 1, Perm := DMSOCKET ||| 0o644, Mode := OREAD }, Fid := some 0 }

/-- The fid of `exCreate`. -/
def exCreateFid : Fid := { fid := 1, refcount := 1, Type_ := QTDIR, User := some 7 }

/-- A connection without the protocol extension (`Dotu = false`) on which fid 1
(address 0) is an unopened directory, and a `create` request (tag 5) on it with
the socket bit set. -/
def exCreate : World :=
  { Msize := 8192, Dotu := false, fidpool := [(1, 0)], fids := [exCreateFid],
    Reqs := [(5, 0)], reqs := [exCreateReq] }

/-- The response of `exAttachPost`: an `Rattach` with a directory qid. -/
def exRattach : Fcall := { Type_ := Rattach, Tag := 5, Qid := { Type_ := QTDIR, Path := 1 } }

/-- The request of `exAttachPost`. -/
def exAttachPostReq : Req :=
  { Tc := { Tag := 5, Fid := 1, Afid := NOFID, Uname := "bob", Unamenum := NOUID },
    Fid := some 0, Rc := some exRattach }

/-- The fid of `exAttachPost`: freshly allocated for user 7 ("bob"), count 0. -/
def exAttachPostFid : Fid := { fid := 1, refcount := 0, User := some 7 }

/-- An `attach` of handle 1 that the backend answered with `Rattach`, before
`attachPost` runs. -/
def exAttachPost : World :=
  { Msize := 8192, fidpool := [(1, 0)], fids := [exAttachPostFid],
    Reqs := [(5, 0)], reqs := [exAttachPostReq] }

/-- The request of `exReadDirAuth` and `exReadDir`: read 100 bytes at offset 0. -/
def exReadDirReq : Req :=
  { Tc := { Tag := 5, Fid := 1, Offset := 0, Count := 100 }, Fid := some 0 }

/-- The fid of `exReadDirAuth`: opened read-only, cursor at 300, with both the
directory bit and the auth bit in its type. -/
def exReadDirAuthFid : Fid :=
  { fid := 1, refcount := 1, opened := true, Omode := OREAD, Type_ := QTDIR ||| QTAUTH,
    Diroffset := 300, User := some 7 }

/-- A `read` at offset 0 on a fid whose type carries `QTDIR` and `QTAUTH`. -/
def exReadDirAuth : World :=
  { Msize := 8192, fidpool := [(1, 0)], fids := [exReadDirAuthFid],
    Reqs := [(5, 0)], reqs := [exReadDirReq] }

/-- The fid of `exReadDir`: a directory opened read-only, cursor at 300. -/
def exReadDirFid : Fid :=
  { fid := 1, refcount := 1, opened := true, Omode := OREAD, Type_ := QTDIR,
    Diroffset := 300, User := some 7 }

/-- A `read` at offset 0 on an opened directory. -/
def exReadDir : World :=
  { Msize := 8192, fidpool := [(1, 0)], fids := [exReadDirFid],
    Reqs := [(5, 0)], reqs := [exReadDirReq] }

/-- The request of `exAuthRead`: read 100 bytes at offset 0. -/
def exAuthReadReq : Req :=
  { Tc := { Tag := 5, Fid := 1, Offset := 0, Count := 100 }, Fid := some 0 }

/-- The fid of `exAuthRead`: an auth fid that was never opened. -/
def exAuthReadFid : Fid := { fid := 1, refcount := 1, Type_ := QTAUTH, User := some 7 }

/-- A `read` on an unopened auth fid. -/
def exAuthRead : World :=
  { Msize := 8192, fidpool := [(1, 0)], fids := [exAuthReadFid],
    Reqs := [(5, 0)], reqs := [exAuthReadReq] }

/-- A flush request (tag 9) that names tag 5. -/
def exFlushReq : Req := { Tc := { Tag := 9, Oldtag := 5 }, status := reqWork }

/-- A request (tag 5) on which no work has started. -/
def exFlushIdleTarget : Req := { Tc := { Tag := 5, Fid := 1 }, Fid := some 0 }

/-- A request (tag 5) that the backend is working on. -/
def exFlushBusyTarget : Req := { Tc := { Tag := 5, Fid := 1 }, Fid := some 0, status := reqWork }

/-- A connection with the flush request at address 0 and its idle target at
address 1. -/
def exFlushIdle : World :=
  { Msize := 8192, fidpool := [(1, 0)], fids := [{ fid := 1, refcount := 1 }],
    Reqs := [(9, 0), (5, 1)], reqs := [exFlushReq, exFlushIdleTarget] }

/-- A connection with the flush request at address 0 and its busy target at
address 1. -/
def exFlushBusy : World :=
  { Msize := 8192, fidpool := [(1, 0)], fids := [{ fid := 1, refcount := 1 }],
    Reqs := [(9, 0), (5, 1)], reqs := [exFlushReq, exFlushBusyTarget] }

/-- A connection with the flush request at address 0 and a request under tag 6 at
address 1: no request has tag 5. -/
def exFlushNone : World :=
  { Msize := 8192, fidpool := [(1, 0)], fids := [{ fid := 1, refcount := 1 }],
    Reqs := [(9, 0), (6, 1)],
    reqs := [exFlushReq, { Tc := { Tag := 6, Fid := 1 }, Fid := some 0, status := reqWork }] }

/-- The request of `exWalkSamePartial`: walk fid 1 onto itself over `a`, `b`. -/
def exWalkSamePartialReq : Req :=
  { Tc := { Tag := 5, Fid := 1, Newfid := 1, Wname := ["a", "b"] }, Fid := some 0 }

/-- A connection on which fid 1 (address 0) is an unopened directory, with a
`walk` request from fid 1 to the same handle over two names. -/
def exWalkSamePartial : World :=
  { Msize := 8192, fidpool := [(1, 0)], fids := [exWalkFid],
    Reqs := [(5, 0)], reqs := [exWalkSamePartialReq] }

/-- An `Rwalk` with one qid, that of a regular file: a partial answer to
`exWalkSamePartial`. -/
def exRwalkOneFile : Fcall := { Type_ := Rwalk, Tag := 5, Wqid := [{ Type_ := 0, Path := 10 }] }

/-- The request of `exVersionWrap`. -/
def exVersionWrapReq : Req := { Tc := { Tag := NOTAG, Msize := 4096, Version := "9P2000" } }

/-- A connection of a server that has counted `2^32 - 1` negotiations, with one
more `version` request (under `NOTAG`, offering 4096). -/
def exVersionWrap : World :=
  { Msize := 8192, Reqs := [(NOTAG, 0)], reqs := [exVersionWrapReq], Versioned := 4294967295 }

/-- The `version` request of `exVersionChain`. -/
def exVersionChainReq : Req := { Tc := { Tag := NOTAG, Msize := 4096, Version := "9P2000" } }

/-- A connection with a `version` request (under `NOTAG`, address 0) and two
outstanding requests with tag 5, chained by `next` (addresses 1 and 2), the
first in progress and the second saved. -/
def exVersionChain : World :=
  { Msize := 8192, Reqs := [(5, 1), (NOTAG, 0)],
    reqs := [exVersionChainReq,
             { Tc := { Tag := 5 }, status := reqWork, next := some 2 },
             { Tc := { Tag := 5 }, status := reqSaved }],
    Versioned := 3 }

/-- A flush request (tag 5) that names its own tag. -/
def exFlushSelfReq : Req := { Tc := { Tag := 5, Oldtag := 5 }, status := reqWork }

/-- A connection with a flush request that names its own tag 5 (address 0) and a
second flush request, tag 9, that names tag 5 as well (address 1). -/
def exFlushSelf : World :=
  { Msize := 8192, Reqs := [(5, 0), (9, 1)], reqs := [exFlushSelfReq, exFlushReq] }

/-- A second flush request (tag 10) that names tag 5. -/
def exFlushReq2 : Req := { Tc := { Tag := 10, Oldtag := 5 }, status := reqWork }

/-- A connection with a busy request under tag 5 (address 2) and two flush
requests that name it (addresses 0 and 1). -/
def exFlushTwo : World :=
  { Msize := 8192, fidpool := [(1, 0)], fids := [{ fid := 1, refcount := 1 }],
    Reqs := [(9, 0), (10, 1), (5, 2)], reqs := [exFlushReq, exFlushReq2, exFlushBusyTarget] }

/-! ## Heap lemmas -/

theorem set_getElem?_of_some {α : Type} (l : List α) (i : Nat) (a b : α)
    (h : l[i]? = some a) : (l.set i b)[i]? = some b := by
  have hi : i < l.length := by
    rcases Nat.lt_or_ge i l.length with h1 | h1
    · exact h1
    · rw [List.getElem?_eq_none h1] at h; cases h
  simp [List.getElem?_set, hi]

theorem World.reqAt_setReq_self (w : World) (r : Nat) (q q1 : Req) (h : w.reqAt r = some q) :
    (w.setReq r q1).reqAt r = some q1 :=
  set_getElem?_of_some w.reqs r q q1 h

theorem World.reqAt_setReq_ne (w : World) (r p : Nat) (q1 : Req) (h : r ≠ p) :
    (w.setReq r q1).reqAt p = w.reqAt p := by
  simp [World.reqAt, World.setReq, List.getElem?_set, h]

theorem World.fidAt_setFid_self (w : World) (p : Nat) (f f1 : Fid) (h : w.fidAt p = some f) :
    (w.setFid p f1).fidAt p = some f1 :=
  set_getElem?_of_some w.fids p f f1 h

theorem World.fidAt_setFid_ne (w : World) (p p1 : Nat) (f1 : Fid) (h : p ≠ p1) :
    (w.setFid p f1).fidAt p1 = w.fidAt p1 := by
  simp [World.fidAt, World.setFid, List.getElem?_set, h]

theorem World.respondWith_eq (w : World) (r : Nat) (q : Req) (rc : Fcall)
    (h : w.reqAt r = some q) :
    w.respondWith r rc
      = some ((w.setReq r { q with Rc := some rc }).emit (Event.Respond r (some rc))) := by
  unfold World.respondWith World.Respond
  simp [h, World.reqAt_setReq_self w r q _ h]

theorem World.RespondError_eq (w : World) (r : Nat) (q : Req) (e : Error)
    (h : w.reqAt r = some q) :
    w.RespondError r e
      = some ((w.setReq r { q with Rc := some (errorFcall q.Tc.Tag e) }).emit
          (Event.Respond r (some (errorFcall q.Tc.Tag e)))) := by
  unfold World.RespondError
  simp [h, World.respondWith_eq w r q _ h]

/-- Storing a response changes no request's status, chain or fids. -/
theorem reqAt_setRc (w : World) (r : Nat) (q : Req) (rc : Option Fcall)
    (h : w.reqAt r = some q) (p : Nat) (q0 : Req) (hp : w.reqAt p = some q0) :
    ∃ q1, (w.setReq r { q with Rc := rc }).reqAt p = some q1 ∧ q1.status = q0.status
      ∧ q1.next = q0.next ∧ q1.flushreq = q0.flushreq ∧ q1.Tc = q0.Tc := by
  by_cases hrp : r = p
  · subst hrp
    rw [h] at hp; cases hp
    exact ⟨_, World.reqAt_setReq_self w r q _ h, rfl, rfl, rfl, rfl⟩
  · exact ⟨q0, by rw [World.reqAt_setReq_ne w r p _ hrp]; exact hp, rfl, rfl, rfl, rfl⟩

/-! ## `version` -/

/-- C9: a `version` request offering an `Msize` below `IOHDRSZ` is answered with
the invalid-argument error ("msize too small", `EINVAL`), and that response is
the only step taken: the connection's `Msize` and `Dotu`, the status of every
request, and the counter `Versioned` are unchanged, and no `Rversion` is
sent. -/
theorem version_msize_too_small (srv : Srv) (w : World) (r : Nat) (req : Req)
    (hr : w.reqAt r = some req) (hlt : req.Tc.Msize < IOHDRSZ) :
    ∃ w1, srv.version w r = some w1
      ∧ w1.trace = w.trace ++
          [Event.Respond r (some (errorFcall req.Tc.Tag (Error.lit "msize too small" EINVAL)))]
      ∧ (errorFcall req.Tc.Tag (Error.lit "msize too small" EINVAL)).Type_ ≠ Rversion
      ∧ w1.Msize = w.Msize ∧ w1.Dotu = w.Dotu ∧ w1.Versioned = w.Versioned
      ∧ w1.Reqs = w.Reqs ∧ w1.reqs.length = w.reqs.length
      ∧ ∀ p q, w.reqAt p = some q → ∃ q1, w1.reqAt p = some q1 ∧ q1.status = q.status := by
  refine ⟨(w.setReq r { req with Rc := some (errorFcall req.Tc.Tag
      (Error.lit "msize too small" EINVAL)) }).emit (Event.Respond r (some (errorFcall req.Tc.Tag
      (Error.lit "msize too small" EINVAL)))), ?_, rfl, ?_, rfl, rfl, rfl, rfl, ?_, ?_⟩
  · unfold Srv.version
    simp only [hr, hlt, if_true]
    exact World.RespondError_eq w r req _ hr
  · simp [errorFcall, Rerror, Rversion]
  · simp [World.emit, World.setReq]
  · intro p q hp
    obtain ⟨q1, h1, h2, _⟩ := reqAt_setRc w r req (some (errorFcall req.Tc.Tag
      (Error.lit "msize too small" EINVAL))) hr p q hp
    exact ⟨q1, h1, h2⟩

theorem version_msize_too_small_witness :
    ∃ w1, exSrv.version exVersionSmall 0 = some w1
      ∧ w1.trace = exVersionSmall.trace ++
          [Event.Respond 0 (some (errorFcall 5 (Error.lit "msize too small" EINVAL)))]
      ∧ (errorFcall 5 (Error.lit "msize too small" EINVAL)).Type_ ≠ Rversion
      ∧ w1.Msize = exVersionSmall.Msize ∧ w1.Dotu = exVersionSmall.Dotu
      ∧ w1.Versioned = exVersionSmall.Versioned
      ∧ w1.Reqs = exVersionSmall.Reqs ∧ w1.reqs.length = exVersionSmall.reqs.length
      ∧ ∀ p q, exVersionSmall.reqAt p = some q →
          ∃ q1, w1.reqAt p = some q1 ∧ q1.status = q.status :=
  version_msize_too_small exSrv exVersionSmall 0
    { Tc := { Tag := 5, Msize := 10, Version := "9P2000.u" } } rfl (by decide)

theorem sameButStatus_refl (a : List Req) : SameButStatus a a := rfl

theorem sameButStatus_trans {a b c : List Req} (h1 : SameButStatus a b)
    (h2 : SameButStatus b c) : SameButStatus a c := Eq.trans h1 h2

theorem sameButStatus_length {a b : List Req} (h : SameButStatus a b) :
    a.length = b.length := by
  have := congrArg List.length h
  simpa using this

theorem sameButStatus_getElem? {a b : List Req} (h : SameButStatus a b) (p : Nat) :
    (a[p]?).map Req.eraseStatus = (b[p]?).map Req.eraseStatus := by
  have := congrArg (fun l => l[p]?) h
  simpa using this

theorem sameButStatus_set_status (a : List Req) (p : Nat) (q : Req) (s : Nat)
    (h : a[p]? = some q) : SameButStatus (a.set p { q with status := s }) a := by
  unfold SameButStatus
  apply List.ext_getElem?
  intro i
  by_cases hi : p = i
  · subst hi
    have hp : p < a.length := by
      rcases Nat.lt_or_ge p a.length with h1 | h1
      · exact h1
      · rw [List.getElem?_eq_none h1] at h; cases h
    have hq : a[p] = q := by
      have := List.getElem?_eq_getElem hp
      rw [this] at h
      exact Option.some.inj h
    simp [List.getElem?_set, hp, hq, Req.eraseStatus]
  · simp [List.getElem?_set, hi]

theorem sameNext_refl (a : List Req) : SameNext a a := rfl

theorem sameNext_trans {a b c : List Req} (h1 : SameNext a b) (h2 : SameNext b c) :
    SameNext a c := Eq.trans h1 h2

theorem sameNext_length {a b : List Req} (h : SameNext a b) : a.length = b.length := by
  have := congrArg List.length h
  simpa using this

theorem sameNext_getElem? {a b : List Req} (h : SameNext a b) (p : Nat) :
    (a[p]?).map Req.next = (b[p]?).map Req.next := by
  have := congrArg (fun l => l[p]?) h
  simpa using this

theorem sameNext_of_sameButStatus {a b : List Req} (h : SameButStatus a b) : SameNext a b := by
  have := congrArg (List.map Req.next) h
  simpa [SameNext, SameButStatus, Req.eraseStatus, Function.comp_def] using this

theorem sameNext_set (a : List Req) (p : Nat) (q q1 : Req) (h : a[p]? = some q)
    (hn : q1.next = q.next) : SameNext (a.set p q1) a := by
  unfold SameNext
  apply List.ext_getElem?
  intro i
  by_cases hi : p = i
  · subst hi
    have hp : p < a.length := by
      rcases Nat.lt_or_ge p a.length with h1 | h1
      · exact h1
      · rw [List.getElem?_eq_none h1] at h; cases h
    have hq : a[p] = q := by
      have := List.getElem?_eq_getElem hp
      rw [this] at h
      exact Option.some.inj h
    simp [List.getElem?_set, hp, hq, hn]
  · simp [List.getElem?_set, hi]

theorem chainEnds_congr {a b : List Req} (h : SameNext a b) (fuel : Nat) (p : Option Nat) :
    chainEnds fuel a p = chainEnds fuel b p := by
  induction fuel generalizing p with
  | zero => cases p <;> simp [chainEnds]
  | succ n ih =>
    cases p with
    | none => simp [chainEnds]
    | some p =>
      have hp := sameNext_getElem? h p
      cases ha : a[p]? with
      | none =>
        cases hb : b[p]? with
        | none => simp [chainEnds, ha, hb]
        | some qb => rw [ha, hb] at hp; cases hp
      | some qa =>
        cases hb : b[p]? with
        | none => rw [ha, hb] at hp; cases hp
        | some qb =>
          rw [ha, hb] at hp
          have hn : qa.next = qb.next := Option.some.inj hp
          simp [chainEnds, ha, hb, hn, ih]

/-- On a chain that ends within the fuel, the inner loop of `version` returns,
and it changes nothing but status bits. -/
theorem flagChain_some (fuel : Nat) (reqs : List Req) (p : Option Nat)
    (h : chainEnds fuel reqs p = true) :
    ∃ reqs1, flagChain fuel reqs p = some reqs1 ∧ SameButStatus reqs1 reqs := by
  induction fuel generalizing reqs p with
  | zero =>
    cases p with
    | none => exact ⟨reqs, by simp [flagChain], sameButStatus_refl _⟩
    | some p => simp [chainEnds] at h
  | succ n ih =>
    cases p with
    | none => exact ⟨reqs, by simp [flagChain], sameButStatus_refl _⟩
    | some p =>
      cases hq : reqs[p]? with
      | none => simp [chainEnds, hq] at h
      | some rr =>
        simp only [chainEnds, hq] at h
        have hs := sameButStatus_set_status reqs p rr (rr.status ||| reqFlush) hq
        have h1 : chainEnds n (reqs.set p { rr with status := rr.status ||| reqFlush }) rr.next
            = true := by rw [chainEnds_congr (sameNext_of_sameButStatus hs)]; exact h
        obtain ⟨reqs1, e1, s1⟩ := ih _ _ h1
        exact ⟨reqs1, by simp [flagChain, hq, e1], sameButStatus_trans s1 hs⟩

/-- On a table whose chains are proper lists, the sweep of `version` returns, and
it changes nothing but status bits. -/
theorem flagAll_some (tbl : List (Nat × Nat)) (reqs0 reqs : List Req)
    (hs : SameButStatus reqs reqs0)
    (h : ∀ kv ∈ tbl, kv.1 ≠ NOTAG → chainEnds reqs0.length reqs0 (some kv.2) = true) :
    ∃ reqs1, flagAll tbl reqs = some reqs1 ∧ SameButStatus reqs1 reqs0 := by
  induction tbl generalizing reqs with
  | nil => exact ⟨reqs, by simp [flagAll], hs⟩
  | cons kv rest ih =>
    obtain ⟨tag, r⟩ := kv
    by_cases ht : tag = NOTAG
    · obtain ⟨reqs1, e1, s1⟩ := ih reqs hs (fun kv hkv => h kv (List.mem_cons_of_mem _ hkv))
      exact ⟨reqs1, by simp [flagAll, ht, e1], s1⟩
    · have h0 := h (tag, r) (List.mem_cons_self _ _) ht
      have h1 : chainEnds reqs.length reqs (some r) = true := by
        rw [sameButStatus_length hs, chainEnds_congr (sameNext_of_sameButStatus hs)]; exact h0
      obtain ⟨reqs2, e2, s2⟩ := flagChain_some _ _ _ h1
      obtain ⟨reqs1, e1, s1⟩ := ih reqs2 (sameButStatus_trans s2 hs)
        (fun kv hkv => h kv (List.mem_cons_of_mem _ hkv))
      exact ⟨reqs1, by simp [flagAll, ht, e2, e1], s1⟩

/-- The handler `version` returns on every connection whose chains are proper
lists; it never raises `Msize`, and it keeps the tag table, the size of the
request heap and every `next` pointer. -/
theorem version_total (srv : Srv) (w : World) (r : Nat) (req : Req)
    (hwf : w.ChainsOk) (hr : w.reqAt r = some req) :
    ∃ w1, srv.version w r = some w1 ∧ w1.Msize ≤ w.Msize ∧ w1.Reqs = w.Reqs
      ∧ SameNext w1.reqs w.reqs
      ∧ (IOHDRSZ ≤ req.Tc.Msize → w1.Msize = min req.Tc.Msize w.Msize
          ∧ ∃ ver, w1.trace = w.trace ++ [Event.Respond r (some
              { Type_ := Rversion, Tag := req.Tc.Tag, Msize := min req.Tc.Msize w.Msize,
                Version := ver })]) := by
  by_cases hlt : req.Tc.Msize < IOHDRSZ
  · have hv : srv.version w r = w.RespondError r (Error.lit "msize too small" EINVAL) := by
      unfold Srv.version
      simp only [hr, hlt, if_true]
    rw [World.RespondError_eq w r req _ hr] at hv
    refine ⟨_, hv, Nat.le_refl _, rfl, sameNext_set w.reqs r req _ hr rfl, ?_⟩
    intro hge; omega
  · obtain ⟨reqs1, e1, s1⟩ := flagAll_some w.Reqs w.reqs w.reqs (sameButStatus_refl _) hwf
    have hlen : r < reqs1.length := by
      rw [sameButStatus_length s1]
      rcases Nat.lt_or_ge r w.reqs.length with h1 | h1
      · exact h1
      · have := List.getElem?_eq_none h1
        unfold World.reqAt at hr
        rw [this] at hr; cases hr
    have hq : reqs1[r]? = some reqs1[r] := List.getElem?_eq_getElem hlen
    have hv : srv.version w r = World.respondWith
        { w with Msize := min req.Tc.Msize w.Msize,
                 Dotu := (req.Tc.Version == "9P2000.u") && srv.Dotu,
                 reqs := reqs1, Versioned := (w.Versioned + 1) % 2 ^ 32 } r
        { Type_ := Rversion, Tag := req.Tc.Tag, Msize := min req.Tc.Msize w.Msize,
          Version := if ((req.Tc.Version == "9P2000.u") && srv.Dotu) = true then "9P2000.u"
            else "9P2000" } := by
      unfold Srv.version
      simp only [hr, hlt, if_false]
      by_cases hm : req.Tc.Msize < w.Msize
      · have hmin : min req.Tc.Msize w.Msize = req.Tc.Msize :=
          Nat.min_eq_left (Nat.le_of_lt hm)
        simp only [hm, if_true, e1, hmin]
      · have hmin : min req.Tc.Msize w.Msize = w.Msize :=
          Nat.min_eq_right (Nat.le_of_not_lt hm)
        simp only [hm, if_false, e1, hmin]
    rw [World.respondWith_eq _ r reqs1[r] _ (by exact hq)] at hv
    refine ⟨_, hv, Nat.min_le_right _ _, rfl, ?_, ?_⟩
    · exact sameNext_trans (sameNext_set reqs1 r reqs1[r]
        { reqs1[r] with Rc := some _ } hq rfl) (sameNext_of_sameButStatus s1)
    · intro _
      exact ⟨rfl, _, rfl⟩

/-! ## `open` -/

/-- C1 (the code departs from the claim): on `exOpen` the first `open` of fid 1
is delegated and, answered with `Ropen`, leaves the fid opened; the second
`open` is answered with `Eopen` and nothing else, and after `openPost` has run
on that error response the fid's `opened` flag is `false`, not `true`. -/
theorem open_second_open_clears_opened :
    ∃ w1 w2, serve exSrv.open exSrv.openPost exOpen 0 { Type_ := Ropen, Tag := 5 } = some w1
      ∧ (w1.fidAt 0).map Fid.opened = some true
      ∧ serve exSrv.open exSrv.openPost w1 1 { Type_ := Ropen, Tag := 6 } = some w2
      ∧ w2.trace = w1.trace ++ [Event.Respond 1 (some (errorFcall 6 Error.Eopen))]
      ∧ (w2.fidAt 0).map Fid.opened = some false :=
  ⟨_, _, rfl, rfl, rfl, rfl, rfl⟩

/-! ## `attach` -/

/-- C2 (the code departs from the claim): on `exAttach` the handle 1 is free and
the auth handle 2 is absent from the fid table; `attach` answers unknown-fid and
then goes on: when the user resolves, `AuthCheck` is called with a `nil` auth fid
and backend `Attach` is invoked; when the user does not resolve, a second
response (no-such-user) is produced. -/
theorem attach_unknown_afid_falls_through :
    exAttach.lookupFid 1 = none ∧ exAttach.FidGet 2 = none
      ∧ (exSrv.attach exAttach 0).map World.trace = some
          [Event.Respond 0 (some (errorFcall 5 Error.Eunknownfid)),
           Event.AuthCheck 0 none "", Event.OpAttach 0]
      ∧ (exSrvNoUser.attach exAttach 0).map World.trace = some
          [Event.Respond 0 (some (errorFcall 5 Error.Eunknownfid)),
           Event.Respond 0 (some (errorFcall 5 Error.Enouser))] :=
  ⟨rfl, rfl, rfl, rfl⟩

/-! ## `clunkPost` -/

/-- What `clunkPost` does to the fid of a clunk request that has a response: the
reference count goes down by one when the response is `Rclunk` and stays as it
is for any other response; no other fid is touched. -/
theorem clunkPost_refcount (srv : Srv) (w : World) (r fp : Nat) (req : Req) (fid : Fid)
    (rc : Fcall) (hr : w.reqAt r = some req) (hf : req.Fid = some fp)
    (hfd : w.fidAt fp = some fid) (hrc : req.Rc = some rc) :
    ∃ w1, srv.clunkPost w r = some w1
      ∧ (w1.fidAt fp).map Fid.refcount
          = some (if rc.Type_ = Rclunk then fid.refcount - 1 else fid.refcount)
      ∧ ∀ p, p ≠ fp → w1.fidAt p = w.fidAt p := by
  by_cases ht : rc.Type_ = Rclunk
  · have hv : srv.clunkPost w r = some (w.setFid fp { fid with refcount := fid.refcount - 1 }) := by
      unfold Srv.clunkPost
      simp [hr, hf, hrc, ht, World.DecRef, hfd]
    refine ⟨_, hv, ?_, ?_⟩
    · rw [World.fidAt_setFid_self w fp fid _ hfd]
      simp [ht]
    · intro p hp
      exact World.fidAt_setFid_ne w fp p _ (Ne.symm hp)
  · have hv : srv.clunkPost w r = some w := by
      unfold Srv.clunkPost
      simp [hr, hf, hrc, ht]
    refine ⟨_, hv, ?_, ?_⟩
    · simp [hfd, ht]
    · intro p _
      rfl

/-- C3 (the code departs from the claim): on `exClunkErr` the clunk request has a
resolved fid and an error response, and `clunkPost` leaves the reference count
at 1 instead of taking it to 0; on the same request and response the sibling
`removePost` takes the count to 0, and on the `Rclunk` of `exClunkOk`
`clunkPost` itself takes it to 0. -/
theorem clunkPost_error_keeps_refcount :
    (exClunkErr.reqAt 0).bind Req.Fid = some 0
      ∧ (exClunkErr.reqAt 0).bind Req.Rc = some (errorFcall 5 (Error.backend 13))
      ∧ (exClunkErr.fidAt 0).map Fid.refcount = some 1
      ∧ ((exSrv.clunkPost exClunkErr 0).bind (fun w => w.fidAt 0)).map Fid.refcount
          = some 1
      ∧ ((exSrv.removePost exClunkErr 0).bind (fun w => w.fidAt 0)).map Fid.refcount
          = some 0
      ∧ (exClunkOk.fidAt 0).map Fid.refcount = some 1
      ∧ ((exSrv.clunkPost exClunkOk 0).bind (fun w => w.fidAt 0)).map Fid.refcount
          = some 0 :=
  ⟨rfl, rfl, rfl, rfl, rfl, rfl, rfl⟩

/-! ## `read`, `write` -/

/-- C7 (the code departs from the claim): on `exReadWrap` the requested `Count`
plus `IOHDRSZ` exceeds `Msize` as integers, the 32-bit sum wraps to 23, and
`read` hands the request to backend `Read` without any response. -/
theorem read_size_gate_wraps :
    ((exReadWrap.reqAt 0).map (fun q => q.Tc.Count)) = some 4294967295
      ∧ 4294967295 < 2 ^ 32
      ∧ 4294967295 + IOHDRSZ > exReadWrap.Msize
      ∧ (exSrv.read exReadWrap 0).map World.trace = some [Event.OpRead 0] :=
  ⟨rfl, by decide, by decide, rfl⟩

/-- C8 (counterexample): on `exWrite` both requests ask for 16 bytes with
`Msize = 32`, so `Count` plus `IOHDRSZ` is 40; the write on the unopened regular
fid is answered with bad-use, not too-large, and the write on the auth fid is
handed to `AuthWrite` and answered with `Rwrite`. -/
theorem write_oversize_not_toolarge :
    16 + IOHDRSZ > exWrite.Msize
      ∧ (exSrv.write exWrite 0).map World.trace
          = some [Event.Respond 0 (some (errorFcall 5 Error.Ebaduse))]
      ∧ (exSrv.write exWrite 1).map World.trace
          = some [Event.AuthWrite 1 0 [1, 2, 3, 4, 5, 6, 7, 8, 9, 10, 11, 12, 13, 14, 15, 16],
                  Event.Respond 1 (some { Type_ := Rwrite, Tag := 6, Count := 16 })] :=
  ⟨by decide, rfl, rfl⟩

/-- C8 (amended): for a write request on a fid without the `QTAUTH` bit whose
`Count` plus `IOHDRSZ` exceeds `Msize` (the sum fitting 32 bits), `write` makes
no backend or auth call and only answers with an error: bad-use when the fid is
unopened, a directory, or opened read-only, and too-large otherwise; no fid
changes. -/
theorem write_size_gate (srv : Srv) (w : World) (r fp : Nat) (req : Req) (fid : Fid)
    (hr : w.reqAt r = some req) (hf : req.Fid = some fp) (hfd : w.fidAt fp = some fid)
    (hna : fid.Type_ &&& QTAUTH = 0) (hbig : req.Tc.Count + IOHDRSZ > w.Msize)
    (hfit : req.Tc.Count + IOHDRSZ < 2 ^ 32) :
    ∃ w1, srv.write w r = some w1
      ∧ w1.trace = w.trace ++ [Event.Respond r (some (errorFcall req.Tc.Tag
          (if fid.opened = false ∨ fid.Type_ &&& QTDIR ≠ 0 ∨ fid.Omode &&& 3 = OREAD
            then Error.Ebaduse else Error.Etoolarge)))]
      ∧ w1.fids = w.fids ∧ w1.fidpool = w.fidpool := by
  have hmod : (req.Tc.Count + IOHDRSZ) % 2 ^ 32 = req.Tc.Count + IOHDRSZ :=
    Nat.mod_eq_of_lt hfit
  by_cases hb : fid.opened = false ∨ fid.Type_ &&& QTDIR ≠ 0 ∨ fid.Omode &&& 3 = OREAD
  · have hv : srv.write w r = w.RespondError r Error.Ebaduse := by
      unfold Srv.write
      simp only [hr, hf, hfd, hna, ne_eq, not_true_eq_false, if_false, hb, if_true]
    rw [World.RespondError_eq w r req _ hr] at hv
    refine ⟨_, hv, ?_, rfl, rfl⟩
    simp only [hb, if_true]
    rfl
  · have hv : srv.write w r = w.RespondError r Error.Etoolarge := by
      unfold Srv.write
      simp only [hr, hf, hfd, hna, ne_eq, not_true_eq_false, if_false, hb, hmod, hbig, if_true]
    rw [World.RespondError_eq w r req _ hr] at hv
    refine ⟨_, hv, ?_, rfl, rfl⟩
    simp only [hb, if_false]
    rfl

theorem write_size_gate_witness :
    exWriteOpen.reqAt 0 = some exWriteOpenReq
      ∧ exWriteOpen.fidAt 0
          = some { fid := 1, refcount := 1, opened := true, Omode := OWRITE, User := some 7 }
      ∧ (0 : Nat) &&& QTAUTH = 0 ∧ exWriteOpenReq.Tc.Count + IOHDRSZ > exWriteOpen.Msize
      ∧ exWriteOpenReq.Tc.Count + IOHDRSZ < 2 ^ 32
      ∧ ∃ w1, exSrv.write exWriteOpen 0 = some w1
        ∧ w1.trace = exWriteOpen.trace ++ [Event.Respond 0 (some (errorFcall 5
            (if true = false ∨ (0 : Nat) &&& QTDIR ≠ 0 ∨ OWRITE &&& 3 = OREAD
              then Error.Ebaduse else Error.Etoolarge)))]
        ∧ w1.fids = exWriteOpen.fids ∧ w1.fidpool = exWriteOpen.fidpool :=
  ⟨rfl, rfl, by decide, by decide, by decide,
    write_size_gate exSrv exWriteOpen 0 0 exWriteOpenReq
      { fid := 1, refcount := 1, opened := true, Omode := OWRITE, User := some 7 }
      rfl rfl rfl (by decide) (by decide) (by decide)⟩

theorem ChainsOk_of_sameNext (w w1 : World) (hwf : w.ChainsOk) (hR : w1.Reqs = w.Reqs)
    (hs : SameNext w1.reqs w.reqs) : w1.ChainsOk := by
  intro kv hkv hne
  rw [hR] at hkv
  rw [sameNext_length hs, chainEnds_congr hs]
  exact hwf kv hkv hne

theorem versionSeq_total (srv : Srv) (rs : List Nat) (w : World) (hwf : w.ChainsOk)
    (hrs : ∀ x ∈ rs, x < w.reqs.length) :
    ∃ w2, versionSeq srv w rs = some w2 ∧ w2.Msize ≤ w.Msize := by
  induction rs generalizing w with
  | nil => exact ⟨w, rfl, Nat.le_refl _⟩
  | cons r rest ih =>
    have hr : r < w.reqs.length := hrs r (List.mem_cons_self _ _)
    have hq : w.reqAt r = some w.reqs[r] := List.getElem?_eq_getElem hr
    obtain ⟨w1, e1, hle, hR, hs, _⟩ := version_total srv w r _ hwf hq
    have hwf1 := ChainsOk_of_sameNext w w1 hwf hR hs
    obtain ⟨w2, e2, hle2⟩ := ih w1 hwf1 (by
      intro x hx
      rw [sameNext_length hs]
      exact hrs x (List.mem_cons_of_mem _ hx))
    exact ⟨w2, by simp [versionSeq, e1, e2], Nat.le_trans hle2 hle⟩

/-- C10: a `version` request offering an `Msize` of at least `IOHDRSZ` returns,
leaves the connection's `Msize` at the minimum of the offer and the previous
value, and answers with an `Rversion` carrying exactly that value; and a run of
any number of `version` requests, accepted or rejected, returns with an `Msize`
no larger than before. -/
theorem version_msize_min (srv : Srv) (w : World) (r : Nat) (req : Req)
    (hwf : w.ChainsOk) (hr : w.reqAt r = some req) (hge : IOHDRSZ ≤ req.Tc.Msize) :
    (∃ w1 ver, srv.version w r = some w1
      ∧ w1.Msize = min req.Tc.Msize w.Msize
      ∧ w1.trace = w.trace ++ [Event.Respond r (some
          { Type_ := Rversion, Tag := req.Tc.Tag, Msize := min req.Tc.Msize w.Msize,
            Version := ver })])
    ∧ ∀ rs : List Nat, (∀ x ∈ rs, x < w.reqs.length) →
        ∃ w2, versionSeq srv w rs = some w2 ∧ w2.Msize ≤ w.Msize := by
  constructor
  · obtain ⟨w1, e1, _, _, _, h⟩ := version_total srv w r req hwf hr
    obtain ⟨hm, ver, ht⟩ := h hge
    exact ⟨w1, ver, e1, hm, ht⟩
  · intro rs hrs
    exact versionSeq_total srv rs w hwf hrs

theorem version_msize_min_witness :
    exVersion.ChainsOk ∧ exVersion.reqAt 0 = some
        { Tc := { Tag := NOTAG, Msize := 4096, Version := "9P2000" } }
      ∧ IOHDRSZ ≤ 4096
      ∧ (∃ w1 ver, exSrv.version exVersion 0 = some w1
          ∧ w1.Msize = min 4096 exVersion.Msize
          ∧ w1.trace = exVersion.trace ++ [Event.Respond 0 (some
              { Type_ := Rversion, Tag := NOTAG, Msize := min 4096 exVersion.Msize,
                Version := ver })])
      ∧ ∀ rs : List Nat, (∀ x ∈ rs, x < exVersion.reqs.length) →
          ∃ w2, versionSeq exSrv exVersion rs = some w2 ∧ w2.Msize ≤ exVersion.Msize :=
  have hwf : exVersion.ChainsOk := by unfold World.ChainsOk; decide
  ⟨hwf, rfl, by decide,
    version_msize_min exSrv exVersion 0
      { Tc := { Tag := NOTAG, Msize := 4096, Version := "9P2000" } } hwf rfl (by decide)⟩

/-! ## `walk` -/

theorem World.fidAt_setReq (w : World) (r p : Nat) (q : Req) :
    (w.setReq r q).fidAt p = w.fidAt p := rfl

theorem World.fidAt_emit (w : World) (e : Event) (p : Nat) : (w.emit e).fidAt p = w.fidAt p := rfl

theorem World.reqAt_setFid (w : World) (r p : Nat) (f : Fid) :
    (w.setFid p f).reqAt r = w.reqAt r := rfl

theorem World.reqAt_emit (w : World) (e : Event) (r : Nat) : (w.emit e).reqAt r = w.reqAt r := rfl

theorem World.reqAt_alloc (w : World) (fidno r : Nat) : (w.alloc fidno).reqAt r = w.reqAt r := rfl

theorem World.FidNew_free (w : World) (fidno : Nat) (h : w.lookupFid fidno = none) :
    w.FidNew fidno = some (w.alloc fidno, w.fids.length) := by
  unfold World.FidNew
  simp [h, World.alloc]

theorem World.FidNew_live (w : World) (fidno p : Nat) (h : w.lookupFid fidno = some p) :
    w.FidNew fidno = none := by
  unfold World.FidNew
  simp [h]

theorem World.fidAt_alloc_old (w : World) (fidno p : Nat) (f : Fid) (h : w.fidAt p = some f) :
    (w.alloc fidno).fidAt p = some f := by
  have hp : p < w.fids.length := by
    rcases Nat.lt_or_ge p w.fids.length with h1 | h1
    · exact h1
    · unfold World.fidAt at h; rw [List.getElem?_eq_none h1] at h; cases h
  unfold World.fidAt at h ⊢
  simp [World.alloc, List.getElem?_append_left hp, h]

theorem World.fidAt_alloc_new (w : World) (fidno : Nat) :
    (w.alloc fidno).fidAt w.fids.length = some { fid := fidno } := by
  simp [World.fidAt, World.alloc]

theorem World.fidAt_lt (w : World) (p : Nat) (f : Fid) (h : w.fidAt p = some f) :
    p < w.fids.length := by
  rcases Nat.lt_or_ge p w.fids.length with h1 | h1
  · exact h1
  · unfold World.fidAt at h; rw [List.getElem?_eq_none h1] at h; cases h

/-- The handler `walk` on a request that passes the gate and names a free new
handle: the fid is allocated with the source's user and type and the request is
handed to backend `Walk`. -/
theorem walk_new_eq (srv : Srv) (w : World) (r fp : Nat) (req : Req) (fid : Fid)
    (hr : w.reqAt r = some req) (hf : req.Fid = some fp) (hfd : w.fidAt fp = some fid)
    (hdir : ¬ (req.Tc.Wname.length > 0 ∧ fid.Type_ &&& QTDIR = 0))
    (hop : fid.opened = false) (hne : req.Tc.Fid ≠ req.Tc.Newfid)
    (hfree : w.lookupFid req.Tc.Newfid = none) :
    srv.walk w r = some ((((w.alloc req.Tc.Newfid).setReq r
        { req with Newfid := some w.fids.length }).setFid w.fids.length
        { fid := req.Tc.Newfid, User := fid.User, Type_ := fid.Type_ }).emit (Event.OpWalk r)) := by
  unfold Srv.walk
  simp only [hr, hf, hfd, hdir, hop, if_false, hne, ne_eq, not_false_eq_true, if_true,
    World.FidNew_free w _ hfree]
  simp only [World.fidAt_setReq, World.fidAt_alloc_new, Bool.false_eq_true, if_false]

/-- The handler `walk` on a request that passes the gate and names the source
handle as the new handle: no fid is allocated, the source fid gains one
reference, and the request is handed to backend `Walk`. -/
theorem walk_same_eq (srv : Srv) (w : World) (r fp : Nat) (req : Req) (fid : Fid)
    (hr : w.reqAt r = some req) (hf : req.Fid = some fp) (hfd : w.fidAt fp = some fid)
    (hdir : ¬ (req.Tc.Wname.length > 0 ∧ fid.Type_ &&& QTDIR = 0))
    (hop : fid.opened = false) (heq : req.Tc.Fid = req.Tc.Newfid) :
    srv.walk w r = some (((w.setReq r { req with Newfid := some fp }).setFid fp
        { fid with refcount := fid.refcount + 1 }).emit (Event.OpWalk r)) := by
  unfold Srv.walk
  simp only [hr, hf, hfd, hdir, hop, if_false, heq, ne_eq, not_true_eq_false,
    Bool.false_eq_true, World.IncRef, World.fidAt_setReq]

/-- A request that the pre-handler handed on with one step that is not a
response: the backend's response is stored and the post-handler runs on it. -/
theorem serve_delegated (pre post : World → Nat → Option World) (w w1 : World) (r : Nat)
    (q1 : Req) (brc : Fcall) (e : Event) (hpre : pre w r = some w1)
    (ht : w1.trace = w.trace ++ [e]) (he : ∀ r1 rc, e ≠ Event.Respond r1 rc)
    (hq : w1.reqAt r = some q1) :
    serve pre post w r brc
      = post ((w1.setReq r { q1 with Rc := some brc }).emit (Event.Respond r (some brc))) r := by
  unfold serve
  have ha : w1.answered w.trace.length r = false := by
    unfold World.answered
    rw [ht, List.drop_left]
    cases e <;> simp at he ⊢
  simp only [hpre, ha, World.respondWith_eq w1 r q1 brc hq]
  simp

/-- A request that the pre-handler answered itself with one response: the
post-handler runs on that response. -/
theorem serve_answered (pre post : World → Nat → Option World) (w w1 : World) (r : Nat)
    (rc : Option Fcall) (brc : Fcall) (hpre : pre w r = some w1)
    (ht : w1.trace = w.trace ++ [Event.Respond r rc]) :
    serve pre post w r brc = post w1 r := by
  unfold serve
  have ha : w1.answered w.trace.length r = true := by
    unfold World.answered
    rw [ht, List.drop_left]
    simp
  simp only [hpre, ha, if_true]

/-- The post-handler `walkPost` on a response that is not an `Rwalk` does
nothing. -/
theorem walkPost_not_rwalk (srv : Srv) (w : World) (r : Nat) (q : Req) (rc : Fcall)
    (hr : w.reqAt r = some q) (hrc : q.Rc = some rc) (ht : rc.Type_ ≠ Rwalk) :
    srv.walkPost w r = some w := by
  unfold Srv.walkPost
  simp only [hr, hrc]
  cases q.Newfid <;> simp [ht]

/-- The post-handler `walkPost` on an `Rwalk`: the new fid takes the type of the last
qid (of the source fid when there is none) and gains one reference exactly when
the walk is full and the new fid's handle differs from the source's; nothing
else changes. -/
theorem walkPost_rwalk (srv : Srv) (w : World) (r n fp : Nat) (q : Req) (rc : Fcall)
    (nf fid : Fid) (hr : w.reqAt r = some q) (hrc : q.Rc = some rc)
    (hn : q.Newfid = some n) (hf : q.Fid = some fp) (ht : rc.Type_ = Rwalk)
    (hnf : w.fidAt n = some nf) (hfd : w.fidAt fp = some fid) :
    ∃ w1, srv.walkPost w r = some w1
      ∧ w1.fidAt n = some
          { nf with
            Type_ := (match rc.Wqid.getLast? with
              | some qid => qid.Type_
              | none => fid.Type_),
            refcount := nf.refcount +
              (if rc.Wqid.length = q.Tc.Wname.length ∧ nf.fid ≠ fid.fid then 1 else 0) }
      ∧ (∀ p, p ≠ n → w1.fidAt p = w.fidAt p)
      ∧ w1.fids.length = w.fids.length ∧ w1.fidpool = w.fidpool ∧ w1.trace = w.trace
      ∧ w1.reqs = w.reqs := by
  have hw1 : ∀ t, (w.setFid n { nf with Type_ := t }).fidAt n = some { nf with Type_ := t } :=
    fun t => World.fidAt_setFid_self w n nf _ hnf
  have hfp : ∀ t, ∃ f1, (w.setFid n { nf with Type_ := t }).fidAt fp = some f1
      ∧ f1.fid = fid.fid := by
    intro t
    by_cases hnp : n = fp
    · subst hnp
      rw [hnf] at hfd
      cases hfd
      exact ⟨_, hw1 t, rfl⟩
    · exact ⟨fid, by rw [World.fidAt_setFid_ne w n fp _ hnp]; exact hfd, rfl⟩
  have key : ∀ t, ∃ w1,
      (if rc.Wqid.length ≠ q.Tc.Wname.length then some (w.setFid n { nf with Type_ := t })
        else
          match (w.setFid n { nf with Type_ := t }).fidAt n,
              (some fp).bind (w.setFid n { nf with Type_ := t }).fidAt with
          | some nf1, some fid => if nf1.fid ≠ fid.fid
              then (w.setFid n { nf with Type_ := t }).IncRef n
              else some (w.setFid n { nf with Type_ := t })
          | _, _ => none) = some w1
      ∧ w1.fidAt n = some
          { nf with
            Type_ := t,
            refcount := nf.refcount +
              (if rc.Wqid.length = q.Tc.Wname.length ∧ nf.fid ≠ fid.fid then 1 else 0) }
      ∧ (∀ p, p ≠ n → w1.fidAt p = w.fidAt p)
      ∧ w1.fids.length = w.fids.length ∧ w1.fidpool = w.fidpool ∧ w1.trace = w.trace
      ∧ w1.reqs = w.reqs := by
    intro t
    obtain ⟨f1, hf1, hf1id⟩ := hfp t
    by_cases hlen : rc.Wqid.length = q.Tc.Wname.length
    · by_cases hid : nf.fid = fid.fid
      · refine ⟨w.setFid n { nf with Type_ := t }, ?_, ?_, ?_, ?_, rfl, rfl, rfl⟩
        · simp only [hlen, ne_eq, not_true_eq_false, if_false, Option.bind]
          rw [hw1 t, hf1]
          simp [hf1id, hid]
        · rw [hw1 t]
          simp [hlen, hid]
        · intro p hp
          exact World.fidAt_setFid_ne w n p _ (Ne.symm hp)
        · simp [World.setFid]
      · refine ⟨(w.setFid n { nf with Type_ := t }).setFid n
          { nf with Type_ := t, refcount := nf.refcount + 1 }, ?_, ?_, ?_, ?_, rfl, rfl, rfl⟩
        · simp only [hlen, ne_eq, not_true_eq_false, if_false, Option.bind]
          rw [hw1 t, hf1]
          simp only [hf1id, hid, not_false_eq_true, if_true, World.IncRef]
          rw [hw1 t]
        · rw [World.fidAt_setFid_self _ n _ _ (hw1 t)]
          simp [hlen, hid]
        · intro p hp
          rw [World.fidAt_setFid_ne _ n p _ (Ne.symm hp)]
          exact World.fidAt_setFid_ne w n p _ (Ne.symm hp)
        · simp [World.setFid]
    · refine ⟨w.setFid n { nf with Type_ := t }, ?_, ?_, ?_, ?_, rfl, rfl, rfl⟩
      · simp [hlen]
      · rw [hw1 t]
        simp [hlen]
      · intro p hp
        exact World.fidAt_setFid_ne w n p _ (Ne.symm hp)
      · simp [World.setFid]
  unfold Srv.walkPost
  simp only [hr, hrc, hn, ht, hnf, hf, ne_eq, not_true_eq_false, if_false]
  cases hl : rc.Wqid.getLast? with
  | none =>
    simp only [Option.bind, hfd, Option.map]
    exact key fid.Type_
  | some qid =>
    simp only []
    exact key qid.Type_

/-- The abstract form of `serve_delegated`: the world the post-handler runs on
holds the backend's response and the fids of the world the pre-handler left. -/
theorem serve_delegated_spec (pre post : World → Nat → Option World) (w w1 : World) (r : Nat)
    (q1 : Req) (brc : Fcall) (e : Event) (hpre : pre w r = some w1)
    (ht : w1.trace = w.trace ++ [e]) (he : ∀ r1 rc, e ≠ Event.Respond r1 rc)
    (hq : w1.reqAt r = some q1) :
    ∃ w2, serve pre post w r brc = post w2 r
      ∧ w2.reqAt r = some { q1 with Rc := some brc }
      ∧ (∀ p, w2.fidAt p = w1.fidAt p) ∧ w2.fids = w1.fids ∧ w2.fidpool = w1.fidpool
      ∧ w2.trace = w1.trace ++ [Event.Respond r (some brc)] :=
  ⟨_, serve_delegated pre post w w1 r q1 brc e hpre ht he hq,
    World.reqAt_setReq_self w1 r q1 _ hq, fun _ => rfl, rfl, rfl, rfl⟩

/-- The abstract form of `walk_new_eq`. -/
theorem walk_new_spec (srv : Srv) (w : World) (r fp : Nat) (req : Req) (fid : Fid)
    (hr : w.reqAt r = some req) (hf : req.Fid = some fp) (hfd : w.fidAt fp = some fid)
    (hdir : ¬ (req.Tc.Wname.length > 0 ∧ fid.Type_ &&& QTDIR = 0))
    (hop : fid.opened = false) (hne : req.Tc.Fid ≠ req.Tc.Newfid)
    (hfree : w.lookupFid req.Tc.Newfid = none) :
    ∃ w1, srv.walk w r = some w1
      ∧ w1.reqAt r = some { req with Newfid := some w.fids.length }
      ∧ w1.fidAt w.fids.length
          = some { fid := req.Tc.Newfid, User := fid.User, Type_ := fid.Type_ }
      ∧ (∀ p fd, w.fidAt p = some fd → w1.fidAt p = some fd)
      ∧ w1.fids.length = w.fids.length + 1
      ∧ w1.trace = w.trace ++ [Event.OpWalk r] := by
  have ha : ((w.alloc req.Tc.Newfid).setReq r { req with Newfid := some w.fids.length }).fidAt
      w.fids.length = some { fid := req.Tc.Newfid } := World.fidAt_alloc_new w _
  refine ⟨_, walk_new_eq srv w r fp req fid hr hf hfd hdir hop hne hfree,
    World.reqAt_setReq_self (w.alloc req.Tc.Newfid) r req _ hr,
    World.fidAt_setFid_self _ w.fids.length _ _ ha, ?_, ?_, rfl⟩
  · intro p fd hp
    have hpn : p ≠ w.fids.length := Nat.ne_of_lt (World.fidAt_lt w p fd hp)
    show (((w.alloc req.Tc.Newfid).setReq r _).setFid w.fids.length _).fidAt p = some fd
    rw [World.fidAt_setFid_ne _ _ p _ (Ne.symm hpn)]
    exact World.fidAt_alloc_old w _ p fd hp
  · simp [World.emit, World.setReq, World.setFid, World.alloc]

/-- A walk to a free new handle that passes the gate and is answered with an
`Rwalk`: after `walk` and `walkPost` the new fid (at the first free address) has
the source's user, the type of the last qid, and one reference exactly when the
walk is full and its handle differs from the source fid's; every fid that
existed before is unchanged. -/
theorem walk_new_serve (srv : Srv) (w : World) (r fp : Nat) (req : Req) (fid : Fid)
    (brc : Fcall) (hr : w.reqAt r = some req) (hf : req.Fid = some fp)
    (hfd : w.fidAt fp = some fid)
    (hdir : ¬ (req.Tc.Wname.length > 0 ∧ fid.Type_ &&& QTDIR = 0))
    (hop : fid.opened = false) (hne : req.Tc.Fid ≠ req.Tc.Newfid)
    (hfree : w.lookupFid req.Tc.Newfid = none) (ht : brc.Type_ = Rwalk) :
    ∃ w1, serve srv.walk srv.walkPost w r brc = some w1
      ∧ w1.fidAt w.fids.length = some
          { fid := req.Tc.Newfid, User := fid.User,
            Type_ := (match brc.Wqid.getLast? with
              | some qid => qid.Type_
              | none => fid.Type_),
            refcount := 0 +
              (if brc.Wqid.length = req.Tc.Wname.length ∧ req.Tc.Newfid ≠ fid.fid
                then 1 else 0) }
      ∧ (∀ p fd, w.fidAt p = some fd → w1.fidAt p = some fd)
      ∧ w1.fids.length = w.fids.length + 1
      ∧ (w1.reqAt r).bind Req.Newfid = some w.fids.length := by
  obtain ⟨w1, e1, hq1, hn1, hold1, hlen1, ht1⟩ :=
    walk_new_spec srv w r fp req fid hr hf hfd hdir hop hne hfree
  obtain ⟨w2, e2, hq2, hfid2, hfids2, _, _⟩ := serve_delegated_spec srv.walk srv.walkPost w w1 r _ brc
    (Event.OpWalk r) e1 ht1 (by intro r1 rc h; cases h) hq1
  obtain ⟨w3, e3, h1, h2, h3, _, _, h6⟩ := walkPost_rwalk srv w2 r w.fids.length fp _ brc _ fid
    hq2 rfl rfl hf ht (by rw [hfid2]; exact hn1) (by rw [hfid2]; exact hold1 fp fid hfd)
  refine ⟨w3, by rw [e2]; exact e3, h1, ?_, ?_, ?_⟩
  · intro p fd hp
    have hpn : p ≠ w.fids.length := Nat.ne_of_lt (World.fidAt_lt w p fd hp)
    rw [h2 p hpn, hfid2]
    exact hold1 p fd hp
  · rw [h3, hfids2, hlen1]
  · have : w3.reqAt r = w2.reqAt r := by unfold World.reqAt; rw [h6]
    rw [this, hq2]
    rfl

/-- A walk that names the source handle as the new handle and passes the gate:
whatever the backend answers, after `walk` and `walkPost` no fid has been
allocated, the source fid has gained exactly one reference, and no other fid has
changed. -/
theorem walk_same_serve (srv : Srv) (w : World) (r fp : Nat) (req : Req) (fid : Fid)
    (brc : Fcall) (hr : w.reqAt r = some req) (hf : req.Fid = some fp)
    (hfd : w.fidAt fp = some fid)
    (hdir : ¬ (req.Tc.Wname.length > 0 ∧ fid.Type_ &&& QTDIR = 0))
    (hop : fid.opened = false) (heq : req.Tc.Fid = req.Tc.Newfid) :
    ∃ w1, serve srv.walk srv.walkPost w r brc = some w1
      ∧ (w1.fidAt fp).map Fid.refcount = some (fid.refcount + 1)
      ∧ (∀ p, p ≠ fp → w1.fidAt p = w.fidAt p)
      ∧ w1.fids.length = w.fids.length ∧ w1.fidpool = w.fidpool
      ∧ (w1.reqAt r).bind Req.Newfid = some fp := by
  have hw := walk_same_eq srv w r fp req fid hr hf hfd hdir hop heq
  have hq1 : (((w.setReq r { req with Newfid := some fp }).setFid fp
        { fid with refcount := fid.refcount + 1 }).emit (Event.OpWalk r)).reqAt r
      = some { req with Newfid := some fp } := World.reqAt_setReq_self w r req _ hr
  have hn1 : (((w.setReq r { req with Newfid := some fp }).setFid fp
        { fid with refcount := fid.refcount + 1 }).emit (Event.OpWalk r)).fidAt fp
      = some { fid with refcount := fid.refcount + 1 } :=
    World.fidAt_setFid_self (w.setReq r { req with Newfid := some fp }) fp fid _ hfd
  have hold1 : ∀ p, p ≠ fp → (((w.setReq r { req with Newfid := some fp }).setFid fp
        { fid with refcount := fid.refcount + 1 }).emit (Event.OpWalk r)).fidAt p = w.fidAt p :=
    fun p hp => World.fidAt_setFid_ne (w.setReq r { req with Newfid := some fp }) fp p _
      (Ne.symm hp)
  have hlen1 : (((w.setReq r { req with Newfid := some fp }).setFid fp
        { fid with refcount := fid.refcount + 1 }).emit (Event.OpWalk r)).fids.length
      = w.fids.length := by
    simp [World.emit, World.setReq, World.setFid]
  obtain ⟨w2, e2, hq2, hfid2, hfids2, hpool2, _⟩ := serve_delegated_spec srv.walk srv.walkPost w
    _ r _ brc (Event.OpWalk r) hw rfl (by intro r1 rc h; cases h) hq1
  by_cases ht : brc.Type_ = Rwalk
  · obtain ⟨w3, e3, h1, h2, h3, h4, _, h6⟩ := walkPost_rwalk srv w2 r fp fp _ brc _ _
      hq2 rfl rfl hf ht (by rw [hfid2]; exact hn1) (by rw [hfid2]; exact hn1)
    refine ⟨w3, by rw [e2]; exact e3, ?_, ?_, ?_, ?_, ?_⟩
    · rw [h1]
      simp
    · intro p hp
      rw [h2 p hp, hfid2]
      exact hold1 p hp
    · rw [h3, hfids2, hlen1]
    · rw [h4, hpool2]
      rfl
    · have : w3.reqAt r = w2.reqAt r := by unfold World.reqAt; rw [h6]
      rw [this, hq2]
      rfl
  · have e3 := walkPost_not_rwalk srv w2 r _ brc hq2 rfl ht
    refine ⟨w2, by rw [e2]; exact e3, ?_, ?_, ?_, ?_, ?_⟩
    · rw [hfid2, hn1]
      rfl
    · intro p hp
      rw [hfid2]
      exact hold1 p hp
    · rw [hfids2, hlen1]
    · rw [hpool2]
      rfl
    · rw [hq2]
      rfl

/-- C4: a walk to a new handle (a request that passed the gate and whose new
handle was free) that is answered with an `Rwalk` of fewer qids than names
requested: after `walk` and `walkPost` the fid that `walk` allocated has the
reference count it had on allocation, every fid that existed before has its
reference count unchanged, and exactly one fid was added. -/
theorem walk_partial_keeps_refcounts (srv : Srv) (w : World) (r fp : Nat) (req : Req)
    (fid : Fid) (brc : Fcall) (hr : w.reqAt r = some req) (hf : req.Fid = some fp)
    (hfd : w.fidAt fp = some fid)
    (hdir : ¬ (req.Tc.Wname.length > 0 ∧ fid.Type_ &&& QTDIR = 0))
    (hop : fid.opened = false) (hne : req.Tc.Newfid ≠ req.Tc.Fid)
    (hfree : w.lookupFid req.Tc.Newfid = none) (ht : brc.Type_ = Rwalk)
    (hpart : brc.Wqid.length < req.Tc.Wname.length) :
    ∃ wa n c w1, w.FidNew req.Tc.Newfid = some (wa, n)
      ∧ (wa.fidAt n).map Fid.refcount = some c
      ∧ serve srv.walk srv.walkPost w r brc = some w1
      ∧ (w1.reqAt r).bind Req.Newfid = some n
      ∧ (w1.fidAt n).map Fid.refcount = some c
      ∧ (∀ p fd, w.fidAt p = some fd → (w1.fidAt p).map Fid.refcount = some fd.refcount)
      ∧ w1.fids.length = w.fids.length + 1 := by
  obtain ⟨w1, e1, h1, h2, h3, h4⟩ :=
    walk_new_serve srv w r fp req fid brc hr hf hfd hdir hop (Ne.symm hne) hfree ht
  refine ⟨w.alloc req.Tc.Newfid, w.fids.length, 0, w1, World.FidNew_free w _ hfree, ?_, e1, h4,
    ?_, ?_, h3⟩
  · rw [World.fidAt_alloc_new]
    rfl
  · rw [h1]
    have : ¬ (brc.Wqid.length = req.Tc.Wname.length ∧ req.Tc.Newfid ≠ fid.fid) :=
      fun h => absurd h.1 (Nat.ne_of_lt hpart)
    simp [this]
  · intro p fd hp
    rw [h2 p fd hp]
    rfl

theorem walk_partial_keeps_refcounts_witness :
    exWalk.reqAt 0 = some exWalkReq ∧ exWalk.fidAt 0 = some exWalkFid
      ∧ exWalk.lookupFid 2 = none ∧ exRwalkPartial.Wqid.length < exWalkReq.Tc.Wname.length
      ∧ ∃ wa n c w1, exWalk.FidNew exWalkReq.Tc.Newfid = some (wa, n)
        ∧ (wa.fidAt n).map Fid.refcount = some c
        ∧ serve exSrv.walk exSrv.walkPost exWalk 0 exRwalkPartial = some w1
        ∧ (w1.reqAt 0).bind Req.Newfid = some n
        ∧ (w1.fidAt n).map Fid.refcount = some c
        ∧ (∀ p fd, exWalk.fidAt p = some fd →
            (w1.fidAt p).map Fid.refcount = some fd.refcount)
        ∧ w1.fids.length = exWalk.fids.length + 1 :=
  ⟨rfl, rfl, rfl, by decide,
    walk_partial_keeps_refcounts exSrv exWalk 0 0 exWalkReq exWalkFid exRwalkPartial rfl rfl rfl
      (by decide) rfl (by decide) rfl rfl (by decide)⟩

/-- C5: for a walk request that passes the gate, with `req.Fid.fid = Tc.Fid`.
When the new handle differs from the source (and was free, so that an `Rwalk`
can come back) and the `Rwalk` carries as many qids as names requested, after
`walk` and `walkPost` the destination fid `req.Newfid` has one reference more
than on allocation and every fid that existed before keeps its count.  When the
new handle equals the source handle, whatever the backend responds, no fid is
allocated (fid heap and fid table keep their size and content), `req.Newfid` is
the source fid, its count has grown by exactly one, and no other fid has
changed. -/
theorem walk_full_increments (srv : Srv) (w : World) (r fp : Nat) (req : Req) (fid : Fid)
    (hr : w.reqAt r = some req) (hf : req.Fid = some fp) (hfd : w.fidAt fp = some fid)
    (hfidno : fid.fid = req.Tc.Fid)
    (hdir : ¬ (req.Tc.Wname.length > 0 ∧ fid.Type_ &&& QTDIR = 0))
    (hop : fid.opened = false) :
    (req.Tc.Fid ≠ req.Tc.Newfid → w.lookupFid req.Tc.Newfid = none →
      ∀ brc : Fcall, brc.Type_ = Rwalk → brc.Wqid.length = req.Tc.Wname.length →
        ∃ wa n c w1, w.FidNew req.Tc.Newfid = some (wa, n)
          ∧ (wa.fidAt n).map Fid.refcount = some c
          ∧ serve srv.walk srv.walkPost w r brc = some w1
          ∧ (w1.reqAt r).bind Req.Newfid = some n
          ∧ (w1.fidAt n).map Fid.refcount = some (c + 1)
          ∧ (∀ p fd, w.fidAt p = some fd →
              (w1.fidAt p).map Fid.refcount = some fd.refcount)
          ∧ w1.fids.length = w.fids.length + 1)
    ∧ (req.Tc.Fid = req.Tc.Newfid →
      ∀ brc : Fcall, ∃ w1, serve srv.walk srv.walkPost w r brc = some w1
        ∧ (w1.reqAt r).bind Req.Newfid = some fp
        ∧ w1.fids.length = w.fids.length ∧ w1.fidpool = w.fidpool
        ∧ (w1.fidAt fp).map Fid.refcount = some (fid.refcount + 1)
        ∧ ∀ p, p ≠ fp → w1.fidAt p = w.fidAt p) := by
  constructor
  · intro hne hfree brc ht hfull
    obtain ⟨w1, e1, h1, h2, h3, h4⟩ :=
      walk_new_serve srv w r fp req fid brc hr hf hfd hdir hop hne hfree ht
    refine ⟨w.alloc req.Tc.Newfid, w.fids.length, 0, w1, World.FidNew_free w _ hfree, ?_, e1,
      h4, ?_, ?_, h3⟩
    · rw [World.fidAt_alloc_new]
      rfl
    · rw [h1]
      have : brc.Wqid.length = req.Tc.Wname.length ∧ req.Tc.Newfid ≠ fid.fid :=
        ⟨hfull, by rw [hfidno]; exact Ne.symm hne⟩
      simp [this]
    · intro p fd hp
      rw [h2 p fd hp]
      rfl
  · intro heq brc
    obtain ⟨w1, e1, h1, h2, h3, h4, h5⟩ :=
      walk_same_serve srv w r fp req fid brc hr hf hfd hdir hop heq
    exact ⟨w1, e1, h5, h3, h4, h1, h2⟩

theorem walk_full_increments_witness :
    (exWalk.reqAt 0 = some exWalkReq ∧ exWalk.fidAt 0 = some exWalkFid
      ∧ exWalkFid.fid = exWalkReq.Tc.Fid ∧ exWalk.lookupFid 2 = none
      ∧ ∃ wa n c w1, exWalk.FidNew exWalkReq.Tc.Newfid = some (wa, n)
        ∧ (wa.fidAt n).map Fid.refcount = some c
        ∧ serve exSrv.walk exSrv.walkPost exWalk 0 exRwalkFull = some w1
        ∧ (w1.reqAt 0).bind Req.Newfid = some n
        ∧ (w1.fidAt n).map Fid.refcount = some (c + 1)
        ∧ (∀ p fd, exWalk.fidAt p = some fd →
            (w1.fidAt p).map Fid.refcount = some fd.refcount)
        ∧ w1.fids.length = exWalk.fids.length + 1)
    ∧ (exWalkSame.reqAt 0 = some exWalkSameReq ∧ exWalkSame.fidAt 0 = some exWalkFid
      ∧ ∀ brc : Fcall, ∃ w1, serve exSrv.walk exSrv.walkPost exWalkSame 0 brc = some w1
        ∧ (w1.reqAt 0).bind Req.Newfid = some 0
        ∧ w1.fids.length = exWalkSame.fids.length ∧ w1.fidpool = exWalkSame.fidpool
        ∧ (w1.fidAt 0).map Fid.refcount = some (exWalkFid.refcount + 1)
        ∧ ∀ p, p ≠ 0 → w1.fidAt p = exWalkSame.fidAt p) :=
  ⟨⟨rfl, rfl, rfl, rfl,
    (walk_full_increments exSrv exWalk 0 0 exWalkReq exWalkFid rfl rfl rfl rfl
      (by decide) rfl).1 (by decide) rfl exRwalkFull rfl rfl⟩,
   ⟨rfl, rfl,
    (walk_full_increments exSrv exWalkSame 0 0 exWalkSameReq exWalkFid rfl rfl rfl rfl
      (by decide) rfl).2 rfl⟩⟩

/-! ## Allocation of a live handle -/

theorem authPost_not_rauth (srv : Srv) (w : World) (r : Nat) (q : Req) (rc : Fcall)
    (hr : w.reqAt r = some q) (hrc : q.Rc = some rc) (ht : rc.Type_ ≠ Rauth) :
    srv.authPost w r = some w := by
  unfold Srv.authPost
  simp [hr, hrc, ht]

theorem attachPost_not_rattach (srv : Srv) (w : World) (r : Nat) (q : Req) (rc : Fcall)
    (hr : w.reqAt r = some q) (hrc : q.Rc = some rc) (ht : rc.Type_ ≠ Rattach) :
    srv.attachPost w r = some w := by
  unfold Srv.attachPost
  simp [hr, hrc, ht]

/-- A pre-handler that only answers with an error, followed by a post-handler
that leaves error responses alone: the one response is the only step, and
connection and fids are as before. -/
theorem serve_error_only (pre post : World → Nat → Option World) (w w0 : World) (r : Nat)
    (q : Req) (e : Error) (brc : Fcall) (tag : Nat) (hq : w0.reqAt r = some q)
    (htag : q.Tc.Tag = tag)
    (hpre : pre w r = w0.RespondError r e)
    (hw0 : w0.trace = w.trace ∧ w0.fids = w.fids ∧ w0.fidpool = w.fidpool)
    (hpost : ∀ w1 q1 rc, w1.reqAt r = some q1 → q1.Rc = some rc → rc.Type_ = Rerror →
      post w1 r = some w1) :
    ∃ w1, serve pre post w r brc = some w1
      ∧ w1.trace = w.trace ++ [Event.Respond r (some (errorFcall tag e))]
      ∧ w1.fids = w.fids ∧ w1.fidpool = w.fidpool := by
  rw [World.RespondError_eq w0 r q e hq] at hpre
  have hs := serve_answered pre post w _ r _ brc hpre
    (by show w0.trace ++ _ = _; rw [hw0.1])
  have hp := hpost ((w0.setReq r { q with Rc := some (errorFcall q.Tc.Tag e) }).emit
    (Event.Respond r (some (errorFcall q.Tc.Tag e)))) _ (errorFcall q.Tc.Tag e)
    (World.reqAt_setReq_self w0 r q _ hq) rfl rfl
  rw [hs, hp]
  refine ⟨_, rfl, ?_, ?_, ?_⟩
  · show w0.trace ++ _ = _
    rw [hw0.1, htag]
  · exact hw0.2.1
  · exact hw0.2.2

/-- C6: when the handle that a fid-allocating operation is to allocate is
already live in the fid table (`FidNew` returns `nil`) - the `Afid` of an `auth`,
the `Fid` of an `attach`, the `Newfid` of a `walk` that passes its gate and
differs from `Fid` - the handler answers handle-in-use and that response is the
only step (no backend or auth operation is invoked), and after the handler and
its post-handler the fid heap and the fid table are what they were: the
existing fid keeps its user, type, opened flag, mode, directory cursor and
reference count. -/
theorem alloc_live_handle_inuse (srv : Srv) (w : World) (r : Nat) (req : Req) (brc : Fcall)
    (hr : w.reqAt r = some req) :
    (∀ p, req.Tc.Afid ≠ NOFID → w.lookupFid req.Tc.Afid = some p →
      ∃ w1, serve srv.auth srv.authPost w r brc = some w1
        ∧ w1.trace = w.trace ++ [Event.Respond r (some (errorFcall req.Tc.Tag Error.Einuse))]
        ∧ w1.fids = w.fids ∧ w1.fidpool = w.fidpool ∧ w1.fidAt p = w.fidAt p)
    ∧ (∀ p, req.Tc.Fid ≠ NOFID → w.lookupFid req.Tc.Fid = some p →
      ∃ w1, serve srv.attach srv.attachPost w r brc = some w1
        ∧ w1.trace = w.trace ++ [Event.Respond r (some (errorFcall req.Tc.Tag Error.Einuse))]
        ∧ w1.fids = w.fids ∧ w1.fidpool = w.fidpool ∧ w1.fidAt p = w.fidAt p)
    ∧ (∀ p fp fid, req.Fid = some fp → w.fidAt fp = some fid →
      ¬ (req.Tc.Wname.length > 0 ∧ fid.Type_ &&& QTDIR = 0) → fid.opened = false →
      req.Tc.Fid ≠ req.Tc.Newfid → w.lookupFid req.Tc.Newfid = some p →
      ∃ w1, serve srv.walk srv.walkPost w r brc = some w1
        ∧ w1.trace = w.trace ++ [Event.Respond r (some (errorFcall req.Tc.Tag Error.Einuse))]
        ∧ w1.fids = w.fids ∧ w1.fidpool = w.fidpool ∧ w1.fidAt p = w.fidAt p) := by
  have fin : ∀ (w1 : World) (p : Nat), w1.fids = w.fids → w1.fidAt p = w.fidAt p := by
    intro w1 p h
    unfold World.fidAt
    rw [h]
  refine ⟨?_, ?_, ?_⟩
  · intro p hno hlive
    have hpre : srv.auth w r
        = (w.setReq r { req with Afid := none }).RespondError r Error.Einuse := by
      unfold Srv.auth
      simp only [hr, hno, if_false, World.FidNew_live w _ p hlive]
    obtain ⟨w1, e1, h1, h2, h3⟩ := serve_error_only srv.auth srv.authPost w
      (w.setReq r { req with Afid := none }) r { req with Afid := none } Error.Einuse
      brc req.Tc.Tag (World.reqAt_setReq_self w r req _ hr) rfl hpre ⟨rfl, rfl, rfl⟩ (by
        intro w1 q1 rc h1 h2 h3
        exact authPost_not_rauth srv w1 r q1 rc h1 h2 (by rw [h3]; decide))
    exact ⟨w1, e1, h1, h2, h3, fin w1 p h2⟩
  · intro p hno hlive
    have hpre : srv.attach w r
        = (w.setReq r { req with Fid := none }).RespondError r Error.Einuse := by
      unfold Srv.attach
      simp only [hr, hno, if_false, World.FidNew_live w _ p hlive]
    obtain ⟨w1, e1, h1, h2, h3⟩ := serve_error_only srv.attach srv.attachPost w
      (w.setReq r { req with Fid := none }) r { req with Fid := none } Error.Einuse
      brc req.Tc.Tag (World.reqAt_setReq_self w r req _ hr) rfl hpre ⟨rfl, rfl, rfl⟩ (by
        intro w1 q1 rc h1 h2 h3
        exact attachPost_not_rattach srv w1 r q1 rc h1 h2 (by rw [h3]; decide))
    exact ⟨w1, e1, h1, h2, h3, fin w1 p h2⟩
  · intro p fp fid hf hfd hdir hop hne hlive
    have hpre : srv.walk w r
        = (w.setReq r { req with Newfid := none }).RespondError r Error.Einuse := by
      unfold Srv.walk
      simp only [hr, hf, hfd, hdir, hop, if_false, hne, ne_eq, not_false_eq_true, if_true,
        Bool.false_eq_true, World.FidNew_live w _ p hlive]
    obtain ⟨w1, e1, h1, h2, h3⟩ := serve_error_only srv.walk srv.walkPost w
      (w.setReq r { req with Newfid := none }) r { req with Newfid := none } Error.Einuse
      brc req.Tc.Tag (World.reqAt_setReq_self w r req _ hr) rfl hpre ⟨rfl, rfl, rfl⟩ (by
        intro w1 q1 rc h1 h2 h3
        exact walkPost_not_rwalk srv w1 r q1 rc h1 h2 (by rw [h3]; decide))
    exact ⟨w1, e1, h1, h2, h3, fin w1 p h2⟩

theorem alloc_live_handle_inuse_witness :
    exInUse.reqAt 0 = some exInUseReq ∧ exInUse.reqAt 1 = some exInUseAttachReq
      ∧ exInUse.lookupFid 2 = some 1
      ∧ (∃ w1, serve exSrv.auth exSrv.authPost exInUse 0 {} = some w1
        ∧ w1.trace = exInUse.trace ++
            [Event.Respond 0 (some (errorFcall exInUseReq.Tc.Tag Error.Einuse))]
        ∧ w1.fids = exInUse.fids ∧ w1.fidpool = exInUse.fidpool
        ∧ w1.fidAt 1 = exInUse.fidAt 1)
      ∧ (∃ w1, serve exSrv.attach exSrv.attachPost exInUse 1 {} = some w1
        ∧ w1.trace = exInUse.trace ++
            [Event.Respond 1 (some (errorFcall exInUseAttachReq.Tc.Tag Error.Einuse))]
        ∧ w1.fids = exInUse.fids ∧ w1.fidpool = exInUse.fidpool
        ∧ w1.fidAt 1 = exInUse.fidAt 1)
      ∧ (∃ w1, serve exSrv.walk exSrv.walkPost exInUse 0 {} = some w1
        ∧ w1.trace = exInUse.trace ++
            [Event.Respond 0 (some (errorFcall exInUseReq.Tc.Tag Error.Einuse))]
        ∧ w1.fids = exInUse.fids ∧ w1.fidpool = exInUse.fidpool
        ∧ w1.fidAt 1 = exInUse.fidAt 1) :=
  ⟨rfl, rfl, rfl,
    (alloc_live_handle_inuse exSrv exInUse 0 exInUseReq {} rfl).1 1 (by decide) rfl,
    (alloc_live_handle_inuse exSrv exInUse 1 exInUseAttachReq {} rfl).2.1 1 (by decide) rfl,
    (alloc_live_handle_inuse exSrv exInUse 0 exInUseReq {} rfl).2.2 1 0
      { fid := 1, refcount := 1, Type_ := QTDIR, User := some 7 } rfl rfl (by decide) rfl
      (by decide) rfl⟩

/-! ## The validation gate of `walk` -/

/-- C17: the gate of `walk`.  When the request names at least one path element
and the source fid's type lacks `QTDIR`, the only step is the not-a-directory
response and no fid is allocated; otherwise, when the source fid is opened, the
only step is the bad-use response; otherwise `walk` goes on and neither error is
produced (the request is handed to backend `Walk`, or answered handle-in-use
when the new handle is live).  In particular a walk of zero elements on an
unopened fid goes on whatever the fid's type. -/
theorem walk_gate (srv : Srv) (w : World) (r fp : Nat) (req : Req) (fid : Fid)
    (hr : w.reqAt r = some req) (hf : req.Fid = some fp) (hfd : w.fidAt fp = some fid) :
    (req.Tc.Wname.length > 0 ∧ fid.Type_ &&& QTDIR = 0 →
      ∃ w1, srv.walk w r = some w1
        ∧ w1.trace = w.trace ++ [Event.Respond r (some (errorFcall req.Tc.Tag Error.Enotdir))]
        ∧ w1.fids = w.fids ∧ w1.fidpool = w.fidpool)
    ∧ (¬ (req.Tc.Wname.length > 0 ∧ fid.Type_ &&& QTDIR = 0) → fid.opened = true →
      ∃ w1, srv.walk w r = some w1
        ∧ w1.trace = w.trace ++ [Event.Respond r (some (errorFcall req.Tc.Tag Error.Ebaduse))]
        ∧ w1.fids = w.fids ∧ w1.fidpool = w.fidpool)
    ∧ (¬ (req.Tc.Wname.length > 0 ∧ fid.Type_ &&& QTDIR = 0) → fid.opened = false →
      ∃ w1, srv.walk w r = some w1
        ∧ (w1.trace = w.trace ++ [Event.OpWalk r]
          ∨ w1.trace = w.trace ++
              [Event.Respond r (some (errorFcall req.Tc.Tag Error.Einuse))]))
    ∧ (req.Tc.Wname = [] → fid.opened = false →
      ∃ w1, srv.walk w r = some w1
        ∧ (w1.trace = w.trace ++ [Event.OpWalk r]
          ∨ w1.trace = w.trace ++
              [Event.Respond r (some (errorFcall req.Tc.Tag Error.Einuse))])) := by
  have go : ¬ (req.Tc.Wname.length > 0 ∧ fid.Type_ &&& QTDIR = 0) → fid.opened = false →
      ∃ w1, srv.walk w r = some w1
        ∧ (w1.trace = w.trace ++ [Event.OpWalk r]
          ∨ w1.trace = w.trace ++
              [Event.Respond r (some (errorFcall req.Tc.Tag Error.Einuse))]) := by
    intro hdir hop
    by_cases heq : req.Tc.Fid = req.Tc.Newfid
    · exact ⟨_, walk_same_eq srv w r fp req fid hr hf hfd hdir hop heq, Or.inl rfl⟩
    · cases hl : w.lookupFid req.Tc.Newfid with
      | none => exact ⟨_, walk_new_eq srv w r fp req fid hr hf hfd hdir hop heq hl, Or.inl rfl⟩
      | some p =>
        have hpre : srv.walk w r
            = (w.setReq r { req with Newfid := none }).RespondError r Error.Einuse := by
          unfold Srv.walk
          simp only [hr, hf, hfd, hdir, hop, if_false, heq, ne_eq, not_false_eq_true, if_true,
            Bool.false_eq_true, World.FidNew_live w _ p hl]
        rw [World.RespondError_eq _ r { req with Newfid := none } _
          (World.reqAt_setReq_self w r req _ hr)] at hpre
        exact ⟨_, hpre, Or.inr rfl⟩
  refine ⟨?_, ?_, go, ?_⟩
  · intro hdir
    have hpre : srv.walk w r = w.RespondError r Error.Enotdir := by
      unfold Srv.walk
      simp only [hr, hf, hfd, hdir, and_self, if_true]
    rw [World.RespondError_eq w r req _ hr] at hpre
    exact ⟨_, hpre, rfl, rfl, rfl⟩
  · intro hdir hop
    have hpre : srv.walk w r = w.RespondError r Error.Ebaduse := by
      unfold Srv.walk
      simp only [hr, hf, hfd, hdir, hop, if_false, if_true]
    rw [World.RespondError_eq w r req _ hr] at hpre
    exact ⟨_, hpre, rfl, rfl, rfl⟩
  · intro hnil hop
    exact go (by rw [hnil]; simp) hop

theorem walk_gate_witness :
    exWalkFile.reqAt 0 = some exWalkFileReq ∧ exWalkFileReq.Fid = some 0
      ∧ exWalkFile.fidAt 0 = some exWalkFileFid
      ∧ (exWalkFileReq.Tc.Wname.length > 0 ∧ exWalkFileFid.Type_ &&& QTDIR = 0)
      ∧ ∃ w1, exSrv.walk exWalkFile 0 = some w1
        ∧ w1.trace = exWalkFile.trace ++
            [Event.Respond 0 (some (errorFcall exWalkFileReq.Tc.Tag Error.Enotdir))]
        ∧ w1.fids = exWalkFile.fids ∧ w1.fidpool = exWalkFile.fidpool :=
  ⟨rfl, rfl, rfl, by decide,
    (walk_gate exSrv exWalkFile 0 0 exWalkFileReq exWalkFileFid rfl rfl rfl).1 (by decide)⟩

/-! ## `create` -/

theorem createPost_not_rcreate (srv : Srv) (w : World) (r : Nat) (q : Req) (rc : Fcall)
    (hr : w.reqAt r = some q) (hrc : q.Rc = some rc) (ht : rc.Type_ ≠ Rcreate) :
    srv.createPost w r = some w := by
  unfold Srv.createPost
  simp only [hr, hrc]
  cases q.Fid <;> simp [ht]

/-- C14: a `create` request with one of the bits `DMNAMEDPIPE`, `DMSYMLINK`,
`DMLINK`, `DMDEVICE`, `DMSOCKET` in `Perm`, on a connection with `Dotu = false`:
`create` only answers with an error and never invokes backend `Create`; after
`create` and `createPost` every fid is what it was (so the fid keeps `Omode`,
`Type` and `opened`); and when the fid is an unopened directory and the check of
`DMDIR` with a mode other than read does not fire, the error is
permission-denied. -/
theorem create_special_without_dotu (srv : Srv) (w : World) (r fp : Nat) (req : Req)
    (fid : Fid) (brc : Fcall) (hr : w.reqAt r = some req) (hf : req.Fid = some fp)
    (hfd : w.fidAt fp = some fid) (hdotu : w.Dotu = false)
    (hperm : req.Tc.Perm &&& (DMNAMEDPIPE ||| DMSYMLINK ||| DMLINK ||| DMDEVICE ||| DMSOCKET)
      ≠ 0) :
    ∃ e w0 w1, srv.create w r = some w0
      ∧ w0.trace = w.trace ++ [Event.Respond r (some (errorFcall req.Tc.Tag e))]
      ∧ w0.fids = w.fids
      ∧ serve srv.create srv.createPost w r brc = some w1
      ∧ w1.trace = w.trace ++ [Event.Respond r (some (errorFcall req.Tc.Tag e))]
      ∧ w1.fids = w.fids ∧ w1.fidAt fp = some fid
      ∧ (fid.opened = false → fid.Type_ &&& QTDIR ≠ 0 →
          ¬ (req.Tc.Perm &&& DMDIR ≠ 0 ∧ req.Tc.Mode ≠ OREAD) → e = Error.Eperm) := by
  have key : ∀ e, srv.create w r = w.RespondError r e →
      ∃ w0 w1, srv.create w r = some w0
        ∧ w0.trace = w.trace ++ [Event.Respond r (some (errorFcall req.Tc.Tag e))]
        ∧ w0.fids = w.fids
        ∧ serve srv.create srv.createPost w r brc = some w1
        ∧ w1.trace = w.trace ++ [Event.Respond r (some (errorFcall req.Tc.Tag e))]
        ∧ w1.fids = w.fids ∧ w1.fidAt fp = some fid := by
    intro e hpre
    obtain ⟨w1, e1, h1, h2, _⟩ := serve_error_only srv.create srv.createPost w w r req e brc
      req.Tc.Tag hr rfl hpre ⟨rfl, rfl, rfl⟩ (by
        intro w1 q1 rc h1 h2 h3
        exact createPost_not_rcreate srv w1 r q1 rc h1 h2 (by rw [h3]; decide))
    have hpre2 := hpre
    rw [World.RespondError_eq w r req _ hr] at hpre2
    refine ⟨_, w1, hpre2, rfl, rfl, e1, h1, h2, ?_⟩
    unfold World.fidAt
    rw [h2]
    exact hfd
  rcases Bool.eq_false_or_eq_true fid.opened with hop | hop
  · obtain ⟨w0, w1, h⟩ := key Error.Eopen (by
      unfold Srv.create
      simp only [hr, hf, hfd, hop, if_true])
    exact ⟨_, w0, w1, h.1, h.2.1, h.2.2.1, h.2.2.2.1, h.2.2.2.2.1, h.2.2.2.2.2.1,
      h.2.2.2.2.2.2, fun h0 => by rw [h0] at hop; cases hop⟩
  · by_cases hdir : fid.Type_ &&& QTDIR = 0
    · obtain ⟨w0, w1, h⟩ := key Error.Enotdir (by
        unfold Srv.create
        simp only [hr, hf, hfd, hop, Bool.false_eq_true, if_false, hdir, if_true])
      exact ⟨_, w0, w1, h.1, h.2.1, h.2.2.1, h.2.2.2.1, h.2.2.2.2.1, h.2.2.2.2.2.1,
        h.2.2.2.2.2.2, fun _ h1 => absurd hdir h1⟩
    · by_cases hmode : req.Tc.Perm &&& DMDIR ≠ 0 ∧ req.Tc.Mode ≠ OREAD
      · obtain ⟨w0, w1, h⟩ := key Error.Eperm (by
          unfold Srv.create
          simp only [hr, hf, hfd, hop, Bool.false_eq_true, if_false, hdir]
          rw [if_pos hmode])
        exact ⟨_, w0, w1, h.1, h.2.1, h.2.2.1, h.2.2.2.1, h.2.2.2.2.1, h.2.2.2.2.2.1,
          h.2.2.2.2.2.2, fun _ _ _ => rfl⟩
      · obtain ⟨w0, w1, h⟩ := key Error.Eperm (by
          unfold Srv.create
          simp only [hr, hf, hfd, hop, Bool.false_eq_true, if_false, hdir]
          rw [if_neg hmode, if_pos ⟨hperm, hdotu⟩])
        exact ⟨_, w0, w1, h.1, h.2.1, h.2.2.1, h.2.2.2.1, h.2.2.2.2.1, h.2.2.2.2.2.1,
          h.2.2.2.2.2.2, fun _ _ _ => rfl⟩

theorem create_special_without_dotu_witness :
    exCreate.reqAt 0 = some exCreateReq ∧ exCreate.fidAt 0 = some exCreateFid
      ∧ exCreate.Dotu = false
      ∧ exCreateReq.Tc.Perm &&&
          (DMNAMEDPIPE ||| DMSYMLINK ||| DMLINK ||| DMDEVICE ||| DMSOCKET) ≠ 0
      ∧ ∃ e w0 w1, exSrv.create exCreate 0 = some w0
        ∧ w0.trace = exCreate.trace ++
            [Event.Respond 0 (some (errorFcall exCreateReq.Tc.Tag e))]
        ∧ w0.fids = exCreate.fids
        ∧ serve exSrv.create exSrv.createPost exCreate 0 {} = some w1
        ∧ w1.trace = exCreate.trace ++
            [Event.Respond 0 (some (errorFcall exCreateReq.Tc.Tag e))]
        ∧ w1.fids = exCreate.fids ∧ w1.fidAt 0 = some exCreateFid
        ∧ (exCreateFid.opened = false → exCreateFid.Type_ &&& QTDIR ≠ 0 →
            ¬ (exCreateReq.Tc.Perm &&& DMDIR ≠ 0 ∧ exCreateReq.Tc.Mode ≠ OREAD) →
            e = Error.Eperm) :=
  ⟨rfl, rfl, rfl, by decide,
    create_special_without_dotu exSrv exCreate 0 0 exCreateReq exCreateFid {} rfl rfl rfl rfl
      (by decide)⟩

/-! ## `attachPost` -/

/-- C18: `attachPost` on a request with a resolved fid.  When the response is an
`Rattach`, the fid's type becomes the type of the response qid and its reference
count grows by exactly one, and nothing else changes; when there is no response
or the response is any other message (an error), the world is unchanged, so
type and count are what they were. -/
theorem attachPost_commits_on_rattach (srv : Srv) (w : World) (r fp : Nat) (req : Req)
    (fid : Fid) (hr : w.reqAt r = some req) (hf : req.Fid = some fp)
    (hfd : w.fidAt fp = some fid) :
    (∀ rc, req.Rc = some rc → rc.Type_ = Rattach →
      ∃ w1, srv.attachPost w r = some w1
        ∧ w1.fidAt fp = some
            { fid with Type_ := rc.Qid.Type_, refcount := fid.refcount + 1 }
        ∧ (∀ p, p ≠ fp → w1.fidAt p = w.fidAt p)
        ∧ w1.fidpool = w.fidpool ∧ w1.reqs = w.reqs ∧ w1.trace = w.trace)
    ∧ (req.Rc = none → srv.attachPost w r = some w)
    ∧ (∀ rc, req.Rc = some rc → rc.Type_ ≠ Rattach → srv.attachPost w r = some w) := by
  refine ⟨?_, ?_, ?_⟩
  · intro rc hrc ht
    have h1 : (w.setFid fp { fid with Type_ := rc.Qid.Type_ }).fidAt fp
        = some { fid with Type_ := rc.Qid.Type_ } := World.fidAt_setFid_self w fp fid _ hfd
    have hv : srv.attachPost w r = some ((w.setFid fp { fid with Type_ := rc.Qid.Type_ }).setFid fp
        { fid with Type_ := rc.Qid.Type_, refcount := fid.refcount + 1 }) := by
      unfold Srv.attachPost
      simp only [hr, hrc, ht, if_true, hf, hfd, World.IncRef, h1]
    refine ⟨_, hv, World.fidAt_setFid_self _ fp _ _ h1, ?_, rfl, rfl, rfl⟩
    intro p hp
    rw [World.fidAt_setFid_ne _ fp p _ (Ne.symm hp)]
    exact World.fidAt_setFid_ne w fp p _ (Ne.symm hp)
  · intro hrc
    unfold Srv.attachPost
    simp only [hr, hrc]
  · intro rc hrc ht
    exact attachPost_not_rattach srv w r req rc hr hrc ht

theorem attachPost_commits_on_rattach_witness :
    exAttachPost.reqAt 0 = some exAttachPostReq ∧ exAttachPostReq.Fid = some 0
      ∧ exAttachPost.fidAt 0 = some exAttachPostFid
      ∧ exAttachPostReq.Rc = some exRattach ∧ exRattach.Type_ = Rattach
      ∧ exAttachPostFid.refcount = 0
      ∧ ∃ w1, exSrv.attachPost exAttachPost 0 = some w1
        ∧ w1.fidAt 0 = some
            { exAttachPostFid with Type_ := exRattach.Qid.Type_,
                                   refcount := exAttachPostFid.refcount + 1 }
        ∧ (∀ p, p ≠ 0 → w1.fidAt p = exAttachPost.fidAt p)
        ∧ w1.fidpool = exAttachPost.fidpool ∧ w1.reqs = exAttachPost.reqs
        ∧ w1.trace = exAttachPost.trace :=
  ⟨rfl, rfl, rfl, rfl, rfl, rfl,
    (attachPost_commits_on_rattach exSrv exAttachPost 0 0 exAttachPostReq exAttachPostFid
      rfl rfl rfl).1 exRattach rfl rfl⟩

/-! ## Directory reads -/

/-- C15 (counterexample): on `exReadDirAuth` the fid is opened, not write-only,
carries the directory bit, and the request passes the size gate; its type also
carries `QTAUTH`, so `read` takes the auth path and the cursor stays at 300
although the requested offset is 0. -/
theorem read_dir_auth_keeps_cursor :
    exReadDirAuthFid.opened = true ∧ exReadDirAuthFid.Omode &&& 3 ≠ OWRITE
      ∧ exReadDirAuthFid.Type_ &&& QTDIR ≠ 0
      ∧ (exReadDirReq.Tc.Count + IOHDRSZ) % 2 ^ 32 ≤ exReadDirAuth.Msize
      ∧ exReadDirReq.Tc.Offset = 0
      ∧ ((exSrv.read exReadDirAuth 0).bind (fun w => w.fidAt 0)).map Fid.Diroffset = some 300
      ∧ (exSrv.read exReadDirAuth 0).map World.trace = some
          [Event.AuthRead 0 0 100,
           Event.Respond 0 (some { Type_ := Rread, Tag := 5, Count := 100 })] :=
  ⟨rfl, by decide, by decide, by decide, rfl, rfl, rfl⟩

/-- C15 (amended): for a read on an opened, not write-only directory fid whose
type lacks `QTAUTH` and that passes the size gate, after `read` the fid's
`Diroffset` is the requested `Offset` and the request is handed to backend
`Read`; for an `Rread` response with `Count = K` on a directory fid, `readPost`
sets `Diroffset` to the old value plus `K` modulo `2^64`, whatever `Count` the
request asked for; on a response that is not an `Rread`, `readPost` changes
nothing. -/
theorem read_dir_cursor (srv : Srv) (w : World) (r fp : Nat) (req : Req) (fid : Fid)
    (hr : w.reqAt r = some req) (hf : req.Fid = some fp) (hfd : w.fidAt fp = some fid)
    (hdir : fid.Type_ &&& QTDIR ≠ 0) :
    (fid.Type_ &&& QTAUTH = 0 → fid.opened = true → fid.Omode &&& 3 ≠ OWRITE →
      (req.Tc.Count + IOHDRSZ) % 2 ^ 32 ≤ w.Msize →
      ∃ w1, srv.read w r = some w1
        ∧ w1.fidAt fp = some { fid with Diroffset := req.Tc.Offset }
        ∧ (∀ p, p ≠ fp → w1.fidAt p = w.fidAt p)
        ∧ w1.trace = w.trace ++ [Event.OpRead r])
    ∧ (∀ rc, req.Rc = some rc → rc.Type_ = Rread →
      ∃ w1, srv.readPost w r = some w1
        ∧ w1.fidAt fp = some { fid with Diroffset := (fid.Diroffset + rc.Count) % 2 ^ 64 }
        ∧ (∀ p, p ≠ fp → w1.fidAt p = w.fidAt p))
    ∧ (∀ rc, req.Rc = some rc → rc.Type_ ≠ Rread → srv.readPost w r = some w) := by
  refine ⟨?_, ?_, ?_⟩
  · intro hna hop hmode hgate
    have hg : ¬ (req.Tc.Count + IOHDRSZ) % 2 ^ 32 > w.Msize := Nat.not_lt.mpr hgate
    have hoff : (if req.Tc.Offset = 0 then 0
        else if req.Tc.Offset ≠ fid.Diroffset then req.Tc.Offset else fid.Diroffset)
        = req.Tc.Offset := by
      by_cases h0 : req.Tc.Offset = 0
      · rw [if_pos h0, h0]
      · rw [if_neg h0]
        by_cases h1 : req.Tc.Offset = fid.Diroffset
        · rw [if_neg (not_not.mpr h1), h1]
        · rw [if_pos h1]
    have hv : srv.read w r
        = some ((w.setFid fp { fid with Diroffset := req.Tc.Offset }).emit (Event.OpRead r)) := by
      unfold Srv.read
      simp only [hr, hg, if_false, hf, hfd, hna, ne_eq, not_true_eq_false, hop,
        Bool.true_eq_false, hmode, or_self, hdir, not_false_eq_true, if_true, hoff]
    refine ⟨_, hv, World.fidAt_setFid_self w fp fid _ hfd, ?_, rfl⟩
    intro p hp
    exact World.fidAt_setFid_ne w fp p _ (Ne.symm hp)
  · intro rc hrc ht
    have hv : srv.readPost w r
        = some (w.setFid fp { fid with Diroffset := (fid.Diroffset + rc.Count) % 2 ^ 64 }) := by
      unfold Srv.readPost
      simp only [hr, hrc, ht, if_true, hf, Option.bind, hfd, hdir, ne_eq, not_false_eq_true]
    refine ⟨_, hv, World.fidAt_setFid_self w fp fid _ hfd, ?_⟩
    intro p hp
    exact World.fidAt_setFid_ne w fp p _ (Ne.symm hp)
  · intro rc hrc ht
    unfold Srv.readPost
    simp only [hr, hrc, ht, if_false]

theorem read_dir_cursor_witness :
    exReadDir.reqAt 0 = some exReadDirReq ∧ exReadDirReq.Fid = some 0
      ∧ exReadDir.fidAt 0 = some exReadDirFid ∧ exReadDirFid.Type_ &&& QTDIR ≠ 0
      ∧ exReadDirFid.Type_ &&& QTAUTH = 0 ∧ exReadDirFid.opened = true
      ∧ exReadDirFid.Omode &&& 3 ≠ OWRITE
      ∧ (exReadDirReq.Tc.Count + IOHDRSZ) % 2 ^ 32 ≤ exReadDir.Msize
      ∧ ∃ w1, exSrv.read exReadDir 0 = some w1
        ∧ w1.fidAt 0 = some { exReadDirFid with Diroffset := exReadDirReq.Tc.Offset }
        ∧ (∀ p, p ≠ 0 → w1.fidAt p = exReadDir.fidAt p)
        ∧ w1.trace = exReadDir.trace ++ [Event.OpRead 0] :=
  ⟨rfl, rfl, rfl, by decide, by decide, rfl, by decide, by decide,
    (read_dir_cursor exSrv exReadDir 0 0 exReadDirReq exReadDirFid rfl rfl rfl
      (by decide)).1 (by decide) rfl (by decide) (by decide)⟩

/-! ## Reads and writes on auth fids -/

/-- The steps of `read` on a fid with the `QTAUTH` bit, in terms of the answers
of the collaborators: the fid's `opened` and `Omode` do not occur. -/
theorem read_auth_trace (srv : Srv) (w : World) (r fp : Nat) (req : Req) (fid : Fid)
    (hr : w.reqAt r = some req) (hf : req.Fid = some fp) (hfd : w.fidAt fp = some fid)
    (hauth : fid.Type_ &&& QTAUTH ≠ 0) :
    (srv.read w r).map World.trace = some (w.trace ++
      (if (req.Tc.Count + IOHDRSZ) % 2 ^ 32 > w.Msize then
        [Event.Respond r (some (errorFcall req.Tc.Tag Error.Etoolarge))]
      else
        match srv.InitRread req.Tc.Count with
        | some err => [Event.Respond r (some (errorFcall req.Tc.Tag err))]
        | none =>
          if srv.hasAuthOps = true then
            [Event.AuthRead fp req.Tc.Offset req.Tc.Count,
             Event.Respond r (some
              (match srv.AuthRead fid req.Tc.Offset req.Tc.Count with
                | Except.error err => errorFcall req.Tc.Tag err
                | Except.ok n =>
                  { Type_ := Rread, Tag := req.Tc.Tag, Count := (n % 2 ^ 32).toNat }))]
          else [Event.Respond r (some (errorFcall req.Tc.Tag Error.Enotimpl))])) := by
  unfold Srv.read
  simp only [hr, hf, hfd, hauth, ne_eq, not_false_eq_true, if_true]
  by_cases hg : (req.Tc.Count + IOHDRSZ) % 2 ^ 32 > w.Msize
  · simp only [hg, if_true, World.RespondError_eq w r req _ hr]
    rfl
  · simp only [hg, if_false]
    cases hi : srv.InitRread req.Tc.Count with
    | some err =>
      simp only [World.RespondError_eq w r req _ hr]
      rfl
    | none =>
      have hq1 := World.reqAt_setReq_self w r req
        { req with Rc := some { Type_ := Rread, Tag := req.Tc.Tag, Count := req.Tc.Count } } hr
      simp only [hf] at hq1
      cases ha : srv.hasAuthOps with
      | false =>
        simp only [Bool.false_eq_true, if_false, World.RespondError_eq _ r _ _ hq1]
        rfl
      | true =>
        simp only [if_true]
        cases hres : srv.AuthRead fid req.Tc.Offset req.Tc.Count with
        | error err =>
          simp only [World.RespondError_eq _ r _ _
            (show ((w.setReq r _).emit _).reqAt r = some _ from hq1)]
          simp [World.emit, World.setReq]
        | ok n =>
          simp only [World.respondWith_eq _ r _ _
            (show ((w.setReq r _).emit _).reqAt r = some _ from hq1)]
          simp [World.emit, World.setReq]

/-- The steps of `write` on a fid with the `QTAUTH` bit, in terms of the answers
of the collaborators: the fid's `opened` and `Omode` do not occur. -/
theorem write_auth_trace (srv : Srv) (w : World) (r fp : Nat) (req : Req) (fid : Fid)
    (hr : w.reqAt r = some req) (hf : req.Fid = some fp) (hfd : w.fidAt fp = some fid)
    (hauth : fid.Type_ &&& QTAUTH ≠ 0) :
    (srv.write w r).map World.trace = some (w.trace ++
      (if srv.hasAuthOps = true then
        [Event.AuthWrite fp req.Tc.Offset req.Tc.Data,
         Event.Respond r (some
          (match srv.AuthWrite fid req.Tc.Offset req.Tc.Data with
            | Except.error err => errorFcall req.Tc.Tag err
            | Except.ok n =>
              { Type_ := Rwrite, Tag := req.Tc.Tag, Count := (n % 2 ^ 32).toNat }))]
      else [Event.Respond r (some (errorFcall req.Tc.Tag Error.Enotimpl))])) := by
  unfold Srv.write
  simp only [hr, hf, hfd, hauth, ne_eq, not_false_eq_true, if_true]
  cases ha : srv.hasAuthOps with
  | false =>
    simp only [Bool.false_eq_true, if_false, World.RespondError_eq w r req _ hr]
    rfl
  | true =>
    simp only [if_true]
    cases hres : srv.AuthWrite fid req.Tc.Offset req.Tc.Data with
    | error err =>
      simp only [World.RespondError_eq _ r _ _ (show (w.emit _).reqAt r = some req from hr)]
      simp [World.emit, World.setReq]
    | ok n =>
      simp only [World.respondWith_eq _ r _ _ (show (w.emit _).reqAt r = some req from hr)]
      simp [World.emit, World.setReq]

/-- C16: reads and writes on a fid whose type carries `QTAUTH`.  No hypothesis
is made on the fid's `opened` flag and `Omode`, and replacing them by any other
values leaves the steps of `read` and of `write` the same (the backend's answers
being the same); backend `Read` and `Write` are never invoked.  For `write`, and
for `read` once the size gate and `InitRread` have passed: without the auth
capability the only step is the not-implemented response; with it the request
is handed to `AuthWrite` (`AuthRead`) and answered with its result, an `Rwrite`
(`Rread`) with the count or the error it returned. -/
theorem auth_fid_io (srv : Srv) (w : World) (r fp : Nat) (req : Req) (fid : Fid)
    (hr : w.reqAt r = some req) (hf : req.Fid = some fp) (hfd : w.fidAt fp = some fid)
    (hauth : fid.Type_ &&& QTAUTH ≠ 0) :
    ((req.Tc.Count + IOHDRSZ) % 2 ^ 32 ≤ w.Msize → srv.InitRread req.Tc.Count = none →
      (srv.hasAuthOps = false → (srv.read w r).map World.trace = some (w.trace ++
          [Event.Respond r (some (errorFcall req.Tc.Tag Error.Enotimpl))]))
      ∧ (srv.hasAuthOps = true →
          (∀ n, srv.AuthRead fid req.Tc.Offset req.Tc.Count = Except.ok n →
            (srv.read w r).map World.trace = some (w.trace ++
              [Event.AuthRead fp req.Tc.Offset req.Tc.Count,
               Event.Respond r (some
                { Type_ := Rread, Tag := req.Tc.Tag, Count := (n % 2 ^ 32).toNat })]))
          ∧ (∀ err, srv.AuthRead fid req.Tc.Offset req.Tc.Count = Except.error err →
            (srv.read w r).map World.trace = some (w.trace ++
              [Event.AuthRead fp req.Tc.Offset req.Tc.Count,
               Event.Respond r (some (errorFcall req.Tc.Tag err))]))))
    ∧ (srv.hasAuthOps = false → (srv.write w r).map World.trace = some (w.trace ++
        [Event.Respond r (some (errorFcall req.Tc.Tag Error.Enotimpl))]))
    ∧ (srv.hasAuthOps = true →
        (∀ n, srv.AuthWrite fid req.Tc.Offset req.Tc.Data = Except.ok n →
          (srv.write w r).map World.trace = some (w.trace ++
            [Event.AuthWrite fp req.Tc.Offset req.Tc.Data,
             Event.Respond r (some
              { Type_ := Rwrite, Tag := req.Tc.Tag, Count := (n % 2 ^ 32).toNat })]))
        ∧ (∀ err, srv.AuthWrite fid req.Tc.Offset req.Tc.Data = Except.error err →
          (srv.write w r).map World.trace = some (w.trace ++
            [Event.AuthWrite fp req.Tc.Offset req.Tc.Data,
             Event.Respond r (some (errorFcall req.Tc.Tag err))])))
    ∧ (∀ o m, srv.AuthRead { fid with opened := o, Omode := m } req.Tc.Offset req.Tc.Count
          = srv.AuthRead fid req.Tc.Offset req.Tc.Count →
        (srv.read (w.setFid fp { fid with opened := o, Omode := m }) r).map World.trace
          = (srv.read w r).map World.trace)
    ∧ (∀ o m, srv.AuthWrite { fid with opened := o, Omode := m } req.Tc.Offset req.Tc.Data
          = srv.AuthWrite fid req.Tc.Offset req.Tc.Data →
        (srv.write (w.setFid fp { fid with opened := o, Omode := m }) r).map World.trace
          = (srv.write w r).map World.trace)
    ∧ (∀ tr, (srv.read w r).map World.trace = some tr → Event.OpRead r ∉ tr.drop w.trace.length)
    ∧ (∀ tr, (srv.write w r).map World.trace = some tr →
        Event.OpWrite r ∉ tr.drop w.trace.length) := by
  have hR := read_auth_trace srv w r fp req fid hr hf hfd hauth
  have hW := write_auth_trace srv w r fp req fid hr hf hfd hauth
  refine ⟨?_, ?_, ?_, ?_, ?_, ?_, ?_⟩
  · intro hgate hinit
    have hg : ¬ (req.Tc.Count + IOHDRSZ) % 2 ^ 32 > w.Msize := Nat.not_lt.mpr hgate
    refine ⟨?_, ?_⟩
    · intro ha
      rw [hR]
      simp only [hg, if_false, hinit, ha, Bool.false_eq_true]
    · intro ha
      refine ⟨?_, ?_⟩
      · intro n hres
        rw [hR]
        simp only [hg, if_false, hinit, ha, if_true, hres]
      · intro err hres
        rw [hR]
        simp only [hg, if_false, hinit, ha, if_true, hres]
  · intro ha
    rw [hW]
    simp only [ha, Bool.false_eq_true, if_false]
  · intro ha
    refine ⟨?_, ?_⟩
    · intro n hres
      rw [hW]
      simp only [ha, if_true, hres]
    · intro err hres
      rw [hW]
      simp only [ha, if_true, hres]
  · intro o m ho
    rw [hR, read_auth_trace srv (w.setFid fp { fid with opened := o, Omode := m }) r fp req
      { fid with opened := o, Omode := m } hr hf (World.fidAt_setFid_self w fp fid _ hfd) hauth,
      ho]
    rfl
  · intro o m ho
    rw [hW, write_auth_trace srv (w.setFid fp { fid with opened := o, Omode := m }) r fp req
      { fid with opened := o, Omode := m } hr hf (World.fidAt_setFid_self w fp fid _ hfd) hauth,
      ho]
    rfl
  · intro tr htr
    rw [hR] at htr
    have := Option.some.inj htr
    subst this
    rw [List.drop_left]
    split
    · simp
    · split
      · simp
      · split <;> simp
  · intro tr htr
    rw [hW] at htr
    have := Option.some.inj htr
    subst this
    rw [List.drop_left]
    split <;> simp

theorem auth_fid_io_witness :
    exAuthRead.reqAt 0 = some exAuthReadReq ∧ exAuthReadReq.Fid = some 0
      ∧ exAuthRead.fidAt 0 = some exAuthReadFid ∧ exAuthReadFid.Type_ &&& QTAUTH ≠ 0
      ∧ exAuthReadFid.opened = false
      ∧ (exSrv.read exAuthRead 0).map World.trace = some (exAuthRead.trace ++
          [Event.AuthRead 0 exAuthReadReq.Tc.Offset exAuthReadReq.Tc.Count,
           Event.Respond 0 (some
            { Type_ := Rread, Tag := exAuthReadReq.Tc.Tag,
              Count := ((100 : Int) % 2 ^ 32).toNat })]) :=
  ⟨rfl, rfl, rfl, by decide, rfl,
    (((auth_fid_io exSrv exAuthRead 0 0 exAuthReadReq exAuthReadFid rfl rfl rfl
      (by decide)).1 (by decide) rfl).2 rfl).1 100 rfl⟩

/-! ## `flush` -/

theorem World.lookupReq_setReq (w : World) (r : Nat) (q : Req) (tag : Nat) :
    (w.setReq r q).lookupReq tag = w.lookupReq tag := rfl

/-- The handler `flush` on a request whose `Oldtag` maps to a live request other
than the flush request itself. -/
theorem flush_live_ne (srv : Srv) (w : World) (r t : Nat) (req tq : Req)
    (hr : w.reqAt r = some req) (hl : w.lookupReq req.Tc.Oldtag = some t)
    (ht : w.reqAt t = some tq) (hne : r ≠ t) :
    ∃ w1 rq1 tq1, srv.flush w r = some w1
      ∧ w1.reqAt r = some rq1 ∧ w1.reqAt t = some tq1
      ∧ rq1 = { req with Rc := some { Type_ := Rflush, Tag := req.Tc.Tag },
                         flushreq := tq.flushreq }
      ∧ tq1 = { tq with flushreq := some r,
                        status := if tq.status &&& (reqWork ||| reqSaved) = 0
                          then tq.status ||| reqFlush else tq.status }
      ∧ (∀ p, p ≠ r → p ≠ t → w1.reqAt p = w.reqAt p)
      ∧ w1.Reqs = w.Reqs ∧ w1.fids = w.fids ∧ w1.reqs.length = w.reqs.length
      ∧ w1.trace = w.trace ++
          (if tq.status &&& (reqWork ||| reqSaved) = 0 then [Event.Respond t tq.Rc]
            else if srv.hasFlushOp = true then [Event.OpFlush t] else []) := by
  have e1 : (w.setReq r { req with Rc := some { Type_ := Rflush, Tag := req.Tc.Tag } }).reqAt t
      = some tq := by
    rw [World.reqAt_setReq_ne w r t _ hne]; exact ht
  have e0 := World.reqAt_setReq_self w r req
    { req with Rc := some { Type_ := Rflush, Tag := req.Tc.Tag } } hr
  have e2 : ((w.setReq r { req with Rc := some { Type_ := Rflush, Tag := req.Tc.Tag } }).setReq r
      { req with Rc := some { Type_ := Rflush, Tag := req.Tc.Tag },
                 flushreq := tq.flushreq }).reqAt t = some tq := by
    rw [World.reqAt_setReq_ne _ r t _ hne]; exact e1
  have e2r := World.reqAt_setReq_self _ r _
    { req with Rc := some { Type_ := Rflush, Tag := req.Tc.Tag }, flushreq := tq.flushreq } e0
  have e3 := World.reqAt_setReq_self _ t tq { tq with flushreq := some r } e2
  have e4 := World.reqAt_setReq_self _ t _
    { tq with flushreq := some r, status := tq.status ||| reqFlush } e3
  by_cases hidle : tq.status &&& (reqWork ||| reqSaved) = 0
  · unfold Srv.flush
    simp only [hr, World.lookupReq_setReq, hl, e1, e2, e3, hidle, if_true, World.Respond, e4]
    refine ⟨_, _, _, rfl, ?_, e4, rfl, rfl, ?_, rfl, rfl, ?_, ?_⟩
    · show (((_ : World).setReq t _).setReq t _).reqAt r = _
      rw [World.reqAt_setReq_ne _ t r _ (Ne.symm hne), World.reqAt_setReq_ne _ t r _ (Ne.symm hne)]
      exact e2r
    · intro p hpr hpt
      show ((((w.setReq r _).setReq r _).setReq t _).setReq t _).reqAt p = _
      rw [World.reqAt_setReq_ne _ t p _ (Ne.symm hpt), World.reqAt_setReq_ne _ t p _ (Ne.symm hpt),
        World.reqAt_setReq_ne _ r p _ (Ne.symm hpr), World.reqAt_setReq_ne _ r p _ (Ne.symm hpr)]
    · simp [World.emit, World.setReq]
    · rfl
  · unfold Srv.flush
    simp only [hr, World.lookupReq_setReq, hl, e1, e2, e3, hidle, if_false]
    cases hfo : srv.hasFlushOp with
    | true =>
      simp only [if_true]
      refine ⟨_, _, _, rfl, ?_, e3, rfl, rfl, ?_, rfl, rfl, ?_, ?_⟩
      · show ((_ : World).setReq t _).reqAt r = _
        rw [World.reqAt_setReq_ne _ t r _ (Ne.symm hne)]
        exact e2r
      · intro p hpr hpt
        show (((w.setReq r _).setReq r _).setReq t _).reqAt p = _
        rw [World.reqAt_setReq_ne _ t p _ (Ne.symm hpt),
          World.reqAt_setReq_ne _ r p _ (Ne.symm hpr), World.reqAt_setReq_ne _ r p _ (Ne.symm hpr)]
      · simp [World.emit, World.setReq]
      · rfl
    | false =>
      simp only [Bool.false_eq_true, if_false]
      refine ⟨_, _, _, rfl, ?_, e3, rfl, rfl, ?_, rfl, rfl, ?_, ?_⟩
      · show ((_ : World).setReq t _).reqAt r = _
        rw [World.reqAt_setReq_ne _ t r _ (Ne.symm hne)]
        exact e2r
      · intro p hpr hpt
        show (((w.setReq r _).setReq r _).setReq t _).reqAt p = _
        rw [World.reqAt_setReq_ne _ t p _ (Ne.symm hpt),
          World.reqAt_setReq_ne _ r p _ (Ne.symm hpr), World.reqAt_setReq_ne _ r p _ (Ne.symm hpr)]
      · simp [World.setReq]
      · exact (List.append_nil _).symm

/-- The handler `flush` on a request whose `Oldtag` maps to the flush request
itself. -/
theorem flush_live_self (srv : Srv) (w : World) (r : Nat) (req : Req)
    (hr : w.reqAt r = some req) (hl : w.lookupReq req.Tc.Oldtag = some r) :
    ∃ w1 rq1, srv.flush w r = some w1 ∧ w1.reqAt r = some rq1
      ∧ rq1 = { req with Rc := some { Type_ := Rflush, Tag := req.Tc.Tag },
                         flushreq := some r,
                         status := if req.status &&& (reqWork ||| reqSaved) = 0
                           then req.status ||| reqFlush else req.status }
      ∧ (∀ p, p ≠ r → w1.reqAt p = w.reqAt p)
      ∧ w1.Reqs = w.Reqs ∧ w1.fids = w.fids ∧ w1.reqs.length = w.reqs.length
      ∧ w1.trace = w.trace ++
          (if req.status &&& (reqWork ||| reqSaved) = 0
            then [Event.Respond r (some { Type_ := Rflush, Tag := req.Tc.Tag })]
            else if srv.hasFlushOp = true then [Event.OpFlush r] else []) := by
  have e0 := World.reqAt_setReq_self w r req
    { req with Rc := some { Type_ := Rflush, Tag := req.Tc.Tag } } hr
  have e2 := World.reqAt_setReq_self _ r _
    { req with Rc := some { Type_ := Rflush, Tag := req.Tc.Tag }, flushreq := req.flushreq } e0
  have e3 := World.reqAt_setReq_self _ r _
    { req with Rc := some { Type_ := Rflush, Tag := req.Tc.Tag }, flushreq := some r } e2
  have e4 := World.reqAt_setReq_self _ r _
    { req with Rc := some { Type_ := Rflush, Tag := req.Tc.Tag }, flushreq := some r,
               status := req.status ||| reqFlush } e3
  by_cases hidle : req.status &&& (reqWork ||| reqSaved) = 0
  · unfold Srv.flush
    simp only [hr, World.lookupReq_setReq, hl, e0, e2, e3, hidle, if_true, World.Respond, e4]
    refine ⟨_, _, rfl, e4, rfl, ?_, rfl, rfl, ?_, rfl⟩
    · intro p hp
      show ((((w.setReq r _).setReq r _).setReq r _).setReq r _).reqAt p = _
      rw [World.reqAt_setReq_ne _ r p _ (Ne.symm hp), World.reqAt_setReq_ne _ r p _ (Ne.symm hp),
        World.reqAt_setReq_ne _ r p _ (Ne.symm hp), World.reqAt_setReq_ne _ r p _ (Ne.symm hp)]
    · simp [World.emit, World.setReq]
  · unfold Srv.flush
    simp only [hr, World.lookupReq_setReq, hl, e0, e2, e3, hidle, if_false]
    cases hfo : srv.hasFlushOp with
    | true =>
      simp only [if_true]
      refine ⟨_, _, rfl, e3, rfl, ?_, rfl, rfl, ?_, rfl⟩
      · intro p hp
        show (((w.setReq r _).setReq r _).setReq r _).reqAt p = _
        rw [World.reqAt_setReq_ne _ r p _ (Ne.symm hp),
          World.reqAt_setReq_ne _ r p _ (Ne.symm hp), World.reqAt_setReq_ne _ r p _ (Ne.symm hp)]
      · simp [World.emit, World.setReq]
    | false =>
      simp only [Bool.false_eq_true, if_false]
      refine ⟨_, _, rfl, e3, rfl, ?_, rfl, rfl, ?_, (List.append_nil _).symm⟩
      · intro p hp
        show (((w.setReq r _).setReq r _).setReq r _).reqAt p = _
        rw [World.reqAt_setReq_ne _ r p _ (Ne.symm hp),
          World.reqAt_setReq_ne _ r p _ (Ne.symm hp), World.reqAt_setReq_ne _ r p _ (Ne.symm hp)]
      · simp [World.setReq]

/-- Setting `reqFlush` sets bit 0 and keeps every other bit. -/
theorem testBit_lor_reqFlush (s : Nat) :
    (s ||| reqFlush).testBit 0 = true ∧ ∀ i, i ≠ 0 → (s ||| reqFlush).testBit i = s.testBit i := by
  have h1 : ∀ i, (1 : Nat).testBit i = decide (i = 0) := by
    intro i
    have := @Nat.testBit_two_pow 0 i
    simpa [eq_comm] using this
  refine ⟨?_, ?_⟩
  · simp [reqFlush, Nat.testBit_or, h1]
  · intro i hi
    simp [reqFlush, Nat.testBit_or, h1, hi]

/-- C12: a flush whose `Oldtag` maps to a live request `t`.  When the target's
status has neither `reqWork` nor `reqSaved`, `flush` sets `reqFlush` on the
target (bit 0 set, every other bit as before) and its only step is the response
to the target: the backend `Flush` hook is not invoked.  When the target has
`reqWork` or `reqSaved`, the target's status is unchanged, no response is made
(neither to the target nor to the flush request), and the only step is the
`Flush` hook on the target, taken exactly when the backend implements it. -/
theorem flush_live_target (srv : Srv) (w : World) (r t : Nat) (req tq : Req)
    (hr : w.reqAt r = some req) (hl : w.lookupReq req.Tc.Oldtag = some t)
    (ht : w.reqAt t = some tq) :
    (tq.status &&& (reqWork ||| reqSaved) = 0 →
      ∃ w1 tq1, srv.flush w r = some w1 ∧ w1.reqAt t = some tq1
        ∧ tq1.status = tq.status ||| reqFlush
        ∧ tq1.status.testBit 0 = true
        ∧ (∀ i, i ≠ 0 → tq1.status.testBit i = tq.status.testBit i)
        ∧ w1.trace = w.trace ++ [Event.Respond t tq1.Rc])
    ∧ (tq.status &&& (reqWork ||| reqSaved) ≠ 0 →
      ∃ w1 tq1, srv.flush w r = some w1 ∧ w1.reqAt t = some tq1
        ∧ tq1.status = tq.status
        ∧ w1.trace = w.trace ++ (if srv.hasFlushOp = true then [Event.OpFlush t] else [])) := by
  by_cases hrt : r = t
  · subst hrt
    rw [hr] at ht
    cases ht
    obtain ⟨w1, rq1, hv, hq, hrq, _, _, _, _, htr⟩ := flush_live_self srv w r req hr hl
    refine ⟨?_, ?_⟩
    · intro hidle
      refine ⟨w1, rq1, hv, hq, ?_, ?_, ?_, ?_⟩
      · rw [hrq]; simp [hidle]
      · rw [hrq]; simp only [hidle, if_true]
        exact (testBit_lor_reqFlush req.status).1
      · intro i hi
        rw [hrq]; simp only [hidle, if_true]
        exact (testBit_lor_reqFlush req.status).2 i hi
      · rw [htr, hrq]; simp [hidle]
    · intro hbusy
      refine ⟨w1, rq1, hv, hq, ?_, ?_⟩
      · rw [hrq]; simp [hbusy]
      · rw [htr]; simp [hbusy]
  · obtain ⟨w1, rq1, tq1, hv, _, hq, _, htq, _, _, _, _, htr⟩ :=
      flush_live_ne srv w r t req tq hr hl ht hrt
    refine ⟨?_, ?_⟩
    · intro hidle
      refine ⟨w1, tq1, hv, hq, ?_, ?_, ?_, ?_⟩
      · rw [htq]; simp [hidle]
      · rw [htq]; simp only [hidle, if_true]
        exact (testBit_lor_reqFlush tq.status).1
      · intro i hi
        rw [htq]; simp only [hidle, if_true]
        exact (testBit_lor_reqFlush tq.status).2 i hi
      · rw [htr, htq]; simp [hidle]
    · intro hbusy
      refine ⟨w1, tq1, hv, hq, ?_, ?_⟩
      · rw [htq]; simp [hbusy]
      · rw [htr]; simp [hbusy]

theorem flush_live_target_witness :
    (exFlushIdle.reqAt 0 = some exFlushReq ∧ exFlushIdle.lookupReq exFlushReq.Tc.Oldtag = some 1
      ∧ exFlushIdle.reqAt 1 = some exFlushIdleTarget
      ∧ exFlushIdleTarget.status &&& (reqWork ||| reqSaved) = 0
      ∧ ∃ w1 tq1, exSrv.flush exFlushIdle 0 = some w1 ∧ w1.reqAt 1 = some tq1
        ∧ tq1.status = exFlushIdleTarget.status ||| reqFlush
        ∧ tq1.status.testBit 0 = true
        ∧ (∀ i, i ≠ 0 → tq1.status.testBit i = exFlushIdleTarget.status.testBit i)
        ∧ w1.trace = exFlushIdle.trace ++ [Event.Respond 1 tq1.Rc])
    ∧ (exFlushBusy.reqAt 0 = some exFlushReq ∧ exFlushBusy.lookupReq exFlushReq.Tc.Oldtag = some 1
      ∧ exFlushBusy.reqAt 1 = some exFlushBusyTarget
      ∧ exFlushBusyTarget.status &&& (reqWork ||| reqSaved) ≠ 0
      ∧ ∃ w1 tq1, exSrv.flush exFlushBusy 0 = some w1 ∧ w1.reqAt 1 = some tq1
        ∧ tq1.status = exFlushBusyTarget.status
        ∧ w1.trace = exFlushBusy.trace ++
            (if exSrv.hasFlushOp = true then [Event.OpFlush 1] else [])) :=
  ⟨⟨rfl, rfl, rfl, by decide,
    (flush_live_target exSrv exFlushIdle 0 1 exFlushReq exFlushIdleTarget rfl rfl rfl).1
      (by decide)⟩,
   ⟨rfl, rfl, rfl, by decide,
    (flush_live_target exSrv exFlushBusy 0 1 exFlushReq exFlushBusyTarget rfl rfl rfl).2
      (by decide)⟩⟩

/-- C13: a flush whose `Oldtag` has no entry in the tag table: the only step is
the response to the flush request, an `Rflush` (not an error); every request
keeps its status, its flush chain and its `next` pointer; the tag table is
unchanged; the backend `Flush` hook is not invoked. -/
theorem flush_unknown_tag (srv : Srv) (w : World) (r : Nat) (req : Req)
    (hr : w.reqAt r = some req) (hl : w.lookupReq req.Tc.Oldtag = none) :
    ∃ w1, srv.flush w r = some w1
      ∧ w1.trace = w.trace ++ [Event.Respond r (some { Type_ := Rflush, Tag := req.Tc.Tag })]
      ∧ w1.Reqs = w.Reqs ∧ w1.fids = w.fids
      ∧ ∀ p q, w.reqAt p = some q → ∃ q1, w1.reqAt p = some q1 ∧ q1.status = q.status
          ∧ q1.flushreq = q.flushreq ∧ q1.next = q.next := by
  have e0 := World.reqAt_setReq_self w r req
    { req with Rc := some { Type_ := Rflush, Tag := req.Tc.Tag } } hr
  unfold Srv.flush
  simp only [hr, World.lookupReq_setReq, hl, World.Respond, e0]
  refine ⟨_, rfl, rfl, rfl, rfl, ?_⟩
  intro p q hp
  obtain ⟨q1, h1, h2, h3, h4, _⟩ :=
    reqAt_setRc w r req (some { Type_ := Rflush, Tag := req.Tc.Tag }) hr p q hp
  exact ⟨q1, h1, h2, h4, h3⟩

theorem flush_unknown_tag_witness :
    exFlushNone.reqAt 0 = some exFlushReq ∧ exFlushNone.lookupReq exFlushReq.Tc.Oldtag = none
      ∧ ∃ w1, exSrv.flush exFlushNone 0 = some w1
        ∧ w1.trace = exFlushNone.trace ++
            [Event.Respond 0 (some { Type_ := Rflush, Tag := exFlushReq.Tc.Tag })]
        ∧ w1.Reqs = exFlushNone.Reqs ∧ w1.fids = exFlushNone.fids
        ∧ ∀ p q, exFlushNone.reqAt p = some q → ∃ q1, w1.reqAt p = some q1
            ∧ q1.status = q.status ∧ q1.flushreq = q.flushreq ∧ q1.next = q.next :=
  ⟨rfl, rfl, flush_unknown_tag exSrv exFlushNone 0 exFlushReq rfl rfl⟩

/-! ## Partial walks and the source fid -/

/-- C19 (the code departs from the claim): on `exWalkSamePartial` the walk names
the source handle as destination and asks for two elements; the `Rwalk` carries
one qid, of a regular file.  After `walk` and `walkPost` the source fid's type
is that of the qid (0), no longer the directory type it had before the
request. -/
theorem walkPost_partial_same_handle_sets_type :
    exWalkSamePartial.reqAt 0 = some exWalkSamePartialReq
      ∧ exWalkSamePartialReq.Tc.Newfid = exWalkSamePartialReq.Tc.Fid
      ∧ exRwalkOneFile.Type_ = Rwalk
      ∧ 0 < exRwalkOneFile.Wqid.length
      ∧ exRwalkOneFile.Wqid.length < exWalkSamePartialReq.Tc.Wname.length
      ∧ (exWalkSamePartial.fidAt 0).map Fid.Type_ = some QTDIR
      ∧ ((serve exSrv.walk exSrv.walkPost exWalkSamePartial 0 exRwalkOneFile).bind
          (fun w => w.fidAt 0)).map Fid.Type_ = some 0
      ∧ QTDIR ≠ 0 :=
  ⟨rfl, rfl, rfl, by decide, by decide, rfl, rfl, by decide⟩

/-! ## The sweep of `version` -/

theorem flagUpd_nil (a : List Req) : FlagUpd [] a a :=
  ⟨sameButStatus_refl a, fun _ q h => ⟨q, h, by simp⟩⟩

theorem flagUpd_trans {L1 L2 : List Nat} {a b c : List Req} (h1 : FlagUpd L1 a b)
    (h2 : FlagUpd L2 b c) : FlagUpd (L1 ++ L2) a c := by
  refine ⟨sameButStatus_trans h2.1 h1.1, ?_⟩
  intro p q hp
  obtain ⟨q1, hq1, hs1⟩ := h1.2 p q hp
  obtain ⟨q2, hq2, hs2⟩ := h2.2 p q1 hq1
  refine ⟨q2, hq2, ?_⟩
  rw [hs2, hs1]
  by_cases m1 : p ∈ L1 <;> by_cases m2 : p ∈ L2 <;>
    simp [m1, m2, Nat.or_assoc]

theorem flagUpd_set (a : List Req) (p : Nat) (q : Req) (h : a[p]? = some q) :
    FlagUpd [p] a (a.set p { q with status := q.status ||| reqFlush }) := by
  refine ⟨sameButStatus_set_status a p q _ h, ?_⟩
  intro i qi hi
  by_cases hpi : p = i
  · subst hpi
    rw [h] at hi
    cases hi
    exact ⟨_, set_getElem?_of_some a p q _ h, by simp⟩
  · refine ⟨qi, by rw [List.getElem?_set_ne hpi]; exact hi, ?_⟩
    have hip : ¬ i = p := fun e => hpi e.symm
    simp [hip]

theorem chainAddrs_congr {a b : List Req} (h : SameNext a b) (fuel : Nat) (p : Option Nat) :
    chainAddrs fuel a p = chainAddrs fuel b p := by
  induction fuel generalizing p with
  | zero => cases p <;> simp [chainAddrs]
  | succ n ih =>
    cases p with
    | none => simp [chainAddrs]
    | some p =>
      have hp := sameNext_getElem? h p
      cases ha : a[p]? with
      | none =>
        cases hb : b[p]? with
        | none => simp [chainAddrs, ha, hb]
        | some qb => rw [ha, hb] at hp; cases hp
      | some qa =>
        cases hb : b[p]? with
        | none => rw [ha, hb] at hp; cases hp
        | some qb =>
          rw [ha, hb] at hp
          have hn : qa.next = qb.next := Option.some.inj hp
          simp [chainAddrs, ha, hb, hn, ih]

/-- The inner loop of `version` sets `reqFlush` on exactly the requests of the
chain. -/
theorem flagChain_upd (fuel : Nat) (reqs : List Req) (p : Option Nat)
    (h : chainEnds fuel reqs p = true) :
    ∃ reqs1, flagChain fuel reqs p = some reqs1
      ∧ FlagUpd (chainAddrs fuel reqs p) reqs reqs1 := by
  induction fuel generalizing reqs p with
  | zero =>
    cases p with
    | none => exact ⟨reqs, by simp [flagChain], by simpa [chainAddrs] using flagUpd_nil reqs⟩
    | some p => simp [chainEnds] at h
  | succ n ih =>
    cases p with
    | none => exact ⟨reqs, by simp [flagChain], by simpa [chainAddrs] using flagUpd_nil reqs⟩
    | some p =>
      cases hq : reqs[p]? with
      | none => simp [chainEnds, hq] at h
      | some rr =>
        simp only [chainEnds, hq] at h
        have hu := flagUpd_set reqs p rr hq
        have hs := sameNext_of_sameButStatus hu.1
        have h1 : chainEnds n (reqs.set p { rr with status := rr.status ||| reqFlush }) rr.next
            = true := by rw [chainEnds_congr hs]; exact h
        obtain ⟨reqs1, e1, u1⟩ := ih _ _ h1
        refine ⟨reqs1, by simp [flagChain, hq, e1], ?_⟩
        have := flagUpd_trans hu u1
        rw [chainAddrs_congr hs] at this
        simpa [chainAddrs, hq] using this

/-- The sweep of `version` sets `reqFlush` on exactly the requests reachable
under a tag other than `NOTAG`. -/
theorem flagAll_upd (tbl : List (Nat × Nat)) (reqs0 reqs : List Req)
    (hs : SameNext reqs reqs0)
    (h : ∀ kv ∈ tbl, kv.1 ≠ NOTAG → chainEnds reqs0.length reqs0 (some kv.2) = true) :
    ∃ reqs1, flagAll tbl reqs = some reqs1 ∧ FlagUpd (flaggedAddrs tbl reqs0) reqs reqs1 := by
  induction tbl generalizing reqs with
  | nil => exact ⟨reqs, by simp [flagAll], by simpa [flaggedAddrs] using flagUpd_nil reqs⟩
  | cons kv rest ih =>
    obtain ⟨tag, r⟩ := kv
    by_cases ht : tag = NOTAG
    · obtain ⟨reqs1, e1, u1⟩ := ih reqs hs (fun kv hkv => h kv (List.mem_cons_of_mem _ hkv))
      exact ⟨reqs1, by simp [flagAll, ht, e1], by simpa [flaggedAddrs, ht] using u1⟩
    · have h0 := h (tag, r) (List.mem_cons_self _ _) ht
      have h1 : chainEnds reqs.length reqs (some r) = true := by
        rw [sameNext_length hs, chainEnds_congr hs]; exact h0
      obtain ⟨reqs2, e2, u2⟩ := flagChain_upd _ _ _ h1
      have hs2 : SameNext reqs2 reqs0 := sameNext_trans (sameNext_of_sameButStatus u2.1) hs
      obtain ⟨reqs1, e1, u1⟩ := ih reqs2 hs2 (fun kv hkv => h kv (List.mem_cons_of_mem _ hkv))
      refine ⟨reqs1, by simp [flagAll, ht, e2, e1], ?_⟩
      have := flagUpd_trans u2 u1
      rw [sameNext_length hs, chainAddrs_congr hs] at this
      simpa [flaggedAddrs, ht] using this

theorem mem_flaggedAddrs (tbl : List (Nat × Nat)) (reqs : List Req) (kv : Nat × Nat)
    (hkv : kv ∈ tbl) (hne : kv.1 ≠ NOTAG) (a : Nat)
    (ha : a ∈ chainAddrs reqs.length reqs (some kv.2)) : a ∈ flaggedAddrs tbl reqs := by
  induction tbl with
  | nil => cases hkv
  | cons hd rest ih =>
    obtain ⟨tag, r⟩ := hd
    rcases List.mem_cons.mp hkv with h | h
    · subst h
      simp only [flaggedAddrs, List.mem_append]
      left
      simp only [] at hne
      simpa [hne] using ha
    · simp only [flaggedAddrs, List.mem_append]
      right
      exact ih h

/-- The accepting branch of `version`, given the heap that the sweep returns. -/
theorem version_accept_eq (srv : Srv) (w : World) (r : Nat) (req qr : Req) (reqs1 : List Req)
    (hr : w.reqAt r = some req) (hge : ¬ req.Tc.Msize < IOHDRSZ)
    (e1 : flagAll w.Reqs w.reqs = some reqs1) (hq : reqs1[r]? = some qr) :
    ∃ fc : Fcall, fc.Type_ = Rversion ∧ fc.Msize = min req.Tc.Msize w.Msize
      ∧ srv.version w r = some ((World.setReq
          { w with Msize := min req.Tc.Msize w.Msize,
                   Dotu := (req.Tc.Version == "9P2000.u") && srv.Dotu,
                   reqs := reqs1, Versioned := (w.Versioned + 1) % 2 ^ 32 } r
          { qr with Rc := some fc }).emit (Event.Respond r (some fc))) := by
  refine ⟨{ Type_ := Rversion, Tag := req.Tc.Tag, Msize := min req.Tc.Msize w.Msize,
            Version := if ((req.Tc.Version == "9P2000.u") && srv.Dotu) = true then "9P2000.u"
              else "9P2000" }, rfl, rfl, ?_⟩
  have hv : srv.version w r = World.respondWith
      { w with Msize := min req.Tc.Msize w.Msize,
               Dotu := (req.Tc.Version == "9P2000.u") && srv.Dotu,
               reqs := reqs1, Versioned := (w.Versioned + 1) % 2 ^ 32 } r
      { Type_ := Rversion, Tag := req.Tc.Tag, Msize := min req.Tc.Msize w.Msize,
        Version := if ((req.Tc.Version == "9P2000.u") && srv.Dotu) = true then "9P2000.u"
          else "9P2000" } := by
    unfold Srv.version
    simp only [hr, hge, if_false]
    by_cases hm : req.Tc.Msize < w.Msize
    · have hmin : min req.Tc.Msize w.Msize = req.Tc.Msize :=
        Nat.min_eq_left (Nat.le_of_lt hm)
      simp only [hm, if_true, e1, hmin]
    · have hmin : min req.Tc.Msize w.Msize = w.Msize :=
        Nat.min_eq_right (Nat.le_of_not_lt hm)
      simp only [hm, if_false, e1, hmin]
  rw [World.respondWith_eq _ r qr _ (by exact hq)] at hv
  exact hv

/-- The status of every request after an accepted `version`: `reqFlush` is set on
the requests reachable under a tag other than `NOTAG`, nothing else changes. -/
theorem version_status (srv : Srv) (w : World) (r : Nat) (req : Req)
    (hwf : w.ChainsOk) (hr : w.reqAt r = some req) (hge : IOHDRSZ ≤ req.Tc.Msize) :
    ∃ w1, srv.version w r = some w1
      ∧ w1.Versioned = (w.Versioned + 1) % 2 ^ 32 ∧ w1.Reqs = w.Reqs
      ∧ ∀ a q, w.reqAt a = some q → ∃ q1, w1.reqAt a = some q1
          ∧ q1.status = (if a ∈ flaggedAddrs w.Reqs w.reqs then q.status ||| reqFlush
              else q.status)
          ∧ q1.next = q.next ∧ q1.flushreq = q.flushreq := by
  obtain ⟨reqs1, e1, u1⟩ := flagAll_upd w.Reqs w.reqs w.reqs (sameNext_refl _) hwf
  obtain ⟨qr, hqr, _⟩ := u1.2 r req hr
  obtain ⟨fc, _, _, hv⟩ := version_accept_eq srv w r req qr reqs1 hr (Nat.not_lt.mpr hge) e1 hqr
  refine ⟨_, hv, rfl, rfl, ?_⟩
  intro a q ha
  obtain ⟨q1, hq1, hs1⟩ := u1.2 a q ha
  have he := sameButStatus_getElem? u1.1 a
  unfold World.reqAt at ha
  rw [hq1, ha] at he
  have he2 : q1.eraseStatus = q.eraseStatus := Option.some.inj he
  have hnext : q1.next = q.next := by
    have := congrArg Req.next he2
    simpa [Req.eraseStatus] using this
  have hfl : q1.flushreq = q.flushreq := by
    have := congrArg Req.flushreq he2
    simpa [Req.eraseStatus] using this
  obtain ⟨q2, h2, hs2, hn2, hf2, _⟩ := reqAt_setRc
    { w with Msize := min req.Tc.Msize w.Msize,
             Dotu := (req.Tc.Version == "9P2000.u") && srv.Dotu,
             reqs := reqs1, Versioned := (w.Versioned + 1) % 2 ^ 32 } r qr (some fc) hqr a q1 hq1
  exact ⟨q2, h2, by rw [hs2, hs1], by rw [hn2, hnext], by rw [hf2, hfl]⟩

/-- C11 (counterexample): on `exVersionWrap` the request passes the size check
and the counter `Versioned` stands at `2^32 - 1`; after `version` it is 0, not
`2^32`. -/
theorem version_counter_wraps :
    exVersionWrap.reqAt 0 = some exVersionWrapReq ∧ IOHDRSZ ≤ exVersionWrapReq.Tc.Msize
      ∧ exVersionWrap.Versioned = 4294967295
      ∧ (exSrv.version exVersionWrap 0).map World.Versioned = some 0 :=
  ⟨rfl, by decide, rfl, rfl⟩

/-- C11 (amended): after a `version` request that passes the size check, on a
connection whose chains are proper lists: every request reachable from the tag
table under a tag other than `NOTAG` (the entry and every request on its `next`
chain) has `reqFlush` set in its status, all other bits unchanged; every request
that is on no such chain, so every request stored under `NOTAG` that is not also
chained under another tag, keeps its status; and `Versioned` has grown by one
modulo `2^32`. -/
theorem version_flags_outstanding (srv : Srv) (w : World) (r : Nat) (req : Req)
    (hwf : w.ChainsOk) (hr : w.reqAt r = some req) (hge : IOHDRSZ ≤ req.Tc.Msize) :
    ∃ w1, srv.version w r = some w1
      ∧ w1.Versioned = (w.Versioned + 1) % 2 ^ 32
      ∧ (w.Versioned + 1 < 2 ^ 32 → w1.Versioned = w.Versioned + 1)
      ∧ (∀ kv ∈ w.Reqs, kv.1 ≠ NOTAG →
          ∀ a ∈ chainAddrs w.reqs.length w.reqs (some kv.2), ∀ q, w.reqAt a = some q →
            ∃ q1, w1.reqAt a = some q1 ∧ q1.status = q.status ||| reqFlush
              ∧ q1.status.testBit 0 = true
              ∧ ∀ i, i ≠ 0 → q1.status.testBit i = q.status.testBit i)
      ∧ (∀ a q, w.reqAt a = some q → a ∉ flaggedAddrs w.Reqs w.reqs →
          ∃ q1, w1.reqAt a = some q1 ∧ q1.status = q.status)
      ∧ (∀ kv ∈ w.Reqs, kv.1 = NOTAG →
          ∀ a ∈ chainAddrs w.reqs.length w.reqs (some kv.2),
            a ∉ flaggedAddrs w.Reqs w.reqs → ∀ q, w.reqAt a = some q →
              ∃ q1, w1.reqAt a = some q1 ∧ q1.status = q.status) := by
  obtain ⟨w1, hv, hver, _, hst⟩ := version_status srv w r req hwf hr hge
  refine ⟨w1, hv, hver, ?_, ?_, ?_, ?_⟩
  · intro hlt
    rw [hver, Nat.mod_eq_of_lt hlt]
  · intro kv hkv hne a ha q hq
    obtain ⟨q1, h1, h2, _⟩ := hst a q hq
    have hm := mem_flaggedAddrs w.Reqs w.reqs kv hkv hne a ha
    rw [if_pos hm] at h2
    refine ⟨q1, h1, h2, ?_, ?_⟩
    · rw [h2]
      exact (testBit_lor_reqFlush q.status).1
    · intro i hi
      rw [h2]
      exact (testBit_lor_reqFlush q.status).2 i hi
  · intro a q hq hn
    obtain ⟨q1, h1, h2, _⟩ := hst a q hq
    rw [if_neg hn] at h2
    exact ⟨q1, h1, h2⟩
  · intro kv _ _ a _ hn q hq
    obtain ⟨q1, h1, h2, _⟩ := hst a q hq
    rw [if_neg hn] at h2
    exact ⟨q1, h1, h2⟩

theorem version_flags_outstanding_witness :
    exVersionChain.ChainsOk ∧ exVersionChain.reqAt 0 = some exVersionChainReq
      ∧ IOHDRSZ ≤ exVersionChainReq.Tc.Msize
      ∧ chainAddrs exVersionChain.reqs.length exVersionChain.reqs (some 1) = [1, 2]
      ∧ flaggedAddrs exVersionChain.Reqs exVersionChain.reqs = [1, 2]
      ∧ ∃ w1, exSrv.version exVersionChain 0 = some w1
        ∧ w1.Versioned = (exVersionChain.Versioned + 1) % 2 ^ 32
        ∧ (exVersionChain.Versioned + 1 < 2 ^ 32 → w1.Versioned = exVersionChain.Versioned + 1)
        ∧ (∀ kv ∈ exVersionChain.Reqs, kv.1 ≠ NOTAG →
            ∀ a ∈ chainAddrs exVersionChain.reqs.length exVersionChain.reqs (some kv.2),
              ∀ q, exVersionChain.reqAt a = some q →
                ∃ q1, w1.reqAt a = some q1 ∧ q1.status = q.status ||| reqFlush
                  ∧ q1.status.testBit 0 = true
                  ∧ ∀ i, i ≠ 0 → q1.status.testBit i = q.status.testBit i)
        ∧ (∀ a q, exVersionChain.reqAt a = some q →
            a ∉ flaggedAddrs exVersionChain.Reqs exVersionChain.reqs →
            ∃ q1, w1.reqAt a = some q1 ∧ q1.status = q.status)
        ∧ (∀ kv ∈ exVersionChain.Reqs, kv.1 = NOTAG →
            ∀ a ∈ chainAddrs exVersionChain.reqs.length exVersionChain.reqs (some kv.2),
              a ∉ flaggedAddrs exVersionChain.Reqs exVersionChain.reqs →
              ∀ q, exVersionChain.reqAt a = some q →
                ∃ q1, w1.reqAt a = some q1 ∧ q1.status = q.status) :=
  have hwf : exVersionChain.ChainsOk := by unfold World.ChainsOk; decide
  ⟨hwf, rfl, by decide, rfl, rfl,
    version_flags_outstanding exSrv exVersionChain 0 exVersionChainReq hwf rfl (by decide)⟩

/-! ## The flush chain -/

theorem flushChain_mono (n : Nat) (reqs : List Req) (p : Option Nat) (L : List Nat)
    (h : flushChain n reqs p = some L) : flushChain (n + 1) reqs p = some L := by
  induction n generalizing p L with
  | zero =>
    cases p with
    | none => simpa [flushChain] using h
    | some p => simp [flushChain] at h
  | succ n ih =>
    cases p with
    | none => simpa [flushChain] using h
    | some p =>
      cases hq : reqs[p]? with
      | none => simp [flushChain, hq] at h
      | some q =>
        simp only [flushChain, hq, Option.map_eq_some'] at h
        obtain ⟨l, hl, rfl⟩ := h
        have := ih _ _ hl
        simp [flushChain, hq, this]

theorem flushChain_mono_le (n m : Nat) (reqs : List Req) (p : Option Nat) (L : List Nat)
    (h : flushChain n reqs p = some L) (hnm : n ≤ m) : flushChain m reqs p = some L := by
  induction hnm with
  | refl => exact h
  | step _ ih => exact flushChain_mono _ _ _ _ ih

/-- From a member of a chain the chain goes on with a strictly shorter chain. -/
theorem flushChain_tail (n : Nat) (reqs : List Req) (p : Option Nat) (L : List Nat)
    (h : flushChain n reqs p = some L) (x : Nat) (hx : x ∈ L) (qx : Req)
    (hqx : reqs[x]? = some qx) :
    ∃ L2, flushChain n reqs qx.flushreq = some L2 ∧ L2.length < L.length := by
  induction n generalizing p L with
  | zero =>
    cases p with
    | none =>
      simp only [flushChain, Option.some.injEq] at h
      subst h
      cases hx
    | some p => simp [flushChain] at h
  | succ n ih =>
    cases p with
    | none =>
      simp only [flushChain, Option.some.injEq] at h
      subst h
      cases hx
    | some p =>
      cases hq : reqs[p]? with
      | none => simp [flushChain, hq] at h
      | some q =>
        simp only [flushChain, hq, Option.map_eq_some'] at h
        obtain ⟨l, hl, rfl⟩ := h
        rcases List.mem_cons.mp hx with hxp | hxl
        · subst hxp
          rw [hq] at hqx
          cases hqx
          exact ⟨l, flushChain_mono _ _ _ _ hl, by simp⟩
        · obtain ⟨L2, h2, hlen⟩ := ih _ _ hl hxl
          exact ⟨L2, flushChain_mono _ _ _ _ h2, by simp; omega⟩

/-- A request is not on the chain that starts at its own `flushreq`, when that
chain ends. -/
theorem not_mem_own_flushChain (n : Nat) (reqs : List Req) (t : Nat) (tq : Req) (L : List Nat)
    (ht : reqs[t]? = some tq) (h : flushChain n reqs tq.flushreq = some L) : t ∉ L := by
  intro hmem
  obtain ⟨L2, h2, hlen⟩ := flushChain_tail n reqs _ L h t hmem tq ht
  rw [h] at h2
  cases h2
  exact Nat.lt_irrefl _ hlen

/-- A chain is the same in a heap that agrees on the requests of the chain. -/
theorem flushChain_congr_on (n : Nat) (a b : List Req) (p : Option Nat) (L : List Nat)
    (h : flushChain n a p = some L) (hab : ∀ x ∈ L, b[x]? = a[x]?) :
    flushChain n b p = some L := by
  induction n generalizing p L with
  | zero =>
    cases p with
    | none => simpa [flushChain] using h
    | some p => simp [flushChain] at h
  | succ n ih =>
    cases p with
    | none => simpa [flushChain] using h
    | some p =>
      cases hq : a[p]? with
      | none => simp [flushChain, hq] at h
      | some q =>
        simp only [flushChain, hq, Option.map_eq_some'] at h
        obtain ⟨l, hl, rfl⟩ := h
        have hb : b[p]? = some q := by rw [hab p (List.mem_cons_self _ _)]; exact hq
        have := ih _ _ hl (fun x hx => hab x (List.mem_cons_of_mem _ hx))
        simp [flushChain, hb, this]

/-- One `flush` of a live target by a request that is neither the target nor on
its flush chain puts the request in front of the chain. -/
theorem flush_chain_step (srv : Srv) (w : World) (r t n : Nat) (req tq : Req) (L : List Nat)
    (hr : w.reqAt r = some req) (hl : w.lookupReq req.Tc.Oldtag = some t)
    (ht : w.reqAt t = some tq) (hne : r ≠ t)
    (hch : flushChain n w.reqs tq.flushreq = some L) (hnot : r ∉ L) :
    ∃ w1 tq1, srv.flush w r = some w1 ∧ w1.reqAt t = some tq1
      ∧ flushChain (n + 1) w1.reqs tq1.flushreq = some (r :: L)
      ∧ w1.Reqs = w.Reqs ∧ (∀ p, p ≠ r → p ≠ t → w1.reqAt p = w.reqAt p) := by
  obtain ⟨w1, rq1, tq1, hv, hrq, htq1, hrqeq, htqeq, hframe, hReqs, _⟩ :=
    flush_live_ne srv w r t req tq hr hl ht hne
  have htL : t ∉ L := not_mem_own_flushChain n w.reqs t tq L ht hch
  have hcon : flushChain n w1.reqs tq.flushreq = some L := by
    apply flushChain_congr_on n w.reqs w1.reqs _ L hch
    intro x hx
    have hxr : x ≠ r := fun e => hnot (e ▸ hx)
    have hxt : x ≠ t := fun e => htL (e ▸ hx)
    exact hframe x hxr hxt
  refine ⟨w1, tq1, hv, htq1, ?_, hReqs, hframe⟩
  have h1 : tq1.flushreq = some r := by rw [htqeq]
  have h2 : rq1.flushreq = tq.flushreq := by rw [hrqeq]
  have h3 : w1.reqs[r]? = some rq1 := hrq
  rw [h1]
  simp [flushChain, h3, h2, hcon]

theorem flushSeq_chain (srv : Srv) (rs : List Nat) (w : World) (t n : Nat) (tq : Req)
    (L : List Nat) (ht : w.reqAt t = some tq)
    (hch : flushChain n w.reqs tq.flushreq = some L) (hnd : rs.Nodup)
    (hrs : ∀ x ∈ rs, x ≠ t ∧ x ∉ L
      ∧ ∃ q, w.reqAt x = some q ∧ w.lookupReq q.Tc.Oldtag = some t) :
    ∃ w2 tq2, flushSeq srv w rs = some w2 ∧ w2.reqAt t = some tq2
      ∧ flushChain (n + rs.length) w2.reqs tq2.flushreq = some (rs.reverse ++ L) := by
  induction rs generalizing w n tq L with
  | nil => exact ⟨w, tq, rfl, ht, by simpa using hch⟩
  | cons r rest ih =>
    obtain ⟨hrt, hrL, q, hq, hlq⟩ := hrs r (List.mem_cons_self _ _)
    obtain ⟨w1, tq1, hv, htq1, hch1, hReqs, hframe⟩ :=
      flush_chain_step srv w r t n q tq L hq hlq ht hrt hch hrL
    have hnd' := List.nodup_cons.mp hnd
    obtain ⟨w2, tq2, hv2, htq2, hch2⟩ := ih w1 (n + 1) tq1 (r :: L) htq1 hch1 hnd'.2 (by
      intro x hx
      obtain ⟨hxt, hxL, qx, hqx, hlx⟩ := hrs x (List.mem_cons_of_mem _ hx)
      have hxr : x ≠ r := fun e => hnd'.1 (e ▸ hx)
      refine ⟨hxt, ?_, qx, ?_, ?_⟩
      · intro hm
        rcases List.mem_cons.mp hm with h | h
        · exact hxr h
        · exact hxL h
      · rw [hframe x hxr hxt]; exact hqx
      · unfold World.lookupReq at hlx ⊢
        rw [hReqs]; exact hlx)
    refine ⟨w2, tq2, by simp [flushSeq, hv, hv2], htq2, ?_⟩
    have e : n + 1 + rest.length = n + (r :: rest).length := by simp; omega
    rw [e] at hch2
    rw [hch2]
    simp

/-- C20 (counterexample): on `exFlushSelf` the flush request at address 0 names
its own tag, so its target is live and is the request itself, and it is not on
the target's (empty) flush chain.  After `flush` the target's `flushreq` points
to the target itself: the chain is a cycle, it does not consist of the one
flush request.  The flush request at address 1 then names the same target; it
is not the target and not on the target's chain (whose only request is the one
at address 0); after its `flush` the chain is the cycle 1, 0, 1, ..., and the
request at address 0 has not stayed on it "once". -/
theorem flush_self_makes_cycle :
    exFlushSelf.reqAt 0 = some exFlushSelfReq
      ∧ exFlushSelf.lookupReq exFlushSelfReq.Tc.Oldtag = some 0
      ∧ flushChain 1 exFlushSelf.reqs exFlushSelfReq.flushreq = some []
      ∧ ((exSrv.flush exFlushSelf 0).bind (fun w => w.reqAt 0)).map Req.flushreq
          = some (some 0)
      ∧ (exSrv.flush exFlushSelf 0).map (fun w => flushChain 8 w.reqs (some 0)) = some none
      ∧ exFlushSelf.reqAt 1 = some exFlushReq ∧ exFlushReq.Tc.Oldtag = 5
      ∧ ((flushSeq exSrv exFlushSelf [0, 1]).bind (fun w => w.reqAt 0)).map Req.flushreq
          = some (some 1)
      ∧ ((flushSeq exSrv exFlushSelf [0, 1]).bind (fun w => w.reqAt 1)).map Req.flushreq
          = some (some 0)
      ∧ (flushSeq exSrv exFlushSelf [0, 1]).map (fun w => flushChain 8 w.reqs (some 1))
          = some none :=
  ⟨rfl, rfl, rfl, rfl, rfl, rfl, rfl, rfl, rfl, rfl⟩

/-- C20 (amended): a flush whose `Oldtag` maps to a live request `t` whose flush
chain is a proper list `L` (following `flushreq` from the target it reaches
`nil`, within `n` requests), issued by a request `r` that is neither the target
itself nor on `L`.  After `flush` the target's flush chain is again a proper
list, `r` followed by `L`: the requests that were on it are all still there, in
their order, and the length has grown by one.  And after `k` successive flushes
of the same target by `k` different such requests, the chain holds all `k` of
them (latest first) in front of `L`. -/
theorem flush_chain_grows (srv : Srv) (w : World) (r t n : Nat) (req tq : Req) (L : List Nat)
    (hr : w.reqAt r = some req) (hl : w.lookupReq req.Tc.Oldtag = some t)
    (ht : w.reqAt t = some tq) (hne : r ≠ t)
    (hch : flushChain n w.reqs tq.flushreq = some L) (hnot : r ∉ L) :
    (∃ w1 tq1, srv.flush w r = some w1 ∧ w1.reqAt t = some tq1
      ∧ flushChain (n + 1) w1.reqs tq1.flushreq = some (r :: L)
      ∧ (r :: L).length = L.length + 1 ∧ (∀ x ∈ L, x ∈ r :: L))
    ∧ ∀ rs : List Nat, rs.Nodup →
        (∀ x ∈ rs, x ≠ t ∧ x ∉ L
          ∧ ∃ q, w.reqAt x = some q ∧ w.lookupReq q.Tc.Oldtag = some t) →
        ∃ w2 tq2, flushSeq srv w rs = some w2 ∧ w2.reqAt t = some tq2
          ∧ flushChain (n + rs.length) w2.reqs tq2.flushreq = some (rs.reverse ++ L)
          ∧ (rs.reverse ++ L).length = L.length + rs.length
          ∧ (∀ x ∈ rs, x ∈ rs.reverse ++ L) ∧ (∀ x ∈ L, x ∈ rs.reverse ++ L) := by
  refine ⟨?_, ?_⟩
  · obtain ⟨w1, tq1, hv, htq1, hch1, _, _⟩ :=
      flush_chain_step srv w r t n req tq L hr hl ht hne hch hnot
    exact ⟨w1, tq1, hv, htq1, hch1, rfl, fun x hx => List.mem_cons_of_mem _ hx⟩
  · intro rs hnd hrs
    obtain ⟨w2, tq2, hv, htq2, hch2⟩ := flushSeq_chain srv rs w t n tq L ht hch hnd hrs
    refine ⟨w2, tq2, hv, htq2, hch2, ?_, ?_, ?_⟩
    · simp; omega
    · intro x hx
      simp [hx]
    · intro x hx
      simp [hx]

theorem flush_chain_grows_witness :
    exFlushTwo.reqAt 0 = some exFlushReq ∧ exFlushTwo.lookupReq exFlushReq.Tc.Oldtag = some 2
      ∧ exFlushTwo.reqAt 2 = some exFlushBusyTarget ∧ (0 : Nat) ≠ 2
      ∧ flushChain 0 exFlushTwo.reqs exFlushBusyTarget.flushreq = some []
      ∧ (∃ w1 tq1, exSrv.flush exFlushTwo 0 = some w1 ∧ w1.reqAt 2 = some tq1
        ∧ flushChain (0 + 1) w1.reqs tq1.flushreq = some [0]
        ∧ ([0] : List Nat).length = ([] : List Nat).length + 1
        ∧ (∀ x ∈ ([] : List Nat), x ∈ [0]))
      ∧ ∃ w2 tq2, flushSeq exSrv exFlushTwo [0, 1] = some w2 ∧ w2.reqAt 2 = some tq2
        ∧ flushChain (0 + [0, 1].length) w2.reqs tq2.flushreq = some ([0, 1].reverse ++ [])
        ∧ ([0, 1].reverse ++ ([] : List Nat)).length = ([] : List Nat).length + [0, 1].length
        ∧ (∀ x ∈ [0, 1], x ∈ [0, 1].reverse ++ ([] : List Nat))
        ∧ (∀ x ∈ ([] : List Nat), x ∈ [0, 1].reverse ++ ([] : List Nat)) :=
  ⟨rfl, rfl, rfl, by decide, rfl,
    (flush_chain_grows exSrv exFlushTwo 0 2 0 exFlushReq exFlushBusyTarget [] rfl rfl rfl
      (by decide) rfl (by simp)).1,
    (flush_chain_grows exSrv exFlushTwo 0 2 0 exFlushReq exFlushBusyTarget [] rfl rfl rfl
      (by decide) rfl (by simp)).2 [0, 1] (by decide) (by
        intro x hx
        rcases List.mem_cons.mp hx with h | h
        · subst h
          exact ⟨by decide, by simp, exFlushReq, rfl, rfl⟩
        · rcases List.mem_cons.mp h with h1 | h1
          · subst h1
            exact ⟨by decide, by simp, exFlushReq2, rfl, rfl⟩
          · cases h1)⟩

end Ninep
